import Mathlib

/-!
# aws-mfa-go: the credential lifecycle engine

A shallow embedding of `internal/credentials` (section naming, the credentials
store) and `internal/app` (configuration resolution, the refresh decision, the
run), with the properties of the specification proved against it.

Conventions of the embedding:

* A Go `string` is a Lean `String`: the model covers the strings that are valid
  UTF-8, seen as sequences of runes.
* A Go function that returns `(T, error)` returns `Except Err T`.
* The store is a pointer to mutable state in Go; here every operation that can
  touch it returns the store it leaves behind.
* Go's `int` is taken at 64 bits and `int32(x)` wraps modulo `2^32`.
* The INI library `gopkg.in/ini.v1`, opened with `Insensitive: true`, is
  embedded as far as the store uses it: sections created on demand, names
  compared in lower case, the lookup of a key in the parents of a dotted
  section, and the expansion of `%(name)s` in a value.
* `Run` returns a trace: its error, the store it leaves, the file it saves, its
  calls of the STS factory and client, and the lines it prints.
* `SaveAtomic` is given twice: by the step that fails, as `Run` sees it, and
  step by step on a file system.
-/

namespace AwsMfa

/-! ## Go standard library: `unicode`, `strings` -/

/-- Go's `unicode.IsSpace` on a code point: the Latin-1 spaces
`\t \n \v \f \r`, space, U+0085, U+00A0, and the other code points with the
White_Space property. -/
def isSpaceRune (n : Nat) : Bool :=
  n == 0x09 || n == 0x0A || n == 0x0B || n == 0x0C || n == 0x0D || n == 0x20 ||
  n == 0x85 || n == 0xA0 || n == 0x1680 || (0x2000 ≤ n && n ≤ 0x200A) ||
  n == 0x2028 || n == 0x2029 || n == 0x202F || n == 0x205F || n == 0x3000

/-- Go's `unicode.IsSpace`. -/
def isSpace (c : Char) : Bool := isSpaceRune c.toNat

/-- Runes of a string with the leading white space removed. -/
def trimLeftRunes (cs : List Char) : List Char := cs.dropWhile isSpace

/-- Runes of a string with the trailing white space removed. -/
def trimRightRunes (cs : List Char) : List Char := (cs.reverse.dropWhile isSpace).reverse

/-- Go's `strings.TrimSpace`: the string without its leading and trailing
white space, as defined by Unicode. -/
def TrimSpace (s : String) : String := ⟨trimRightRunes (trimLeftRunes s.data)⟩

/-- Go's `unicode.SimpleFold` on a code point, for the folding orbits that
contain an ASCII letter: `K k U+212A`, `S s U+017F`, and the two-element orbit
of every other ASCII letter. Every other code point is mapped to itself, so
the model of `EqualFold` below is exact whenever one of the two strings is
ASCII. -/
def SimpleFold (r : Nat) : Nat :=
  if r = 0x4B then 0x6B
  else if r = 0x6B then 0x212A
  else if r = 0x212A then 0x4B
  else if r = 0x53 then 0x73
  else if r = 0x73 then 0x17F
  else if r = 0x17F then 0x53
  else if 0x41 ≤ r ∧ r ≤ 0x5A then r + 0x20
  else if 0x61 ≤ r ∧ r ≤ 0x7A then r - 0x20
  else r

/-- The loop `for r != sr && r < tr { r = unicode.SimpleFold(r) }` of
`strings.EqualFold`; an orbit has at most four elements. -/
def foldUpTo (sr tr : Nat) : Nat → Nat → Nat
  | 0, r => r
  | fuel + 1, r => if r ≠ sr ∧ r < tr then foldUpTo sr tr fuel (SimpleFold r) else r

/-- One step of `strings.EqualFold`: do the runes `sr` and `tr` match under
simple case folding. -/
def equalFoldRune (sr tr : Nat) : Bool :=
  if tr = sr then true
  else
    let lo := if tr < sr then tr else sr
    let hi := if tr < sr then sr else tr
    if hi < 0x80 then
      decide (0x41 ≤ lo ∧ lo ≤ 0x5A ∧ hi = lo + 0x20)
    else
      foldUpTo lo hi 4 (SimpleFold lo) == hi

/-- The rune-by-rune comparison of `strings.EqualFold`. -/
def equalFoldRunes : List Char → List Char → Bool
  | [], [] => true
  | [], _ :: _ => false
  | _ :: _, [] => false
  | a :: s, b :: t => equalFoldRune a.toNat b.toNat && equalFoldRunes s t

/-- Go's `strings.EqualFold`: equality under simple Unicode case folding. -/
def EqualFold (s t : String) : Bool := equalFoldRunes s.data t.data

/-- Lower-casing of an ASCII code point; other code points are unchanged. -/
def lowerRune (n : Nat) : Nat := if 0x41 ≤ n ∧ n ≤ 0x5A then n + 0x20 else n

/-- Spec wording "equals ... ignoring letter case": the two strings have the
same runes once every ASCII capital letter is replaced by its small letter. -/
def equalsIgnoringCase (s t : String) : Prop :=
  s.data.map (fun c => lowerRune c.toNat) = t.data.map (fun c => lowerRune c.toNat)

instance (s t : String) : Decidable (equalsIgnoringCase s t) := by
  unfold equalsIgnoringCase; infer_instance

/-- A range of code points with a lower-case mapping, as in Go's
`unicode.CaseRanges`: every code point from `lo` to `hi` is moved up by `up`
and down by `down`; in an alternating range (Go's `UpperLower`) the code points
at an even distance from `lo` are capital letters, each followed by its small
letter. -/
structure LowerRange where
  lo : Nat
  hi : Nat
  up : Nat
  down : Nat
  alternating : Bool

/-- The ranges from U+00C0 to U+018A. -/
def lowerRanges1 : List LowerRange :=
  [⟨0xC0, 0xD6, 32, 0, false⟩, ⟨0xD8, 0xDE, 32, 0, false⟩, ⟨0x100, 0x12F, 0, 0, true⟩,
   ⟨0x130, 0x130, 0, 199, false⟩, ⟨0x132, 0x137, 0, 0, true⟩, ⟨0x139, 0x148, 0, 0, true⟩,
   ⟨0x14A, 0x177, 0, 0, true⟩, ⟨0x178, 0x178, 0, 121, false⟩, ⟨0x179, 0x179, 1, 0, false⟩,
   ⟨0x17B, 0x17E, 0, 0, true⟩, ⟨0x181, 0x181, 210, 0, false⟩, ⟨0x182, 0x182, 1, 0, false⟩,
   ⟨0x184, 0x184, 1, 0, false⟩, ⟨0x186, 0x186, 206, 0, false⟩, ⟨0x187, 0x187, 1, 0, false⟩,
   ⟨0x189, 0x18A, 205, 0, false⟩]

/-- The ranges from U+018B to U+01A6. -/
def lowerRanges2 : List LowerRange :=
  [⟨0x18B, 0x18B, 1, 0, false⟩, ⟨0x18E, 0x18E, 79, 0, false⟩, ⟨0x18F, 0x18F, 202, 0, false⟩,
   ⟨0x190, 0x190, 203, 0, false⟩, ⟨0x191, 0x191, 1, 0, false⟩, ⟨0x193, 0x193, 205, 0, false⟩,
   ⟨0x194, 0x194, 207, 0, false⟩, ⟨0x196, 0x196, 211, 0, false⟩, ⟨0x197, 0x197, 209, 0, false⟩,
   ⟨0x198, 0x198, 1, 0, false⟩, ⟨0x19C, 0x19C, 211, 0, false⟩, ⟨0x19D, 0x19D, 213, 0, false⟩,
   ⟨0x19F, 0x19F, 214, 0, false⟩, ⟨0x1A0, 0x1A0, 1, 0, false⟩, ⟨0x1A2, 0x1A5, 0, 0, true⟩,
   ⟨0x1A6, 0x1A6, 218, 0, false⟩]

/-- The ranges from U+01A7 to U+01CA. -/
def lowerRanges3 : List LowerRange :=
  [⟨0x1A7, 0x1A7, 1, 0, false⟩, ⟨0x1A9, 0x1A9, 218, 0, false⟩, ⟨0x1AC, 0x1AC, 1, 0, false⟩,
   ⟨0x1AE, 0x1AE, 218, 0, false⟩, ⟨0x1AF, 0x1AF, 1, 0, false⟩, ⟨0x1B1, 0x1B2, 217, 0, false⟩,
   ⟨0x1B3, 0x1B3, 1, 0, false⟩, ⟨0x1B5, 0x1B5, 1, 0, false⟩, ⟨0x1B7, 0x1B7, 219, 0, false⟩,
   ⟨0x1B8, 0x1B8, 1, 0, false⟩, ⟨0x1BC, 0x1BC, 1, 0, false⟩, ⟨0x1C4, 0x1C4, 2, 0, false⟩,
   ⟨0x1C5, 0x1C5, 1, 0, false⟩, ⟨0x1C7, 0x1C7, 2, 0, false⟩, ⟨0x1C8, 0x1C8, 1, 0, false⟩,
   ⟨0x1CA, 0x1CA, 2, 0, false⟩]

/-- The ranges from U+01CB to U+023E. -/
def lowerRanges4 : List LowerRange :=
  [⟨0x1CB, 0x1CB, 1, 0, false⟩, ⟨0x1CD, 0x1DC, 0, 0, true⟩, ⟨0x1DE, 0x1EF, 0, 0, true⟩,
   ⟨0x1F1, 0x1F1, 2, 0, false⟩, ⟨0x1F2, 0x1F2, 1, 0, false⟩, ⟨0x1F4, 0x1F4, 1, 0, false⟩,
   ⟨0x1F6, 0x1F6, 0, 97, false⟩, ⟨0x1F7, 0x1F7, 0, 56, false⟩, ⟨0x1F8, 0x1F8, 1, 0, false⟩,
   ⟨0x1FA, 0x21F, 0, 0, true⟩, ⟨0x220, 0x220, 0, 130, false⟩, ⟨0x222, 0x233, 0, 0, true⟩,
   ⟨0x23A, 0x23A, 10795, 0, false⟩, ⟨0x23B, 0x23B, 1, 0, false⟩, ⟨0x23D, 0x23D, 0, 163, false⟩,
   ⟨0x23E, 0x23E, 10792, 0, false⟩]

/-- The ranges from U+0241 to U+03CF. -/
def lowerRanges5 : List LowerRange :=
  [⟨0x241, 0x241, 1, 0, false⟩, ⟨0x243, 0x243, 0, 195, false⟩, ⟨0x244, 0x244, 69, 0, false⟩,
   ⟨0x245, 0x245, 71, 0, false⟩, ⟨0x246, 0x246, 1, 0, false⟩, ⟨0x248, 0x24F, 0, 0, true⟩,
   ⟨0x370, 0x373, 0, 0, true⟩, ⟨0x376, 0x376, 1, 0, false⟩, ⟨0x37F, 0x37F, 116, 0, false⟩,
   ⟨0x386, 0x386, 38, 0, false⟩, ⟨0x388, 0x38A, 37, 0, false⟩, ⟨0x38C, 0x38C, 64, 0, false⟩,
   ⟨0x38E, 0x38F, 63, 0, false⟩, ⟨0x391, 0x3A1, 32, 0, false⟩, ⟨0x3A3, 0x3AB, 32, 0, false⟩,
   ⟨0x3CF, 0x3CF, 8, 0, false⟩]

/-- The ranges from U+03D8 to U+10C5. -/
def lowerRanges6 : List LowerRange :=
  [⟨0x3D8, 0x3EF, 0, 0, true⟩, ⟨0x3F4, 0x3F4, 0, 60, false⟩, ⟨0x3F7, 0x3F7, 1, 0, false⟩,
   ⟨0x3F9, 0x3F9, 0, 7, false⟩, ⟨0x3FA, 0x3FA, 1, 0, false⟩, ⟨0x3FD, 0x3FF, 0, 130, false⟩,
   ⟨0x400, 0x40F, 80, 0, false⟩, ⟨0x410, 0x42F, 32, 0, false⟩, ⟨0x460, 0x481, 0, 0, true⟩,
   ⟨0x48A, 0x4BF, 0, 0, true⟩, ⟨0x4C0, 0x4C0, 15, 0, false⟩, ⟨0x4C1, 0x4C1, 1, 0, false⟩,
   ⟨0x4C3, 0x4CE, 0, 0, true⟩, ⟨0x4D0, 0x52F, 0, 0, true⟩, ⟨0x531, 0x556, 48, 0, false⟩,
   ⟨0x10A0, 0x10C5, 7264, 0, false⟩]

/-- The ranges from U+10C7 to U+1F5B. -/
def lowerRanges7 : List LowerRange :=
  [⟨0x10C7, 0x10C7, 7264, 0, false⟩, ⟨0x10CD, 0x10CD, 7264, 0, false⟩,
   ⟨0x13A0, 0x13EF, 38864, 0, false⟩, ⟨0x13F0, 0x13F5, 8, 0, false⟩,
   ⟨0x1C90, 0x1CBA, 0, 3008, false⟩, ⟨0x1CBD, 0x1CBF, 0, 3008, false⟩,
   ⟨0x1E00, 0x1E95, 0, 0, true⟩, ⟨0x1E9E, 0x1E9E, 0, 7615, false⟩,
   ⟨0x1EA0, 0x1EFF, 0, 0, true⟩, ⟨0x1F08, 0x1F0F, 0, 8, false⟩, ⟨0x1F18, 0x1F1D, 0, 8, false⟩,
   ⟨0x1F28, 0x1F2F, 0, 8, false⟩, ⟨0x1F38, 0x1F3F, 0, 8, false⟩, ⟨0x1F48, 0x1F4D, 0, 8, false⟩,
   ⟨0x1F59, 0x1F59, 0, 8, false⟩, ⟨0x1F5B, 0x1F5B, 0, 8, false⟩]

/-- The ranges from U+1F5D to U+1FEC. -/
def lowerRanges8 : List LowerRange :=
  [⟨0x1F5D, 0x1F5D, 0, 8, false⟩, ⟨0x1F5F, 0x1F5F, 0, 8, false⟩, ⟨0x1F68, 0x1F6F, 0, 8, false⟩,
   ⟨0x1F88, 0x1F8F, 0, 8, false⟩, ⟨0x1F98, 0x1F9F, 0, 8, false⟩, ⟨0x1FA8, 0x1FAF, 0, 8, false⟩,
   ⟨0x1FB8, 0x1FB9, 0, 8, false⟩, ⟨0x1FBA, 0x1FBB, 0, 74, false⟩,
   ⟨0x1FBC, 0x1FBC, 0, 9, false⟩, ⟨0x1FC8, 0x1FCB, 0, 86, false⟩,
   ⟨0x1FCC, 0x1FCC, 0, 9, false⟩, ⟨0x1FD8, 0x1FD9, 0, 8, false⟩,
   ⟨0x1FDA, 0x1FDB, 0, 100, false⟩, ⟨0x1FE8, 0x1FE9, 0, 8, false⟩,
   ⟨0x1FEA, 0x1FEB, 0, 112, false⟩, ⟨0x1FEC, 0x1FEC, 0, 7, false⟩]

/-- The ranges from U+1FF8 to U+2C6C. -/
def lowerRanges9 : List LowerRange :=
  [⟨0x1FF8, 0x1FF9, 0, 128, false⟩, ⟨0x1FFA, 0x1FFB, 0, 126, false⟩,
   ⟨0x1FFC, 0x1FFC, 0, 9, false⟩, ⟨0x2126, 0x2126, 0, 7517, false⟩,
   ⟨0x212A, 0x212A, 0, 8383, false⟩, ⟨0x212B, 0x212B, 0, 8262, false⟩,
   ⟨0x2132, 0x2132, 28, 0, false⟩, ⟨0x2160, 0x216F, 16, 0, false⟩,
   ⟨0x2183, 0x2183, 1, 0, false⟩, ⟨0x24B6, 0x24CF, 26, 0, false⟩,
   ⟨0x2C00, 0x2C2F, 48, 0, false⟩, ⟨0x2C60, 0x2C60, 1, 0, false⟩,
   ⟨0x2C62, 0x2C62, 0, 10743, false⟩, ⟨0x2C63, 0x2C63, 0, 3814, false⟩,
   ⟨0x2C64, 0x2C64, 0, 10727, false⟩, ⟨0x2C67, 0x2C6C, 0, 0, true⟩]

/-- The ranges from U+2C6D to U+A77C. -/
def lowerRanges10 : List LowerRange :=
  [⟨0x2C6D, 0x2C6D, 0, 10780, false⟩, ⟨0x2C6E, 0x2C6E, 0, 10749, false⟩,
   ⟨0x2C6F, 0x2C6F, 0, 10783, false⟩, ⟨0x2C70, 0x2C70, 0, 10782, false⟩,
   ⟨0x2C72, 0x2C72, 1, 0, false⟩, ⟨0x2C75, 0x2C75, 1, 0, false⟩,
   ⟨0x2C7E, 0x2C7F, 0, 10815, false⟩, ⟨0x2C80, 0x2C80, 1, 0, false⟩,
   ⟨0x2C82, 0x2CE3, 0, 0, true⟩, ⟨0x2CEB, 0x2CEE, 0, 0, true⟩, ⟨0x2CF2, 0x2CF2, 1, 0, false⟩,
   ⟨0xA640, 0xA66D, 0, 0, true⟩, ⟨0xA680, 0xA69B, 0, 0, true⟩, ⟨0xA722, 0xA72F, 0, 0, true⟩,
   ⟨0xA732, 0xA76F, 0, 0, true⟩, ⟨0xA779, 0xA77C, 0, 0, true⟩]

/-- The ranges from U+A77D to U+A7B3. -/
def lowerRanges11 : List LowerRange :=
  [⟨0xA77D, 0xA77D, 0, 35332, false⟩, ⟨0xA77E, 0xA77E, 1, 0, false⟩,
   ⟨0xA780, 0xA787, 0, 0, true⟩, ⟨0xA78B, 0xA78B, 1, 0, false⟩,
   ⟨0xA78D, 0xA78D, 0, 42280, false⟩, ⟨0xA790, 0xA793, 0, 0, true⟩,
   ⟨0xA796, 0xA7A9, 0, 0, true⟩, ⟨0xA7AA, 0xA7AA, 0, 42308, false⟩,
   ⟨0xA7AB, 0xA7AB, 0, 42319, false⟩, ⟨0xA7AC, 0xA7AC, 0, 42315, false⟩,
   ⟨0xA7AD, 0xA7AD, 0, 42305, false⟩, ⟨0xA7AE, 0xA7AE, 0, 42308, false⟩,
   ⟨0xA7B0, 0xA7B0, 0, 42258, false⟩, ⟨0xA7B1, 0xA7B1, 0, 42282, false⟩,
   ⟨0xA7B2, 0xA7B2, 0, 42261, false⟩, ⟨0xA7B3, 0xA7B3, 928, 0, false⟩]

/-- The ranges from U+A7B4 to U+10592. -/
def lowerRanges12 : List LowerRange :=
  [⟨0xA7B4, 0xA7B4, 1, 0, false⟩, ⟨0xA7B6, 0xA7C3, 0, 0, true⟩, ⟨0xA7C4, 0xA7C4, 0, 48, false⟩,
   ⟨0xA7C5, 0xA7C5, 0, 42307, false⟩, ⟨0xA7C6, 0xA7C6, 0, 35384, false⟩,
   ⟨0xA7C7, 0xA7C7, 1, 0, false⟩, ⟨0xA7C9, 0xA7C9, 1, 0, false⟩, ⟨0xA7D0, 0xA7D0, 1, 0, false⟩,
   ⟨0xA7D6, 0xA7D9, 0, 0, true⟩, ⟨0xA7F5, 0xA7F5, 1, 0, false⟩, ⟨0xFF21, 0xFF3A, 32, 0, false⟩,
   ⟨0x10400, 0x10427, 40, 0, false⟩, ⟨0x104B0, 0x104D3, 40, 0, false⟩,
   ⟨0x10570, 0x1057A, 39, 0, false⟩, ⟨0x1057C, 0x1058A, 39, 0, false⟩,
   ⟨0x1058C, 0x10592, 39, 0, false⟩]

/-- The ranges from U+10594 to U+1E921. -/
def lowerRanges13 : List LowerRange :=
  [⟨0x10594, 0x10595, 39, 0, false⟩, ⟨0x10C80, 0x10CB2, 64, 0, false⟩,
   ⟨0x118A0, 0x118BF, 32, 0, false⟩, ⟨0x16E40, 0x16E5F, 32, 0, false⟩,
   ⟨0x1E900, 0x1E921, 34, 0, false⟩]
/-- The code points outside ASCII that have a lower-case mapping (the simple
lower-case mappings of the Unicode character database, version 15.0, which
`unicode.ToLower` implements). -/
def lowerRanges : List LowerRange :=
  lowerRanges1 ++ lowerRanges2 ++ lowerRanges3 ++ lowerRanges4 ++ lowerRanges5 ++ lowerRanges6 ++ lowerRanges7 ++
  lowerRanges8 ++ lowerRanges9 ++ lowerRanges10 ++ lowerRanges11 ++ lowerRanges12 ++ lowerRanges13

/-- The lower-case mapping of a code point of the range. -/
def LowerRange.apply (r : LowerRange) (n : Nat) : Nat :=
  if r.alternating then (if (n - r.lo) % 2 = 0 then n + 1 else n) else n + r.up - r.down

/-- Go's `unicode.ToLower` on a code point. -/
def toLowerRune (n : Nat) : Nat :=
  if n < 128 then (if 65 ≤ n ∧ n ≤ 90 then n + 32 else n)
  else
    match lowerRanges.find? (fun r => Nat.ble r.lo n && Nat.ble n r.hi) with
    | none => n
    | some r => r.apply n

/-- Go's `unicode.ToLower`. -/
def unicodeToLower (c : Char) : Char := Char.ofNat (toLowerRune c.toNat)

/-- The least image of the range. -/
def LowerRange.imageLo (r : LowerRange) : Nat :=
  if r.alternating then r.lo else r.lo + r.up - r.down

/-- The greatest image of the range. -/
def LowerRange.imageHi (r : LowerRange) : Nat :=
  if r.alternating then r.hi else r.hi + r.up - r.down

/-- The range lies outside ASCII, its images are code points from `a` on, and
an alternating range ends on a small letter. -/
def LowerRange.wellFormed (r : LowerRange) : Bool :=
  Nat.ble 128 r.lo && Nat.ble r.lo r.hi && Nat.ble r.down r.lo && Nat.ble 97 r.imageLo &&
  (Nat.blt r.imageHi 0xD800 || (Nat.ble 0xE000 r.imageLo && Nat.blt r.imageHi 0x110000)) &&
  (!r.alternating || Nat.beq ((r.hi - r.lo) % 2) 1)

/-- The range `f` is `r` itself or does not meet it, and no image of `r` lies in
`f`, unless `r` alternates. -/
def LowerRange.compatible (r f : LowerRange) : Bool :=
  ((Nat.beq r.lo f.lo && (r.alternating == f.alternating)) || Nat.blt r.hi f.lo ||
    Nat.blt f.hi r.lo) &&
  (r.alternating || Nat.blt r.imageHi f.lo || Nat.blt f.hi r.imageLo)

/-- The range is well formed and compatible with every range of the table. -/
def LowerRange.checked (r : LowerRange) : Bool :=
  r.wellFormed && lowerRanges.all (fun f => r.compatible f)

/-- Go's `strings.ToLower`: every rune is replaced by its `unicode.ToLower`. -/
def ToLower (s : String) : String := ⟨s.data.map unicodeToLower⟩

/-- Go's `strings.Replace(s, old, new, -1)` on runes, for a non-empty `old`:
every non-overlapping occurrence of `old`, from the left, becomes `new`. The
first argument bounds the number of steps; the length of `s` is enough. -/
def replaceAllRunes (old new : List Char) : Nat → List Char → List Char
  | 0, s => s
  | fuel + 1, s =>
    if old.isPrefixOf s then new ++ replaceAllRunes old new fuel (s.drop old.length)
    else
      match s with
      | [] => []
      | c :: rest => c :: replaceAllRunes old new fuel rest

/-! ## Errors -/

/-- The errors built by the code, one constructor per message. -/
inductive Err where
  /-- Message `profile is empty`. -/
  | profileEmpty
  /-- Message `long-term section name %q equals short-term section name %q`. -/
  | sectionNamesEqual (longName shortName : String)
  /-- Message `missing MFA device: set --device, MFA_DEVICE, or aws_mfa_device
  in long-term credentials section`. -/
  | missingDevice
  /-- Message `invalid MFA_STS_DURATION %q`. -/
  | invalidDuration (v : String)
  /-- Message `credentials file path is empty`. -/
  | emptyPath
  /-- Message `stat credentials file: ...`. -/
  | statFailed
  /-- Message `read/parse credentials file: ...`. -/
  | parseFailed
  /-- Message `missing %q in [%s]`. -/
  | missingKey (key sec : String)
  /-- Message `parse expiration %q: ...`. -/
  | parseExpiration (exp : String)
  /-- Message `missing required dependencies`. -/
  | missingDeps
  /-- Message `long-term section [%s] missing aws_access_key_id`, or the same
  for `aws_secret_access_key`. -/
  | longTermMissing (sec key : String)
  /-- Message `read token: ...`. -/
  | readToken
  /-- Message `token must be six digits`. -/
  | tokenFormat
  /-- An error returned by the STS factory or by the STS client. -/
  | external (message : String)
  /-- Message `ensure credentials dir: ...`. -/
  | ensureDir
  /-- Message `create temp credentials file: ...`. -/
  | createTemp
  /-- Message `chmod temp credentials file: ...`. -/
  | chmodTemp
  /-- Message `write ini: ...`. -/
  | writeIni
  /-- Message `close temp credentials file: ...`. -/
  | closeTemp
  /-- Message `replace credentials file: ...`. -/
  | replaceFile
  /-- A run-time panic (nil pointer dereference), not an error value. -/
  | panic
  deriving DecidableEq

/-! ## `internal/credentials/sections.go` -/

/-- The pair of section names of one profile. -/
structure SectionNames where
  LongTerm : String
  ShortTerm : String
  deriving DecidableEq

/-- The `switch` that computes `longName` in `ComputeSectionNames`. -/
def longNameOf (profile longTermSuffix : String) : String :=
  if longTermSuffix = "" then profile ++ "-long-term"
  else if EqualFold longTermSuffix "none" then profile
  else profile ++ "-" ++ longTermSuffix

/-- The `switch` that computes `shortName` in `ComputeSectionNames`. -/
def shortNameOf (profile shortTermSuffix : String) : String :=
  if shortTermSuffix = "" then profile
  else if EqualFold shortTermSuffix "none" then profile
  else profile ++ "-" ++ shortTermSuffix

/-- `ComputeSectionNames` of `sections.go`. -/
def ComputeSectionNames (profile longTermSuffix shortTermSuffix : String) :
    Except Err SectionNames :=
  let profile := TrimSpace profile
  if profile = "" then .error .profileEmpty
  else
    let longTermSuffix := TrimSpace longTermSuffix
    let shortTermSuffix := TrimSpace shortTermSuffix
    let longName := longNameOf profile longTermSuffix
    let shortName := shortNameOf profile shortTermSuffix
    if longName = shortName then .error (.sectionNamesEqual longName shortName)
    else .ok { LongTerm := longName, ShortTerm := shortName }

/-! ## `gopkg.in/ini.v1`, as `credentials.Load` configures it

`Load` opens the file with `ini.LoadOptions{Insensitive: true}`. With that
option the library lower-cases every section name and key name, names its
default section `default` (the lower-cased `DEFAULT`), and creates that
section whenever a file is parsed, the empty file of `ini.Empty` included.
-/

/-- A section of the file: its name and its keys in file order, each with its
raw value. -/
structure IniSection where
  name : String
  keys : List (String × String)
  deriving DecidableEq

/-- The file: its sections, in file order (`File.sectionList`). -/
structure IniFile where
  sections : List IniSection
  deriving DecidableEq

/-- The constant `ini.DefaultSection`. -/
def DefaultSection : String := "DEFAULT"

/-- Value of `ini.Empty(opts)`: parsing no input creates the default section,
under its lower-cased name. -/
def IniFile.Empty : IniFile := ⟨[⟨ToLower DefaultSection, []⟩]⟩

/-- `File.GetSection`: the empty name stands for the default section, the
name is lower-cased, and the section of that name is looked up. -/
def IniFile.GetSection (f : IniFile) (name : String) : Option IniSection :=
  let name := if name = "" then DefaultSection else name
  let name := ToLower name
  f.sections.find? (fun s => s.name == name)

/-- `File.NewSection` for a non-empty name: the name is lower-cased unless it
is `DEFAULT`; an existing section of that name is returned, otherwise an empty
one is appended. -/
def IniFile.NewSection (f : IniFile) (name : String) : IniFile × IniSection :=
  let name := if name ≠ DefaultSection then ToLower name else name
  match f.sections.find? (fun s => s.name == name) with
  | some sec => (f, sec)
  | none => (⟨f.sections ++ [⟨name, []⟩]⟩, ⟨name, []⟩)

/-- `File.Section`: the named section, created when it does not exist. -/
def IniFile.Section (f : IniFile) (name : String) : IniFile × IniSection :=
  match f.GetSection name with
  | some sec => (f, sec)
  | none => f.NewSection (if name = "" then DefaultSection else name)

/-- A `*ini.Key`: the section that holds it, its name and its raw value. -/
structure KeyRef where
  owner : IniSection
  name : String
  value : String
  deriving DecidableEq

/-- The step `sname = sname[:strings.LastIndex(sname, ".")]` of
`Section.GetKey`, `none` when the name has no dot. -/
def cutLastDot (sname : List Char) : Option (List Char) :=
  match sname.reverse.dropWhile (fun c => c != '.') with
  | [] => none
  | _ :: before => some before.reverse

/-- The parent names a child section is looked up under, nearest first:
`a.b.c` gives `a.b`, `a`. -/
def parentNames : Nat → List Char → List String
  | 0, _ => []
  | fuel + 1, sname =>
    match cutLastDot sname with
    | none => []
    | some p => ⟨p⟩ :: parentNames fuel p

/-- The own key of a section under an already lower-cased name. -/
def IniSection.ownKey (sec : IniSection) (lname : String) : Option String :=
  (sec.keys.find? (fun kv => kv.1 == lname)).map (fun kv => kv.2)

/-- `Section.GetKey` with a bound on the depth of the parent chain: the key
name is lower-cased; a key the section does not hold is looked up in the
nearest existing parent section (child sections are delimited by a dot). -/
def IniFile.GetKeyAux (f : IniFile) : Nat → IniSection → String → Option KeyRef
  | 0, _, _ => none
  | fuel + 1, sec, name =>
    let name := ToLower name
    match sec.ownKey name with
    | some v => some ⟨sec, name, v⟩
    | none =>
      match (parentNames sec.name.length sec.name.data).findSome? (fun p => f.GetSection p) with
      | none => none
      | some parent => f.GetKeyAux fuel parent name

/-- `Section.GetKey`. Each parent has a shorter name than its child, except
the default section, which has no parent: the bound is never reached. -/
def IniFile.GetKey (f : IniFile) (sec : IniSection) (name : String) : Option KeyRef :=
  f.GetKeyAux (sec.name.length + 2) sec name

/-- `varPattern.FindString(val)` for the pattern `%\(([^)]+)\)s` at the start
of the input: the name between `%(` and `)s`. -/
def matchVarHere (val : List Char) : Option (List Char) :=
  match val with
  | '%' :: '(' :: rest =>
    let body := rest.takeWhile (fun c => c != ')')
    match rest.dropWhile (fun c => c != ')') with
    | ')' :: 's' :: _ => if body = [] then none else some body
    | _ => none
  | _ => none

/-- `varPattern.FindString(val)`: the name of the leftmost `%(name)s`. -/
def findVar : List Char → Option (List Char)
  | [] => none
  | c :: rest =>
    match matchVarHere (c :: rest) with
    | some body => some body
    | none => findVar rest

/-- The loop of `Key.transformValue`: up to `depth` times, the leftmost
`%(name)s` is replaced, everywhere, by the raw value of the key `name` of the
same section, or of the default section when the section has no such key or
the key is `k` itself; the loop stops when no such key exists. -/
def IniFile.transformLoop (k : KeyRef) : Nat → IniFile → String → IniFile × String
  | 0, f, val => (f, val)
  | depth + 1, f, val =>
    match findVar val.data with
    | none => (f, val)
    | some noption =>
      let vr : List Char := '%' :: '(' :: noption ++ [')', 's']
      let found : IniFile × Option KeyRef :=
        match f.GetKey k.owner ⟨noption⟩ with
        | some nk =>
          if nk = k then
            let (f1, dflt) := f.Section ""
            (f1, f1.GetKey dflt ⟨noption⟩)
          else (f, some nk)
        | none =>
          let (f1, dflt) := f.Section ""
          (f1, f1.GetKey dflt ⟨noption⟩)
      match found with
      | (f1, none) => (f1, val)
      | (f1, some nk) =>
        IniFile.transformLoop k depth f1
          ⟨replaceAllRunes vr nk.value.data val.length val.data⟩

/-- The constant `depthValues` of the library. -/
def depthValues : Nat := 99

/-- `Key.String`: the raw value with its `%(name)s` references expanded. -/
def IniFile.KeyString (f : IniFile) (k : KeyRef) : IniFile × String :=
  if !k.value.data.contains '%' then (f, k.value)
  else IniFile.transformLoop k depthValues f k.value

/-! ## `internal/credentials/store.go` -/

/-- The credentials store: the path it is bound to and the INI file. -/
structure Store where
  path : String
  ini : IniFile
  deriving DecidableEq

/-- What `os.Stat` and `ini.LoadSources` find at the path given to `Load`:
no file, a failing `stat`, a file the library cannot parse, or the parsed
file. -/
inductive FileProbe where
  | notExist
  | statError
  | unparseable
  | parsed (f : IniFile)

/-- `Load` of `store.go`. -/
def Load (path : String) (probe : FileProbe) : Except Err Store :=
  if path = "" then .error .emptyPath
  else
    let cfg := IniFile.Empty
    match probe with
    | .notExist => .ok { path := path, ini := cfg }
    | .statError => .error .statFailed
    | .unparseable => .error .parseFailed
    | .parsed loaded => .ok { path := path, ini := loaded }

/-- `Store.HasSection`. -/
def Store.HasSection (s : Store) (name : String) : Bool :=
  (s.ini.GetSection name).isSome

/-- `Store.Get`: the trimmed value of the key and `true`, or the empty string
and `false`; the store that is left has the section, created if needed. -/
def Store.Get (s : Store) (sectionName key : String) : (String × Bool) × Store :=
  let (ini1, sec) := s.ini.Section sectionName
  match ini1.GetKey sec key with
  | none => (("", false), { s with ini := ini1 })
  | some k =>
    let (ini2, v) := ini1.KeyString k
    ((TrimSpace v, true), { s with ini := ini2 })

/-- `Store.MustGet`. -/
def Store.MustGet (s : Store) (sectionName key : String) : Except Err String × Store :=
  let ((v, ok), s1) := s.Get sectionName key
  if !ok || v = "" then (.error (.missingKey key sectionName), s1)
  else (.ok v, s1)

/-- The first section of the given name, replaced by its image under `g`. -/
def updateFirst (name : String) (g : IniSection → IniSection) :
    List IniSection → List IniSection
  | [] => []
  | x :: xs => if x.name == name then g x :: xs else x :: updateFirst name g xs

/-- `Key.SetValue` on the key `lname` of a section: the first key of that name
takes the value. -/
def setFirstKey (lname value : String) : List (String × String) → List (String × String)
  | [] => []
  | kv :: rest =>
    if kv.1 == lname then (kv.1, value) :: rest else kv :: setFirstKey lname value rest

/-- `Section.DeleteKey`: the first key of that very name is removed. -/
def eraseFirstKey (name : String) : List (String × String) → List (String × String)
  | [] => []
  | kv :: rest => if kv.1 == name then rest else kv :: eraseFirstKey name rest

/-- `Store.Section`: the section is created when it does not exist. -/
def Store.Section (s : Store) (name : String) : Store :=
  { s with ini := (s.ini.Section name).1 }

/-- `Store.Set`, that is `s.ini.Section(section).Key(key).SetValue(value)`.
`Section.Key` returns the key that `GetKey` finds, which may belong to a
parent section, and otherwise creates the key in the section under its
lower-cased name; for the empty name no key can be created, `Key` returns nil
and `SetValue` panics: the result is then `none`. -/
def Store.Set (s : Store) (sectionName key value : String) : Option Store :=
  let (ini1, sec) := s.ini.Section sectionName
  match ini1.GetKey sec key with
  | some k =>
    some { s with ini := ⟨updateFirst k.owner.name
      (fun x => { x with keys := setFirstKey k.name value x.keys }) ini1.sections⟩ }
  | none =>
    if key = "" then none
    else
      some { s with ini := ⟨updateFirst sec.name
        (fun x => { x with keys := x.keys ++ [(ToLower key, value)] }) ini1.sections⟩ }

/-- `Store.DeleteKey`. -/
def Store.DeleteKey (s : Store) (sectionName key : String) : Store :=
  let (ini1, sec) := s.ini.Section sectionName
  { s with ini := ⟨updateFirst sec.name
    (fun x => { x with keys := eraseFirstKey key x.keys }) ini1.sections⟩ }

/-- The step of `SaveAtomic` that fails, when one does. -/
inductive SaveFailure where
  | mkdirAll
  | createTemp
  | chmod
  | write
  | close
  | rename
  deriving DecidableEq

/-- `Store.SaveAtomic`: the error it returns and what the file at the path of
the store is replaced with (`none`: the file is left as it was). The
temporary file is written in full and then renamed over the path; a failure
at any step leaves the path untouched, and the temporary file is removed. An
INI file stands for its serialization by `WriteTo`. -/
def Store.SaveAtomic (s : Store) (failure : Option SaveFailure) : Option Err × Option IniFile :=
  match failure with
  | some .mkdirAll => (some .ensureDir, none)
  | some .createTemp => (some .createTemp, none)
  | some .chmod => (some .chmodTemp, none)
  | some .write => (some .writeIni, none)
  | some .close => (some .closeTemp, none)
  | some .rename => (some .replaceFile, none)
  | none => (none, some s.ini)

/-- A file: its bytes and its permission bits. -/
structure FileData where
  content : String
  perm : Nat
  deriving DecidableEq

/-- The regular files of a file system by path; `none`: no file at the
path. -/
abbrev Files := String → Option FileData

/-- The file system with the file at one path replaced, or removed. -/
def Files.put (fs : Files) (path : String) (d : Option FileData) : Files :=
  fun p => if p = path then d else fs p

/-- What the operating system does during one `SaveAtomic`: the step that
fails, if any; the name that `os.CreateTemp` picks (one at which no file
exists; the creation fails otherwise); and the number of bytes that have
reached the temporary file when the write fails. -/
structure SaveEnv where
  failure : Option SaveFailure
  tempName : String
  written : Nat

/-- `Store.SaveAtomic` step by step on a file system: the error it returns and
the files it leaves. The serialization of the INI file by the library
(`WriteTo` of `ini.v1`) is a parameter. `os.MkdirAll` touches directories only.
The deferred `os.Remove(tmpName)` runs at every return after the temporary file
was created. `os.Rename` of a file onto itself does nothing. -/
def Store.SaveAtomicOn (s : Store) (serialize : IniFile → String) (os : SaveEnv)
    (fs : Files) : Option Err × Files :=
  if os.failure = some .mkdirAll then (some .ensureDir, fs)
  else
    let perm : Nat := match fs s.path with
      | some d => d.perm
      | none => 0o600
    if os.failure = some .createTemp ∨ (fs os.tempName).isSome then (some .createTemp, fs)
    else
      let fs1 := fs.put os.tempName (some ⟨"", 0o600⟩)
      if os.failure = some .chmod then (some .chmodTemp, fs1.put os.tempName none)
      else
        let fs2 := fs1.put os.tempName (some ⟨"", perm⟩)
        if os.failure = some .write then
          (some .writeIni,
            (fs2.put os.tempName
              (some ⟨⟨(serialize s.ini).data.take os.written⟩, perm⟩)).put os.tempName none)
        else
          let fs3 := fs2.put os.tempName (some ⟨serialize s.ini, perm⟩)
          if os.failure = some .close then (some .closeTemp, fs3.put os.tempName none)
          else if os.failure = some .rename then
            (some .replaceFile, fs3.put os.tempName none)
          else
            let fs4 := (fs3.put os.tempName none).put s.path (fs3 os.tempName)
            (none, fs4.put os.tempName none)

/-! ## Go standard library: `strconv`, `time` -/

/-- Is the rune one of the ASCII digits `0` to `9`. -/
def isDigit (c : Char) : Bool := 48 ≤ c.toNat && c.toNat ≤ 57

/-- Value of an ASCII digit. -/
def digitVal (c : Char) : Nat := c.toNat - 48

/-- Value of a non-empty run of decimal digits read from the left, started at
`acc`; `none` when a rune is not a digit. -/
def parseDigitsFrom (acc : Nat) : List Char → Option Nat
  | [] => some acc
  | c :: rest => if isDigit c then parseDigitsFrom (acc * 10 + digitVal c) rest else none

/-- Value of a non-empty string of decimal digits. -/
def parseDigits (cs : List Char) : Option Nat :=
  match cs with
  | [] => none
  | _ :: _ => parseDigitsFrom 0 cs

/-- Go's `strconv.ParseInt(s, 10, 32)`: an optional sign and decimal digits
that denote a value of `int32`; `none` stands for any error (bad syntax or a
value out of range). -/
def ParseInt32 (s : String) : Option Int :=
  match s.data with
  | [] => none
  | c :: rest =>
    let neg : Bool := c == '-'
    let digits := if c == '+' || c == '-' then rest else c :: rest
    match parseDigits digits with
    | none => none
    | some un =>
      if !neg && un ≥ 2 ^ 31 then none
      else if neg && un > 2 ^ 31 then none
      else some (if neg then -(un : Int) else (un : Int))

/-- Go's conversion `int32(x)` of an `int`: the low 32 bits, as a signed
number. -/
def toInt32 (x : Int) : Int := (x + 2 ^ 31) % 2 ^ 32 - 2 ^ 31

/-- A `time.Time` as an instant: the seconds elapsed since January 1 of year 1,
00:00:00 UTC, and the nanoseconds within the second. The location is left out:
`Time.UTC` keeps the instant. -/
structure Time where
  sec : Int
  nsec : Nat
  deriving DecidableEq

/-- `Time.UTC`. -/
def Time.UTC (t : Time) : Time := t

/-- The least `time.Duration`, in nanoseconds. -/
def minDuration : Int := -(2 ^ 63)

/-- The greatest `time.Duration`, in nanoseconds. -/
def maxDuration : Int := 2 ^ 63 - 1

/-- `Time.Sub`: the duration `t - u` in nanoseconds, or the least or greatest
duration when the difference does not fit. -/
def Time.Sub (t u : Time) : Int :=
  let d := (t.sec - u.sec) * 1000000000 + ((t.nsec : Int) - (u.nsec : Int))
  if d < minDuration then minDuration
  else if maxDuration < d then maxDuration
  else d

/-- Is the year a leap year of the Gregorian calendar. -/
def isLeap (year : Nat) : Bool := year % 4 == 0 && (year % 100 != 0 || year % 400 == 0)

/-- Number of days of the month of the year (`daysIn` of package `time`). -/
def daysIn (month year : Nat) : Nat :=
  if month = 2 then (if isLeap year then 29 else 28)
  else if month = 4 ∨ month = 6 ∨ month = 9 ∨ month = 11 then 30
  else 31

/-- Number of days of the year before the first day of the month. -/
def daysBefore (month year : Nat) : Nat :=
  ((List.range (month - 1)).map (fun m => daysIn (m + 1) year)).sum

/-- Number of days from January 1 of year 1 to January 1 of the year
(negative for year 0). -/
def daysBeforeYear (year : Nat) : Int :=
  let y : Int := (year : Int) - 1
  365 * y + y / 4 - y / 100 + y / 400

/-- `time.Date(year, month, day, hour, min, sec, nsec, time.UTC)` for values
that are in range. -/
def Date (year month day hour min sec nsec : Nat) : Time :=
  { sec := ((daysBeforeYear year + daysBefore month year + ((day : Int) - 1)) * 86400
      + hour * 3600 + min * 60 + sec)
    nsec := nsec }

/-- `cutspace` of package `time`: the leading spaces are dropped. -/
def cutspace (s : List Char) : List Char := s.dropWhile (fun c => c == ' ')

/-- `skip` of package `time` for a separator of one rune: a space in the
layout matches any run of spaces, empty at the end of the input; another rune
matches itself. -/
def skip (value : List Char) (sep : Char) : Option (List Char) :=
  if sep == ' ' then
    match value with
    | [] => some []
    | c :: _ => if c != ' ' then none else some (cutspace value)
  else
    match value with
    | [] => none
    | c :: rest => if c != sep then none else some rest

/-- `getnum` of package `time`: a number of two digits, or of one digit when
`fixed` is false. -/
def getnum (s : List Char) (fixed : Bool) : Option (Nat × List Char) :=
  match s with
  | [] => none
  | a :: rest =>
    if !isDigit a then none
    else
      match rest with
      | [] => if fixed then none else some (digitVal a, rest)
      | b :: rest2 =>
        if !isDigit b then (if fixed then none else some (digitVal a, rest))
        else some (digitVal a * 10 + digitVal b, rest2)

/-- The element `2006` of a layout: exactly four digits. -/
def getLongYear (value : List Char) : Option (Nat × List Char) :=
  match value with
  | a :: b :: c :: d :: rest =>
    if isDigit a && isDigit b && isDigit c && isDigit d then
      some (((digitVal a * 10 + digitVal b) * 10 + digitVal c) * 10 + digitVal d, rest)
    else none
  | _ => none

/-- Is the rune a comma or a period (`commaOrPeriod` of package `time`). -/
def commaOrPeriod (c : Char) : Bool := c == '.' || c == ','

/-- The fractional second that `time.Parse` accepts after the seconds although
the layout has none: a comma or period and digits, of which the first nine
count. The result is the nanoseconds and the rest of the input. -/
def getFraction (value : List Char) : Nat × List Char :=
  match value with
  | p :: d :: rest =>
    if commaOrPeriod p && isDigit d then
      let digits := (d :: rest).takeWhile isDigit
      let kept := digits.take 9
      ((parseDigitsFrom 0 kept).getD 0 * 10 ^ (9 - kept.length), (d :: rest).dropWhile isDigit)
    else (0, value)
  | _ => (0, value)

/-- `time.ParseInLocation("2006-01-02 15:04:05", value, time.UTC)`; `none`
stands for any parse error. -/
def parseExpirationLayout (value : List Char) : Option Time := do
  let (year, value) ← getLongYear value
  let value ← skip value '-'
  let (month, value) ← getnum value true
  if month = 0 ∨ 12 < month then none
  let value ← skip value '-'
  let (day, value) ← getnum value true
  let value ← skip value ' '
  let (hour, value) ← getnum value false
  if 24 ≤ hour then none
  let value ← skip value ':'
  let (min, value) ← getnum value true
  if 60 ≤ min then none
  let value ← skip value ':'
  let (sec, value) ← getnum value true
  if 60 ≤ sec then none
  let (nsec, value) := getFraction value
  if value ≠ [] then none
  if day < 1 ∨ daysIn month year < day then none
  some (Date year month day hour min sec nsec)

/-! ## `internal/app/refresh.go` -/

/-- `ParseExpiration` of `refresh.go`. -/
def ParseExpiration (exp : String) : Except Err Time :=
  match parseExpirationLayout exp.data with
  | none => .error (.parseExpiration exp)
  | some t => .ok t.UTC

/-- The variable `shortTermRequiredKeys`. -/
def shortTermRequiredKeys : List String :=
  ["aws_access_key_id", "aws_secret_access_key", "aws_session_token",
   "aws_security_token", "expiration"]

/-- The struct `RefreshDecision`; a nil pointer is `none`, a duration is a
number of nanoseconds. -/
structure RefreshDecision where
  ShouldRefresh : Bool
  ExpiresAt : Option Time
  Remaining : Option Int
  Reason : String
  deriving DecidableEq

/-- The loop of `DecideRefresh` over the required keys: `false` as soon as a
key is absent or empty. -/
def requiredKeysPresent (shortTermSection : String) : List String → Store → Bool × Store
  | [], store => (true, store)
  | k :: ks, store =>
    let ((v, ok), store1) := store.Get shortTermSection k
    if !ok || v = "" then (false, store1)
    else requiredKeysPresent shortTermSection ks store1

/-- `DecideRefresh` of `refresh.go`. -/
def DecideRefresh (now : Time) (store : Store) (shortTermSection : String) (force : Bool) :
    RefreshDecision × Store :=
  if force then
    ({ ShouldRefresh := true, ExpiresAt := none, Remaining := none, Reason := "forced refresh" },
      store)
  else if !store.HasSection shortTermSection then
    ({ ShouldRefresh := true, ExpiresAt := none, Remaining := none,
       Reason := "short-term section missing" }, store)
  else
    match requiredKeysPresent shortTermSection shortTermRequiredKeys store with
    | (false, store1) =>
      ({ ShouldRefresh := true, ExpiresAt := none, Remaining := none,
         Reason := "short-term section missing required keys" }, store1)
    | (true, store1) =>
      let ((expStr, _), store2) := store1.Get shortTermSection "expiration"
      match ParseExpiration expStr with
      | .error _ =>
        ({ ShouldRefresh := true, ExpiresAt := none, Remaining := none,
           Reason := "invalid expiration" }, store2)
      | .ok exp =>
        let remaining := exp.Sub now.UTC
        if remaining ≤ 0 then
          ({ ShouldRefresh := true, ExpiresAt := some exp, Remaining := some remaining,
             Reason := "expired" }, store2)
        else
          ({ ShouldRefresh := false, ExpiresAt := some exp, Remaining := some remaining,
             Reason := "still valid" }, store2)

/-! ## `internal/app/config.go` -/

/-- The struct `Inputs`; `DurationSeconds` is a Go `int`. -/
structure Inputs where
  Profile : String
  ProfileChanged : Bool
  Device : String
  DeviceChanged : Bool
  DurationSeconds : Int
  DurationSecondsChanged : Bool
  Token : String
  TokenChanged : Bool
  Force : Bool
  LongTermSuffix : String
  ShortTermSuffix : String
  CredentialsFile : String
  deriving DecidableEq

/-- The interface `Env`: the value of a variable, empty when it is not set. -/
abbrev Env := String → String

/-- The struct `Resolved`; `DurationSeconds` is an `int32`. -/
structure Resolved where
  Profile : String
  LongTermSection : String
  ShortTermSection : String
  Device : String
  DurationSeconds : Int
  Token : String
  Force : Bool
  CredentialsFile : String
  deriving DecidableEq

/-- The profile block of `Resolve`. -/
def resolveProfile (inp : Inputs) (env : Env) : String :=
  if inp.ProfileChanged && TrimSpace inp.Profile != "" then TrimSpace inp.Profile
  else if TrimSpace (env "AWS_PROFILE") != "" then TrimSpace (env "AWS_PROFILE")
  else "default"

/-- The device block of `Resolve`; `none` is the return with the missing
device error. -/
def resolveDevice (inp : Inputs) (env : Env) (store : Store) (names : SectionNames) :
    Option String × Store :=
  if inp.DeviceChanged && TrimSpace inp.Device != "" then (some (TrimSpace inp.Device), store)
  else if TrimSpace (env "MFA_DEVICE") != "" then (some (TrimSpace (env "MFA_DEVICE")), store)
  else
    let ((v, ok), store1) := store.Get names.LongTerm "aws_mfa_device"
    if ok && v != "" then (some v, store1) else (none, store1)

/-- The duration block of `Resolve`. -/
def resolveDuration (inp : Inputs) (env : Env) : Except Err Int :=
  if inp.DurationSecondsChanged && decide (inp.DurationSeconds > 0) then
    .ok (toInt32 inp.DurationSeconds)
  else if TrimSpace (env "MFA_STS_DURATION") != "" then
    match ParseInt32 (TrimSpace (env "MFA_STS_DURATION")) with
    | none => .error (.invalidDuration (TrimSpace (env "MFA_STS_DURATION")))
    | some parsed =>
      if parsed ≤ 0 then .error (.invalidDuration (TrimSpace (env "MFA_STS_DURATION")))
      else .ok (toInt32 parsed)
  else .ok 43200

/-- The token block of `Resolve`. -/
def resolveToken (inp : Inputs) : String :=
  if inp.TokenChanged && TrimSpace inp.Token != "" then TrimSpace inp.Token else ""

/-- `Resolve` of `config.go`, with the store it leaves behind. -/
def Resolve (inp : Inputs) (env : Env) (store : Store) : Except Err Resolved × Store :=
  let profile := resolveProfile inp env
  match ComputeSectionNames profile inp.LongTermSuffix inp.ShortTermSuffix with
  | .error err => (.error err, store)
  | .ok names =>
    match resolveDevice inp env store names with
    | (none, store1) => (.error .missingDevice, store1)
    | (some device, store1) =>
      match resolveDuration inp env with
      | .error err => (.error err, store1)
      | .ok duration =>
        (.ok { Profile := profile
               LongTermSection := names.LongTerm
               ShortTermSection := names.ShortTerm
               Device := device
               DurationSeconds := duration
               Token := resolveToken inp
               Force := inp.Force
               CredentialsFile := inp.CredentialsFile }, store1)

/-! ## Go standard library: `Time.Format` -/

/-- The ASCII digit of a number below ten. -/
def digitChar (d : Nat) : Char := Char.ofNat (48 + d)

/-- The last `width` decimal digits of a number, with leading zeros. -/
def fixedDigits : Nat → Nat → List Char
  | 0, _ => []
  | width + 1, n => fixedDigits width (n / 10) ++ [digitChar (n % 10)]

/-- `appendInt` of package `time`: the decimal form of `x`, with a minus sign
when negative and zeros in front up to `width` digits. -/
def appendInt (x : Int) (width : Nat) : List Char :=
  (if x < 0 then ['-'] else []) ++
    (if x.natAbs < 10 ^ width then fixedDigits width x.natAbs else Nat.toDigits 10 x.natAbs)

/-- The year that holds the day numbered `days` from January 1 of year 1, and
the number of that day within the year, from zero: the cycles of 400, 100, 4
and 1 years are cut off in turn (`absDate` of package `time`). -/
def yearOfDays (days : Int) : Int × Nat :=
  let n400 := days / 146097
  let r := (days % 146097).toNat
  let n100 := min (r / 36524) 3
  let r2 := r - n100 * 36524
  let n4 := r2 / 1461
  let r3 := r2 % 1461
  let n1 := min (r3 / 365) 3
  (400 * n400 + 100 * (n100 : Int) + 4 * (n4 : Int) + (n1 : Int) + 1, r3 - n1 * 365)

/-- The month and the day of the month of the day numbered `yday` (from zero)
within a year, counted from the first day of `month`. -/
def monthDayFrom (year : Nat) : Nat → Nat → Nat → Nat × Nat
  | 0, month, yday => (month, yday + 1)
  | fuel + 1, month, yday =>
    if yday < daysIn month year then (month, yday + 1)
    else monthDayFrom year fuel (month + 1) (yday - daysIn month year)

/-- `Time.Format` for the layout `2006-01-02 15:04:05` on a time in UTC. -/
def Time.Format (t : Time) : String :=
  let days := t.sec / 86400
  let sod := (t.sec % 86400).toNat
  let (year, yday) := yearOfDays days
  let (month, day) := monthDayFrom (year % 400).toNat 11 1 yday
  ⟨appendInt year 4 ++ '-' :: appendInt month 2 ++ '-' :: appendInt day 2 ++ ' ' ::
    appendInt (sod / 3600 : Nat) 2 ++ ':' :: appendInt (sod % 3600 / 60 : Nat) 2 ++ ':' ::
    appendInt (sod % 60 : Nat) 2⟩



/-- What is asked of the month and day found for a day of the year. -/
def monthDayOk (y yd : Nat) : Prop :=
  1 ≤ (monthDayFrom y 11 1 yd).1 ∧ (monthDayFrom y 11 1 yd).1 ≤ 12 ∧
  1 ≤ (monthDayFrom y 11 1 yd).2 ∧
  (monthDayFrom y 11 1 yd).2 ≤ daysIn (monthDayFrom y 11 1 yd).1 y ∧
  daysBefore (monthDayFrom y 11 1 yd).1 y + (monthDayFrom y 11 1 yd).2 = yd + 1

instance (y yd : Nat) : Decidable (monthDayOk y yd) := by unfold monthDayOk; infer_instance

/-! ## `internal/app/paths.go`, `internal/awssts/client.go`, `internal/app/run.go` -/

/-- What `ExpandHome` needs of the operating system: `os.UserHomeDir`
(`none` when it fails) and `filepath.Join` of two elements. -/
structure OS where
  UserHomeDir : Option String
  Join : String → String → String

/-- `ExpandHome` of `paths.go`. -/
def ExpandHome (os : OS) (path : String) : String :=
  let path := TrimSpace path
  if path = "" then path
  else if path = "~" then
    match os.UserHomeDir with
    | some home => home
    | none => path
  else if "~/".data.isPrefixOf path.data then
    match os.UserHomeDir with
    | some home => os.Join home ⟨path.data.drop 2⟩
    | none => path
  else path

/-- The struct `awssts.GetSessionTokenInput`. -/
structure GetSessionTokenInput where
  SerialNumber : String
  TokenCode : String
  DurationSeconds : Int
  deriving DecidableEq

/-- The struct `awssts.GetSessionTokenOutput`. -/
structure GetSessionTokenOutput where
  AccessKeyID : String
  SecretAccessKey : String
  SessionToken : String
  Expiration : Time
  deriving DecidableEq

/-- The interface `awssts.Client`: its one method `GetSessionToken`. -/
abbrev Client := GetSessionTokenInput → Except Err GetSessionTokenOutput

/-- The type `STSFactory`: from the region and the long-term key pair to a
client. -/
abbrev STSFactory := String → String → String → Except Err Client

/-- The standard input: a text that is read to its end, or a reader that
fails. -/
inductive Reader where
  | text (content : String)
  | failing

/-- The struct `Deps`; a nil function or interface is `none`. `Now` is the
instant that the function returns. The writers `Stdout` and `Stderr` are left
out: what `Run` prints is kept in its trace. -/
structure Deps where
  Now : Option Time
  Env : Option Env
  STSFactory : Option STSFactory
  Stdin : Option Reader

/-- The struct `RunInputs`. -/
structure RunInputs where
  Inputs : Inputs
  Region : String

/-- What `Run` is given by the file system: the operating system of
`ExpandHome`, what `Load` finds at a path, and the step of `SaveAtomic` that
fails, if any. -/
structure Sys where
  os : OS
  probe : String → FileProbe
  saveFailure : Option SaveFailure

/-- The lines that `Run` prints. -/
inductive Msg where
  | usingProfile (shortTermSection : String)
  | stillValidFor (remaining : Int) (expiresAt : String)
  | stillValid
  | expiredRenewing
  | sectionMissing (shortTermSection : String)
  | obtaining
  | enterCode (device : String) (duration : Int)
  | success (duration : Int) (expiration : Time)
  deriving DecidableEq

/-- What a run of `Run` does: the error it returns, the store in memory when it
returns, what the credentials file is replaced with (`none`: it is left as it
was), the calls of the STS factory (region, key id, secret), the calls of
`GetSessionToken`, and the lines printed. -/
structure RunTrace where
  err : Option Err
  store : Option Store
  saved : Option IniFile
  factoryCalls : List (String × String × String)
  exchangeCalls : List GetSessionTokenInput
  printed : List Msg
  deriving DecidableEq

/-- The regular expression `token6Digits`, `^\d{6}$`: exactly six ASCII
digits. -/
def token6Digits (token : String) : Bool :=
  token.data.length == 6 && token.data.all isDigit

/-- `bufio.Reader.ReadString('\n')` on a text: the runes up to and including
the first line feed, or all of them. -/
def readLine : List Char → List Char
  | [] => []
  | c :: rest => if c == '\n' then [c] else c :: readLine rest

/-- `promptToken` of `run.go`. -/
def promptToken (stdin : Reader) : Except Err String :=
  match stdin with
  | .failing => .error .readToken
  | .text content => .ok (TrimSpace ⟨readLine content.data⟩)

/-- The region block of `Run`. -/
def resolveRegion (region : String) (env : Env) : String :=
  let region := TrimSpace region
  let region := if region = "" then TrimSpace (env "AWS_REGION") else region
  let region := if region = "" then TrimSpace (env "AWS_DEFAULT_REGION") else region
  if region = "" then "us-east-1" else region

/-- The writes of `Run` into the short-term section, `none` on a panic. -/
def writeCredentials (store : Store) (sec : String) (out : GetSessionTokenOutput) :
    Option Store := do
  let store := store.Section sec
  let store ← store.Set sec "aws_access_key_id" out.AccessKeyID
  let store ← store.Set sec "aws_secret_access_key" out.SecretAccessKey
  let store ← store.Set sec "aws_session_token" out.SessionToken
  let store ← store.Set sec "aws_security_token" out.SessionToken
  let store ← store.Set sec "expiration" out.Expiration.UTC.Format
  let store ← store.Set sec "assumed_role" "False"
  pure (store.DeleteKey sec "assumed_role_arn")

/-- The state of `Run` when it has decided to refresh: the dependencies, the
resolved configuration, the store, the long-term key pair, and the lines
printed so far. -/
structure RefreshState where
  env : Env
  factory : STSFactory
  stdin : Reader
  resolved : Resolved
  store : Store
  ltKeyID : String
  ltSecret : String
  printed : List Msg

/-- The line printed for the reason of a refresh. -/
def reasonMsg (reason shortTermSection : String) : Msg :=
  if reason = "expired" then .expiredRenewing
  else if reason = "short-term section missing" then .sectionMissing shortTermSection
  else .obtaining

/-- The first part of `Run`, up to the refresh decision: either `Run` returns
(with an error, or because the credentials are still valid), or it goes on to
refresh. -/
def runUntilDecision (inp : RunInputs) (deps : Deps) (sys : Sys) : RunTrace ⊕ RefreshState :=
  match deps.Now, deps.Env, deps.STSFactory with
  | some now0, some env, some factory =>
    let stdin := deps.Stdin.getD (.text "")
    let credsPath := ExpandHome sys.os inp.Inputs.CredentialsFile
    match Load credsPath (sys.probe credsPath) with
    | .error err =>
      .inl { err := some err, store := none, saved := none, factoryCalls := [],
             exchangeCalls := [], printed := [] }
    | .ok store =>
      match Resolve inp.Inputs env store with
      | (.error err, store) =>
        .inl { err := some err, store := some store, saved := none, factoryCalls := [],
               exchangeCalls := [], printed := [] }
      | (.ok resolved, store) =>
        let printed := [Msg.usingProfile resolved.ShortTermSection]
        match store.MustGet resolved.LongTermSection "aws_access_key_id" with
        | (.error _, store) =>
          .inl { err := some (.longTermMissing resolved.LongTermSection "aws_access_key_id"),
                 store := some store, saved := none, factoryCalls := [], exchangeCalls := [],
                 printed := printed }
        | (.ok ltKeyID, store) =>
          match store.MustGet resolved.LongTermSection "aws_secret_access_key" with
          | (.error _, store) =>
            .inl { err := some
                     (.longTermMissing resolved.LongTermSection "aws_secret_access_key"),
                   store := some store, saved := none, factoryCalls := [], exchangeCalls := [],
                   printed := printed }
          | (.ok ltSecret, store) =>
            let now := now0.UTC
            match DecideRefresh now store resolved.ShortTermSection resolved.Force with
            | (dec, store) =>
              if !dec.ShouldRefresh then
                .inl { err := none, store := some store, saved := none, factoryCalls := [],
                       exchangeCalls := [],
                       printed := printed ++ [
                         match dec.Remaining, dec.ExpiresAt with
                         | some remaining, some expiresAt =>
                           Msg.stillValidFor remaining expiresAt.Format
                         | _, _ => Msg.stillValid] }
              else
                .inr { env := env, factory := factory, stdin := stdin, resolved := resolved,
                       store := store, ltKeyID := ltKeyID, ltSecret := ltSecret,
                       printed := printed ++ [reasonMsg dec.Reason resolved.ShortTermSection] }
  | _, _, _ =>
    .inl { err := some .missingDeps, store := none, saved := none, factoryCalls := [],
           exchangeCalls := [], printed := [] }

/-- The token that `Run` checks: the trimmed token of the resolved
configuration, or when that is empty the trimmed line read from the standard
input. -/
def obtainToken (st : RefreshState) : Except Err String :=
  if TrimSpace st.resolved.Token = "" then promptToken st.stdin
  else .ok (TrimSpace st.resolved.Token)

/-- The second part of `Run`, after the decision to refresh: the token, the
region, the STS call, the writes and the save. -/
def runRefresh (inp : RunInputs) (sys : Sys) (st : RefreshState) : RunTrace :=
  let printed := if TrimSpace st.resolved.Token = "" then
      st.printed ++ [Msg.enterCode st.resolved.Device st.resolved.DurationSeconds]
    else st.printed
  match obtainToken st with
  | .error err =>
    { err := some err, store := some st.store, saved := none, factoryCalls := [],
      exchangeCalls := [], printed := printed }
  | .ok token =>
    if !token6Digits token then
      { err := some .tokenFormat, store := some st.store, saved := none, factoryCalls := [],
        exchangeCalls := [], printed := printed }
    else
      let region := resolveRegion inp.Region st.env
      match st.factory region st.ltKeyID st.ltSecret with
      | .error err =>
        { err := some err, store := some st.store, saved := none,
          factoryCalls := [(region, st.ltKeyID, st.ltSecret)], exchangeCalls := [],
          printed := printed }
      | .ok stsClient =>
        let input : GetSessionTokenInput :=
          { SerialNumber := st.resolved.Device, TokenCode := token,
            DurationSeconds := st.resolved.DurationSeconds }
        match stsClient input with
        | .error err =>
          { err := some err, store := some st.store, saved := none,
            factoryCalls := [(region, st.ltKeyID, st.ltSecret)], exchangeCalls := [input],
            printed := printed }
        | .ok out =>
          match writeCredentials st.store st.resolved.ShortTermSection out with
          | none =>
            { err := some .panic, store := none, saved := none,
              factoryCalls := [(region, st.ltKeyID, st.ltSecret)], exchangeCalls := [input],
              printed := printed }
          | some store1 =>
            match store1.SaveAtomic sys.saveFailure with
            | (some err, saved) =>
              { err := some err, store := some store1, saved := saved,
                factoryCalls := [(region, st.ltKeyID, st.ltSecret)], exchangeCalls := [input],
                printed := printed }
            | (none, saved) =>
              { err := none, store := some store1, saved := saved,
                factoryCalls := [(region, st.ltKeyID, st.ltSecret)], exchangeCalls := [input],
                printed := printed ++
                  [Msg.success st.resolved.DurationSeconds out.Expiration.UTC] }

/-- `Run` of `run.go`. -/
def Run (inp : RunInputs) (deps : Deps) (sys : Sys) : RunTrace :=
  match runUntilDecision inp deps sys with
  | .inl trace => trace
  | .inr st => runRefresh inp sys st

/-! ## The specification's wording, to compare the code with -/

/-- Spec 4.1, long-term name, for a trimmed profile `p` and a trimmed suffix
`l`: `p-long-term` when the suffix is empty, `p` when it is the word `none` in
any letter case, `p-l` otherwise. -/
def specLongTermName (p l : String) : String :=
  if l = "" then p ++ "-long-term"
  else if equalsIgnoringCase l "none" then p
  else p ++ "-" ++ l

/-- Spec 4.1, short-term name, for a trimmed profile `p` and a trimmed suffix
`s`: `p` when the suffix is empty or is the word `none` in any letter case,
`p-s` otherwise. -/
def specShortTermName (p s : String) : String :=
  if s = "" ∨ equalsIgnoringCase s "none" then p
  else p ++ "-" ++ s

/-- Spec 4.3, device identifier: the first source that yields a non-empty
value among the explicit input (when marked as changed), the variable
`MFA_DEVICE`, and the key `aws_mfa_device` of the long-term section; `none`
when no source does. -/
def firstDeviceSource (inp : Inputs) (env : Env) (store : Store) (longTerm : String) :
    Option String :=
  if inp.DeviceChanged = true ∧ TrimSpace inp.Device ≠ "" then some (TrimSpace inp.Device)
  else if TrimSpace (env "MFA_DEVICE") ≠ "" then some (TrimSpace (env "MFA_DEVICE"))
  else if (store.Get longTerm "aws_mfa_device").1.2 = true
      ∧ (store.Get longTerm "aws_mfa_device").1.1 ≠ "" then
    some (store.Get longTerm "aws_mfa_device").1.1
  else none

/-- Does the string start with a sign, `+` or `-`. -/
def hasSign (v : String) : Bool := v.data.head? == some '+' || v.data.head? == some '-'

/-- The digits of a decimal integer: the string without its sign. -/
def decimalDigits (v : String) : List Char := if hasSign v then v.data.tail else v.data

/-- Spec 4.3, "parses as an integer": an optional sign `+` or `-` followed by
one or more decimal digits. -/
def isDecimalInteger (v : String) : Bool :=
  !(decimalDigits v).isEmpty && (decimalDigits v).all isDigit

/-- The integer that a decimal integer denotes. -/
def decimalValue (v : String) : Int :=
  let magnitude : Nat := (decimalDigits v).foldl (fun acc c => acc * 10 + digitVal c) 0
  if v.data.head? == some '-' then -(magnitude : Int) else (magnitude : Int)

/-- Is the duration taken from the explicit input: it is marked as changed
and positive. -/
def explicitDuration (inp : Inputs) : Prop :=
  inp.DurationSecondsChanged = true ∧ 0 < inp.DurationSeconds

/-- Is the profile taken from the explicit input: it is marked as changed and
not blank. -/
def explicitProfile (inp : Inputs) : Prop :=
  inp.ProfileChanged = true ∧ TrimSpace inp.Profile ≠ ""

instance (inp : Inputs) : Decidable (explicitDuration inp) := by
  unfold explicitDuration; infer_instance

instance (inp : Inputs) : Decidable (explicitProfile inp) := by
  unfold explicitProfile; infer_instance

/-- An environment given by the list of its variables; a variable that is
not listed is not set. -/
def envOf (vars : List (String × String)) : Env :=
  fun key => ((vars.find? (fun kv => kv.1 == key)).map (fun kv => kv.2)).getD ""

deriving instance DecidableEq for Except

/-! ## Data of the test suite, used as concrete inputs -/

/-- The store of `config_test.go`: freshly loaded from a path that does not
exist, then given `aws_mfa_device = from-store` in `default-long-term`. -/
def testStore : Store :=
  { path := "credentials"
    ini := ⟨[⟨"default", []⟩, ⟨"default-long-term", [("aws_mfa_device", "from-store")]⟩]⟩ }

/-- The inputs of `TestResolve_DevicePrecedence`, with the short-term suffix
that the command line passes by default. -/
def testInputs : Inputs :=
  { Profile := "default", ProfileChanged := true
    Device := "from-flag", DeviceChanged := true
    DurationSeconds := 0, DurationSecondsChanged := false
    Token := "", TokenChanged := false
    Force := false
    LongTermSuffix := "long-term", ShortTermSuffix := "none"
    CredentialsFile := "credentials" }

/-- The store that `Load` returns for a path at which no file exists. -/
def freshStore : Store := { path := "credentials", ini := IniFile.Empty }

/-- The store of `TestDecideRefresh_StillValid`: a complete short-term section
`default` that expires on 2026-02-09 at 11:00:00 UTC. -/
def validStore : Store :=
  { path := "credentials"
    ini := ⟨[⟨"default",
      [("aws_access_key_id", "ASIA_TEST"), ("aws_secret_access_key", "SECRET"),
       ("aws_session_token", "TOKEN"), ("aws_security_token", "TOKEN"),
       ("expiration", "2026-02-09 11:00:00")]⟩]⟩ }

/-- The instant `now` of `TestDecideRefresh_StillValid`: 2026-02-09 at
10:00:00 UTC. -/
def testNow : Time := Date 2026 2 9 10 0 0 0

/-! ## Notions used to state the properties of the refresh decision -/

/-- The file once its default section has been asked for. -/
def IniFile.withDefault (f : IniFile) : IniFile := (f.Section "").1

/-- The store once the default section of its file has been asked for. -/
def Store.withDefault (s : Store) : Store := { s with ini := s.ini.withDefault }

/-- Spec 4.4, step 3: the key is absent from the section or its value is
empty after trimming, as `Store.Get` reports it. -/
def absentOrEmpty (store : Store) (sectionName key : String) : Prop :=
  (store.Get sectionName key).1.2 = false ∨ (store.Get sectionName key).1.1 = ""

instance (store : Store) (sectionName key : String) :
    Decidable (absentOrEmpty store sectionName key) := by
  unfold absentOrEmpty; infer_instance

/-- The instant as a number of nanoseconds since January 1 of year 1,
00:00:00 UTC; instants are ordered by it. -/
def Time.nanos (t : Time) : Int := t.sec * 1000000000 + (t.nsec : Int)

/-- The decision that a refresh is needed, without expiry. -/
def refreshBecause (reason : String) : RefreshDecision :=
  { ShouldRefresh := true, ExpiresAt := none, Remaining := none, Reason := reason }

/-- The strict reading of "a timestamp in the format YYYY-MM-DD HH:MM:SS":
nineteen runes, digits at the places of the letters and the separators `-`,
space and `:` at theirs. -/
def hasTimestampShape (v : String) : Bool :=
  v.data.length == 19 &&
  (List.zip v.data "dddd-dd-dd dd:dd:dd".data).all
    (fun ct => if ct.2 == 'd' then isDigit ct.1 else ct.1 == ct.2)

/-- A complete short-term section `default` whose expiration has a fractional
second. -/
def fractionStore : Store :=
  { path := "credentials"
    ini := ⟨[⟨"default",
      [("aws_access_key_id", "ASIA_TEST"), ("aws_secret_access_key", "SECRET"),
       ("aws_session_token", "TOKEN"), ("aws_security_token", "TOKEN"),
       ("expiration", "2026-02-09 11:00:00.5")]⟩]⟩ }

/-- A complete short-term section `default` that expires at the end of the
year 9999. -/
def farStore : Store :=
  { path := "credentials"
    ini := ⟨[⟨"default",
      [("aws_access_key_id", "ASIA_TEST"), ("aws_secret_access_key", "SECRET"),
       ("aws_session_token", "TOKEN"), ("aws_security_token", "TOKEN"),
       ("expiration", "9999-12-31 23:59:59")]⟩]⟩ }

/-- A short-term section `default` with a blank secret key and an expiration
that does not parse. -/
def incompleteStore : Store :=
  { path := "credentials"
    ini := ⟨[⟨"default",
      [("aws_access_key_id", "ASIA_TEST"), ("aws_secret_access_key", "  "),
       ("aws_session_token", "TOKEN"), ("aws_security_token", "TOKEN"),
       ("expiration", "tomorrow")]⟩]⟩ }

/-- A complete short-term section `default` whose expiration does not
parse. -/
def invalidStore : Store :=
  { path := "credentials"
    ini := ⟨[⟨"default",
      [("aws_access_key_id", "ASIA_TEST"), ("aws_secret_access_key", "SECRET"),
       ("aws_session_token", "TOKEN"), ("aws_security_token", "TOKEN"),
       ("expiration", "2026-02-30 11:00:00")]⟩]⟩ }

/-! ## Notions and data used to state the properties of `Run` -/

/-- The raw value that the store resolves for a key of a section that exists:
the value of the key that `Section.GetKey` finds, before `Key.String` expands
it and `Store.Get` trims it. -/
def Store.rawValue (s : Store) (sectionName key : String) : Option String :=
  match s.ini.GetSection sectionName with
  | none => none
  | some sec => (s.ini.GetKey sec key).map (fun k => k.value)

/-- Spec 6: the first of the candidates that is not blank, trimmed, and the
default when all are blank. -/
def firstNonBlank : List String → String → String
  | [], dflt => dflt
  | c :: rest, dflt => if TrimSpace c ≠ "" then TrimSpace c else firstNonBlank rest dflt

/-- The credentials file of `TestRun_RefreshWritesCredentials`, as loaded: the
long-term section of the profile `default`. -/
def longTermFile : IniFile :=
  ⟨[⟨"default", []⟩,
    ⟨"default-long-term",
      [("aws_access_key_id", "AKIA_LT"), ("aws_secret_access_key", "SECRET_LT"),
       ("aws_mfa_device", "arn:aws:iam::123456789012:mfa/me")]⟩]⟩

/-- The credentials file of `TestRun_SkipsRefreshWhenStillValid`, as loaded:
the long-term section and a short-term section that expires on 2026-02-09 at
11:00:00 UTC. -/
def stillValidFile : IniFile :=
  ⟨[⟨"default",
      [("aws_access_key_id", "ASIA_OLD"), ("aws_secret_access_key", "SECRET_OLD"),
       ("aws_session_token", "TOKEN_OLD"), ("aws_security_token", "TOKEN_OLD"),
       ("expiration", "2026-02-09 11:00:00")]⟩,
    ⟨"default-long-term",
      [("aws_access_key_id", "AKIA_LT"), ("aws_secret_access_key", "SECRET_LT"),
       ("aws_mfa_device", "device")]⟩]⟩

/-- A credentials file, as loaded, whose section `[a-X]` holds the long-term
credentials of the profile `a` for the long-term suffix `X`; the store keeps
it under the lower-cased name. -/
def collisionFile : IniFile :=
  ⟨[⟨"default", []⟩,
    ⟨"a-x",
      [("aws_access_key_id", "AKIA_LT"), ("aws_secret_access_key", "SECRET_LT"),
       ("aws_mfa_device", "device")]⟩]⟩

/-- The bundle that the fake STS client of `run_test.go` returns. -/
def fakeOutput : GetSessionTokenOutput :=
  { AccessKeyID := "ASIA_ST", SecretAccessKey := "SECRET_ST", SessionToken := "TOKEN_ST",
    Expiration := Date 2026 2 9 12 0 0 0 }

/-- The STS factory of `run_test.go`: it returns the fake client. -/
def fakeFactory : STSFactory := fun _ _ _ => .ok (fun _ => .ok fakeOutput)

/-- The dependencies of `run_test.go` for an instant and an environment; the
standard input is empty. -/
def testDeps (now : Time) (vars : List (String × String)) : Deps :=
  { Now := some now, Env := some (envOf vars), STSFactory := some fakeFactory, Stdin := none }

/-- A file system on which `Load` finds the given file and `SaveAtomic`
succeeds. -/
def testSys (file : IniFile) : Sys :=
  { os := { UserHomeDir := some "/home/me", Join := fun a b => a ++ "/" ++ b }
    probe := fun _ => .parsed file
    saveFailure := none }

/-- The inputs of `TestRun_RefreshWritesCredentials`. -/
def testRunInputs : RunInputs :=
  { Inputs :=
      { Profile := "default", ProfileChanged := true
        Device := "", DeviceChanged := false
        DurationSeconds := 0, DurationSecondsChanged := false
        Token := "123456", TokenChanged := true
        Force := true
        LongTermSuffix := "long-term", ShortTermSuffix := "none"
        CredentialsFile := "credentials" }
    Region := "" }

/-- The inputs of `TestRun_SkipsRefreshWhenStillValid`: no token, no
`force`. -/
def skipRunInputs : RunInputs :=
  { testRunInputs with
    Inputs := { testRunInputs.Inputs with Token := "", TokenChanged := false, Force := false } }

/-- Inputs for the profile `a` with the long-term suffix `X` and the
short-term suffix `x`, and a token. -/
def collisionRunInputs : RunInputs :=
  { testRunInputs with
    Inputs := { testRunInputs.Inputs with
      Profile := "a", LongTermSuffix := "X", ShortTermSuffix := "x", Force := false } }

/-- The inputs of `TestRun_RefreshWritesCredentials` with a token of five
digits. -/
def shortTokenRunInputs : RunInputs :=
  { testRunInputs with Inputs := { testRunInputs.Inputs with Token := " 12345 " } }

/-- The configuration that `Resolve` gives for `skipRunInputs`. -/
def skipResolved : Resolved :=
  { Profile := "default", LongTermSection := "default-long-term", ShortTermSection := "default"
    Device := "device", DurationSeconds := 43200, Token := "", Force := false
    CredentialsFile := "credentials" }

/-- The token that `Run` checks against `token6Digits`, when it goes on to
refresh and obtains a token: the trimmed token supplied, or else the trimmed
line read from the standard input. -/
def checkedToken (inp : RunInputs) (deps : Deps) (sys : Sys) : Option String :=
  match runUntilDecision inp deps sys with
  | .inl _ => none
  | .inr st =>
    match obtainToken st with
    | .error _ => none
    | .ok token => some token

/-- The image of a section under an update of the sections of one name. -/
def updSection (nm : String) (g : IniSection → IniSection) (x : IniSection) : IniSection :=
  if x.name == nm then g x else x

/-! ## Notions used to state what a section holds itself -/

/-- The name under which the store keeps a section: the empty name stands for
the default section, and the name is lower-cased. -/
def sectionKey (sec : String) : String :=
  ToLower (if sec = "" then DefaultSection else sec)

/-- The value that a section of the file holds itself for a key. -/
def IniFile.ownValue (f : IniFile) (sec key : String) : Option String :=
  (f.GetSection sec).bind (fun x => x.ownKey (ToLower key))

/-- A file system with one file, the credentials file, holding `old`. -/
def testFiles : Files :=
  fun p => if p = "credentials" then some ⟨"old", 0o644⟩ else none

/-- A serialization for tests: the names of the sections, one on each line. -/
def testSerialize (f : IniFile) : String :=
  ⟨(f.sections.map (fun x => '[' :: x.name.data ++ [']', '\n'])).flatten⟩

/-- What `Get` answers for a section and key after a `Set`; `none` when the
`Set` panics. -/
def setThenGet (s : Store) (sec key value sec2 key2 : String) : Option (String × Bool) :=
  (s.Set sec key value).map (fun t => (t.Get sec2 key2).1)

/-- A store whose section `a` holds the key `k`. -/
def parentStore : Store :=
  { path := "credentials", ini := ⟨[⟨"default", []⟩, ⟨"a", [("k", "v1")]⟩]⟩ }

/-- A store whose section `s` holds the key `k` and a key `j` that refers to
it. -/
def referringStore : Store :=
  { path := "credentials"
    ini := ⟨[⟨"default", []⟩, ⟨"s", [("k", "v1"), ("j", "%(k)s")]⟩]⟩ }

/-! ## Notions used to state what `Resolve` leaves of the store -/

/-- The names of the parents of a section name, nearest first, with the bound
that `Section.GetKey` never reaches. -/
def parentChain (sname : List Char) : List String := parentNames sname.length sname

/-- The lookup of `Section.GetKey` along the parents of a section: the key of
the first parent, among those that exist, that holds it. -/
def IniFile.walk (f : IniFile) (lname : String) : List String → Option KeyRef
  | [] => none
  | p :: ps =>
    match f.GetSection p with
    | none => f.walk lname ps
    | some x =>
      match x.ownKey lname with
      | some v => some ⟨x, lname, v⟩
      | none => f.walk lname ps

/-- The second file holds the sections of the first under the same names and,
possibly, further sections that are empty. -/
def IniFile.sameUpToEmpty (f g : IniFile) : Prop :=
  ∀ n, g.GetSection n = f.GetSection n ∨
    (f.GetSection n = none ∧ g.GetSection n = some ⟨sectionKey n, []⟩)

/-- The device is looked up in the store: it is neither given explicitly nor
by `MFA_DEVICE`. -/
def deviceFromStore (inp : Inputs) (env : Env) : Prop :=
  ¬ ((inp.DeviceChanged && TrimSpace inp.Device != "") = true) ∧
  ¬ ((TrimSpace (env "MFA_DEVICE") != "") = true)

instance (inp : Inputs) (env : Env) : Decidable (deviceFromStore inp env) := by
  unfold deviceFromStore; infer_instance

/-! ## Notions and data for sections with a dot in their name and values with a
percent sign -/

/-- The key is absent from the section itself, or the value that the section
holds for it is empty after trimming. -/
def ownAbsentOrEmpty (store : Store) (sectionName key : String) : Prop :=
  match store.ini.ownValue sectionName key with
  | none => True
  | some w => TrimSpace w = ""

instance (store : Store) (sectionName key : String) :
    Decidable (ownAbsentOrEmpty store sectionName key) := by
  unfold ownAbsentOrEmpty; split <;> infer_instance

/-- The value that the section holds itself for the key, if it holds one, has
no percent sign: `Key.String` returns it as it is. -/
def ownPlain (store : Store) (sectionName key : String) : Prop :=
  match store.ini.ownValue sectionName key with
  | none => True
  | some w => w.data.contains '%' = false

instance (store : Store) (sectionName key : String) :
    Decidable (ownPlain store sectionName key) := by
  unfold ownPlain; split <;> infer_instance

/-- Spec 4.3, device identifier, the third source being what the long-term
section holds itself: the first source that yields a non-empty value among the
explicit input (when marked as changed), the variable `MFA_DEVICE`, and the
trimmed value of the key `aws_mfa_device` of the long-term section; `none` when
no source does. -/
def ownDeviceSource (inp : Inputs) (env : Env) (store : Store) (longTerm : String) :
    Option String :=
  if inp.DeviceChanged = true ∧ TrimSpace inp.Device ≠ "" then some (TrimSpace inp.Device)
  else if TrimSpace (env "MFA_DEVICE") ≠ "" then some (TrimSpace (env "MFA_DEVICE"))
  else
    match store.ini.ownValue longTerm "aws_mfa_device" with
    | none => none
    | some w => if TrimSpace w ≠ "" then some (TrimSpace w) else none

/-- The inputs of `TestResolve_DeviceEnvThenStore` for the profile `my.org`:
no explicit device. -/
def dottedInputs : Inputs :=
  { testInputs with Profile := "my.org", DeviceChanged := false }

/-- A store whose section `my` holds a device, and whose long-term section of
the profile `my.org` is empty. -/
def parentDeviceStore : Store :=
  { path := "credentials"
    ini := ⟨[⟨"default", []⟩, ⟨"my", [("aws_mfa_device", "parent-device")]⟩,
      ⟨"my.org-long-term", []⟩]⟩ }

/-- A store whose long-term section of the profile `default` holds a device
that refers to the key `x` of the section. -/
def referringDeviceStore : Store :=
  { path := "credentials"
    ini := ⟨[⟨"default", []⟩,
      ⟨"default-long-term", [("x", "dev"), ("aws_mfa_device", "%(x)s")]⟩]⟩ }

/-- A store whose section `prod` is complete and expires on 2026-02-09 at
11:00:00 UTC, and whose section `prod.eu` is empty. -/
def childStore : Store :=
  { path := "credentials"
    ini := ⟨[⟨"default", []⟩,
      ⟨"prod",
        [("aws_access_key_id", "ASIA_TEST"), ("aws_secret_access_key", "SECRET"),
         ("aws_session_token", "TOKEN"), ("aws_security_token", "TOKEN"),
         ("expiration", "2026-02-09 11:00:00")]⟩,
      ⟨"prod.eu", []⟩]⟩ }

/-- A store whose sections `prod` and `prod.eu` are empty. -/
def emptyChildStore : Store :=
  { path := "credentials", ini := ⟨[⟨"default", []⟩, ⟨"prod", []⟩, ⟨"prod.eu", []⟩]⟩ }

/-- A store whose section `default` is complete, with an expiration that
refers to the key `e` of the section. -/
def referringExpiryStore (e : String) : Store :=
  { path := "credentials"
    ini := ⟨[⟨"default",
      [("aws_access_key_id", "ASIA_TEST"), ("aws_secret_access_key", "SECRET"),
       ("aws_session_token", "TOKEN"), ("aws_security_token", "TOKEN"),
       ("expiration", "%(e)s"), ("e", e)]⟩]⟩ }

/-- A credentials file, as loaded, for the profile `prod.eu`: its long-term
section, and a section `prod` that holds short-term credentials. -/
def childFile : IniFile :=
  ⟨[⟨"default", []⟩,
    ⟨"prod",
      [("aws_access_key_id", "ASIA_OLD"), ("aws_secret_access_key", "SECRET_OLD"),
       ("aws_session_token", "TOKEN_OLD"), ("aws_security_token", "TOKEN_OLD"),
       ("expiration", "2026-02-09 09:00:00")]⟩,
    ⟨"prod.eu-long-term",
      [("aws_access_key_id", "AKIA_LT"), ("aws_secret_access_key", "SECRET_LT"),
       ("aws_mfa_device", "device")]⟩]⟩

/-- The inputs of `TestRun_RefreshWritesCredentials` for the profile
`prod.eu`. -/
def childRunInputs : RunInputs :=
  { testRunInputs with Inputs := { testRunInputs.Inputs with Profile := "prod.eu" } }

/-- A credentials file, as loaded, for the profile `my.org`: its long-term
section holds the device only, and the section `my` holds a key pair. -/
def parentKeysFile : IniFile :=
  ⟨[⟨"default", []⟩,
    ⟨"my", [("aws_access_key_id", "AKIA_OTHER"), ("aws_secret_access_key", "SECRET_OTHER")]⟩,
    ⟨"my.org-long-term", [("aws_mfa_device", "device")]⟩]⟩

/-- The inputs of `TestRun_RefreshWritesCredentials` for the profile
`my.org`. -/
def dottedRunInputs : RunInputs :=
  { testRunInputs with Inputs := { testRunInputs.Inputs with Profile := "my.org" } }

/-- A store whose section `s` holds an empty key `x` and a key `k` that refers
to it. -/
def emptyReferenceStore : Store :=
  { path := "credentials"
    ini := ⟨[⟨"default", []⟩, ⟨"s", [("x", ""), ("k", "%(x)s")]⟩]⟩ }

/-! # Properties -/

/-! ## `strings.EqualFold` against the word `none` -/

theorem SimpleFold_lower (t : Nat) (h1 : 0x61 ≤ t) (h2 : t ≤ 0x7A) (hk : t ≠ 0x6B)
    (hs : t ≠ 0x73) : SimpleFold t = t - 0x20 := by
  unfold SimpleFold; split_ifs <;> omega

theorem SimpleFold_upper (t : Nat) (h1 : 0x41 ≤ t) (h2 : t ≤ 0x5A) :
    SimpleFold t = t + 0x20 := by
  unfold SimpleFold; split_ifs <;> omega

/-- Against a small ASCII letter other than `k` and `s`, a rune matches under
case folding exactly when its ASCII lower-casing is that letter. -/
theorem equalFoldRune_lower (r t : Nat) (h1 : 0x61 ≤ t) (h2 : t ≤ 0x7A) (hk : t ≠ 0x6B)
    (hs : t ≠ 0x73) : equalFoldRune r t = true ↔ lowerRune r = t := by
  unfold equalFoldRune lowerRune
  by_cases e : t = r
  · subst e
    have : ¬ (0x41 ≤ t ∧ t ≤ 0x5A) := by omega
    simp [this]
  · simp only [e, if_false]
    by_cases lt : t < r
    · simp only [lt, if_true]
      by_cases a : r < 0x80
      · simp only [a, if_true, decide_eq_true_eq]
        constructor
        · intro h; omega
        · intro h; split_ifs at h <;> omega
      · simp only [a, if_false]
        have f1 : SimpleFold t = t - 0x20 := SimpleFold_lower t h1 h2 hk hs
        have f2 : SimpleFold (t - 0x20) = t := by
          rw [SimpleFold_upper (t - 0x20) (by omega) (by omega)]; omega
        have e4 : foldUpTo t r 4 (SimpleFold t) = t := by
          rw [f1]
          have c1 : t - 0x20 ≠ t ∧ t - 0x20 < r := by omega
          have c2 : ¬ (t ≠ t ∧ t < r) := by simp
          rw [foldUpTo, if_pos c1, f2, foldUpTo, if_neg c2]
        rw [e4]
        have : ¬ (0x41 ≤ r ∧ r ≤ 0x5A) := by omega
        simp only [this, if_false, beq_iff_eq]
        exact eq_comm
    · simp only [lt, if_false]
      have a : t < 0x80 := by omega
      simp only [a, if_true, decide_eq_true_eq]
      constructor
      · intro h; have : 0x41 ≤ r ∧ r ≤ 0x5A := ⟨h.1, h.2.1⟩
        simp only [this, and_self, if_true]; omega
      · intro h; split_ifs at h with c <;> omega

theorem equalFoldRunes_none (cs : List Char) :
    equalFoldRunes cs ['n', 'o', 'n', 'e'] = true ↔
      cs.map (fun c => lowerRune c.toNat) = [110, 111, 110, 101] := by
  have hn : ('n' : Char).toNat = 110 := rfl
  have ho : ('o' : Char).toNat = 111 := rfl
  have he : ('e' : Char).toNat = 101 := rfl
  match cs with
  | [] => simp [equalFoldRunes]
  | [_] => simp [equalFoldRunes]
  | [_, _] => simp [equalFoldRunes]
  | [_, _, _] => simp [equalFoldRunes]
  | [a, b, c, d] =>
    simp only [equalFoldRunes, hn, ho, he, Bool.and_true, Bool.and_eq_true, List.map_cons,
      List.map_nil, List.cons.injEq, and_true,
      equalFoldRune_lower a.toNat 110 (by decide) (by decide) (by decide) (by decide),
      equalFoldRune_lower b.toNat 111 (by decide) (by decide) (by decide) (by decide),
      equalFoldRune_lower c.toNat 110 (by decide) (by decide) (by decide) (by decide),
      equalFoldRune_lower d.toNat 101 (by decide) (by decide) (by decide) (by decide)]
  | _ :: _ :: _ :: _ :: _ :: _ => simp [equalFoldRunes]

/-- `strings.EqualFold(s, "none")` holds exactly for the spellings of the word
`none` in ASCII letters of either case. -/
theorem EqualFold_none (s : String) :
    EqualFold s "none" = true ↔ equalsIgnoringCase s "none" := by
  unfold EqualFold equalsIgnoringCase
  exact equalFoldRunes_none s.data

/-! ## Section names -/

theorem longNameOf_eq_spec (p l : String) : longNameOf p l = specLongTermName p l := by
  unfold longNameOf specLongTermName
  by_cases h : EqualFold l "none" = true
  · simp [h, (EqualFold_none l).1 h]
  · have h2 : ¬ equalsIgnoringCase l "none" := fun c => h ((EqualFold_none l).2 c)
    simp [h, h2]

theorem shortNameOf_eq_spec (p s : String) : shortNameOf p s = specShortTermName p s := by
  unfold shortNameOf specShortTermName
  by_cases h : EqualFold s "none" = true
  · simp [h, (EqualFold_none s).1 h]
  · have h2 : ¬ equalsIgnoringCase s "none" := fun c => h ((EqualFold_none s).2 c)
    by_cases e : s = ""
    · simp [e]
    · simp [h, h2, e]

/-- `ComputeSectionNames` in terms of the spec's naming rules. -/
theorem ComputeSectionNames_eq (profile longTermSuffix shortTermSuffix : String) :
    ComputeSectionNames profile longTermSuffix shortTermSuffix =
      if TrimSpace profile = "" then .error .profileEmpty
      else if specLongTermName (TrimSpace profile) (TrimSpace longTermSuffix)
          = specShortTermName (TrimSpace profile) (TrimSpace shortTermSuffix) then
        .error (.sectionNamesEqual
          (specLongTermName (TrimSpace profile) (TrimSpace longTermSuffix))
          (specShortTermName (TrimSpace profile) (TrimSpace shortTermSuffix)))
      else .ok { LongTerm := specLongTermName (TrimSpace profile) (TrimSpace longTermSuffix)
                 ShortTerm := specShortTermName (TrimSpace profile) (TrimSpace shortTermSuffix) } := by
  simp only [ComputeSectionNames, longNameOf_eq_spec, shortNameOf_eq_spec]

/-- C1: whenever `ComputeSectionNames` succeeds, with `p`, `l`, `s` the
trimmed profile and suffixes, the long-term name is `p-long-term` when `l` is
empty, `p` when `l` is `none` in any letter case and `p-l` otherwise, and the
short-term name is `p` when `s` is empty or `none` in any letter case and
`p-s` otherwise. -/
theorem C1_section_names (profile longTermSuffix shortTermSuffix : String)
    (names : SectionNames)
    (h : ComputeSectionNames profile longTermSuffix shortTermSuffix = .ok names) :
    (TrimSpace longTermSuffix = "" →
        names.LongTerm = TrimSpace profile ++ "-long-term") ∧
    (equalsIgnoringCase (TrimSpace longTermSuffix) "none" →
        names.LongTerm = TrimSpace profile) ∧
    (TrimSpace longTermSuffix ≠ "" → ¬ equalsIgnoringCase (TrimSpace longTermSuffix) "none" →
        names.LongTerm = TrimSpace profile ++ "-" ++ TrimSpace longTermSuffix) ∧
    (TrimSpace shortTermSuffix = "" ∨ equalsIgnoringCase (TrimSpace shortTermSuffix) "none" →
        names.ShortTerm = TrimSpace profile) ∧
    (TrimSpace shortTermSuffix ≠ "" → ¬ equalsIgnoringCase (TrimSpace shortTermSuffix) "none" →
        names.ShortTerm = TrimSpace profile ++ "-" ++ TrimSpace shortTermSuffix) := by
  rw [ComputeSectionNames_eq] at h
  split_ifs at h with h1 h2
  cases h
  refine ⟨?_, ?_, ?_, ?_, ?_⟩
  · intro e; simp [specLongTermName, e]
  · intro e
    have ne : TrimSpace longTermSuffix ≠ "" := by
      intro c; rw [c] at e; revert e; decide
    simp [specLongTermName, e, ne]
  · intro ne e; simp [specLongTermName, e, ne]
  · intro e; simp [specShortTermName, e]
  · intro ne e; simp [specShortTermName, e, ne]

/-- C1, on the two examples of the spec: `("default", "", "")` gives
`default-long-term` and `default`, `("myorg", "none", "production")` gives
`myorg` and `myorg-production`. -/
theorem C1_section_names_witness :
    ComputeSectionNames "default" "" "" = .ok ⟨"default-long-term", "default"⟩ ∧
    ComputeSectionNames "myorg" "none" "production" = .ok ⟨"myorg", "myorg-production"⟩ ∧
    ((TrimSpace "" = "" →
        (⟨"default-long-term", "default"⟩ : SectionNames).LongTerm
          = TrimSpace "default" ++ "-long-term") ∧
     (equalsIgnoringCase (TrimSpace "") "none" →
        (⟨"default-long-term", "default"⟩ : SectionNames).LongTerm = TrimSpace "default") ∧
     (TrimSpace "" ≠ "" → ¬ equalsIgnoringCase (TrimSpace "") "none" →
        (⟨"default-long-term", "default"⟩ : SectionNames).LongTerm
          = TrimSpace "default" ++ "-" ++ TrimSpace "") ∧
     (TrimSpace "" = "" ∨ equalsIgnoringCase (TrimSpace "") "none" →
        (⟨"default-long-term", "default"⟩ : SectionNames).ShortTerm = TrimSpace "default") ∧
     (TrimSpace "" ≠ "" → ¬ equalsIgnoringCase (TrimSpace "") "none" →
        (⟨"default-long-term", "default"⟩ : SectionNames).ShortTerm
          = TrimSpace "default" ++ "-" ++ TrimSpace "")) :=
  ⟨by decide, by decide,
    C1_section_names "default" "" "" ⟨"default-long-term", "default"⟩ (by decide)⟩

/-- C2: `ComputeSectionNames` fails exactly when the trimmed profile is empty
or the two names given by the naming rules are equal; when it succeeds the two
names it returns differ; and `("prod", "none", "none")` fails. -/
theorem C2_fails_iff_empty_or_equal (profile longTermSuffix shortTermSuffix : String) :
    ((∃ err, ComputeSectionNames profile longTermSuffix shortTermSuffix = .error err) ↔
      (TrimSpace profile = "" ∨
        specLongTermName (TrimSpace profile) (TrimSpace longTermSuffix)
          = specShortTermName (TrimSpace profile) (TrimSpace shortTermSuffix))) ∧
    (∀ names, ComputeSectionNames profile longTermSuffix shortTermSuffix = .ok names →
      names.LongTerm ≠ names.ShortTerm) ∧
    (∃ err, ComputeSectionNames "prod" "none" "none" = .error err) := by
  refine ⟨?_, ?_, ⟨_, rfl⟩⟩
  · rw [ComputeSectionNames_eq]
    constructor
    · rintro ⟨err, h⟩
      split_ifs at h with h1 h2
      · exact Or.inl h1
      · exact Or.inr h2
    · rintro (h1 | h2)
      · exact ⟨_, by rw [if_pos h1]⟩
      · by_cases h1 : TrimSpace profile = ""
        · exact ⟨_, by rw [if_pos h1]⟩
        · exact ⟨_, by rw [if_neg h1, if_pos h2]⟩
  · intro names h
    rw [ComputeSectionNames_eq] at h
    split_ifs at h with h1 h2
    cases h
    exact h2

/-! ## `Resolve` -/

theorem resolveDevice_fst (inp : Inputs) (env : Env) (store : Store) (names : SectionNames) :
    (resolveDevice inp env store names).1 = firstDeviceSource inp env store names.LongTerm := by
  unfold resolveDevice firstDeviceSource
  by_cases h1 : inp.DeviceChanged = true ∧ TrimSpace inp.Device ≠ ""
  · simp [h1.1, h1.2]
  · by_cases h2 : TrimSpace (env "MFA_DEVICE") ≠ ""
    · have h1b : (inp.DeviceChanged && TrimSpace inp.Device != "") = false := by
        rw [Bool.eq_false_iff]; intro c; apply h1; simpa using c
      simp [h1b, h1, h2]
    · have h1b : (inp.DeviceChanged && TrimSpace inp.Device != "") = false := by
        rw [Bool.eq_false_iff]; intro c; apply h1; simpa using c
      have h2b : (TrimSpace (env "MFA_DEVICE") != "") = false := by
        rw [Bool.eq_false_iff]; intro c; apply h2; simpa using c
      rw [h1b, h2b, if_neg h1, if_neg h2]
      simp only [Bool.false_eq_true, if_false]
      by_cases h3 : (store.Get names.LongTerm "aws_mfa_device").1.2 = true
          ∧ (store.Get names.LongTerm "aws_mfa_device").1.1 ≠ ""
      · rw [if_pos h3]; simp [h3.1, h3.2]
      · rw [if_neg h3]
        have h3b : ((store.Get names.LongTerm "aws_mfa_device").1.2
            && (store.Get names.LongTerm "aws_mfa_device").1.1 != "") = false := by
          rw [Bool.eq_false_iff]; intro c; apply h3; simpa using c
        simp [h3b]

/-- The result of `Resolve`, block by block. -/
theorem Resolve_fst (inp : Inputs) (env : Env) (store : Store) :
    (Resolve inp env store).1 =
      match ComputeSectionNames (resolveProfile inp env) inp.LongTermSuffix
          inp.ShortTermSuffix with
      | .error err => .error err
      | .ok names =>
        match firstDeviceSource inp env store names.LongTerm with
        | none => .error .missingDevice
        | some device =>
          match resolveDuration inp env with
          | .error err => .error err
          | .ok duration =>
            .ok { Profile := resolveProfile inp env
                  LongTermSection := names.LongTerm
                  ShortTermSection := names.ShortTerm
                  Device := device
                  DurationSeconds := duration
                  Token := resolveToken inp
                  Force := inp.Force
                  CredentialsFile := inp.CredentialsFile } := by
  unfold Resolve
  simp only []
  cases hn : ComputeSectionNames (resolveProfile inp env) inp.LongTermSuffix
      inp.ShortTermSuffix with
  | error err => rfl
  | ok names =>
    simp only []
    rw [← resolveDevice_fst]
    rcases hd : resolveDevice inp env store names with ⟨d, store1⟩
    cases d with
    | none => rfl
    | some device =>
      simp only []
      cases resolveDuration inp env <;> rfl

/-- What a successful `Resolve` returns. -/
theorem Resolve_ok (inp : Inputs) (env : Env) (store : Store) (r : Resolved)
    (h : (Resolve inp env store).1 = .ok r) :
    r.Profile = resolveProfile inp env ∧
    ComputeSectionNames (resolveProfile inp env) inp.LongTermSuffix inp.ShortTermSuffix
      = .ok ⟨r.LongTermSection, r.ShortTermSection⟩ ∧
    firstDeviceSource inp env store r.LongTermSection = some r.Device ∧
    resolveDuration inp env = .ok r.DurationSeconds := by
  rw [Resolve_fst] at h
  cases hn : ComputeSectionNames (resolveProfile inp env) inp.LongTermSuffix
      inp.ShortTermSuffix with
  | error err => rw [hn] at h; cases h
  | ok names =>
    rw [hn] at h
    simp only [] at h
    cases hd : firstDeviceSource inp env store names.LongTerm with
    | none => rw [hd] at h; cases h
    | some device =>
      rw [hd] at h
      simp only [] at h
      cases hu : resolveDuration inp env with
      | error err => rw [hu] at h; cases h
      | ok duration =>
        rw [hu] at h
        simp only [Except.ok.injEq] at h
        subst h
        exact ⟨rfl, rfl, hd, rfl⟩

theorem firstDeviceSource_ne_empty (inp : Inputs) (env : Env) (store : Store)
    (longTerm d : String) (h : firstDeviceSource inp env store longTerm = some d) : d ≠ "" := by
  unfold firstDeviceSource at h
  split_ifs at h with h1 h2 h3
  · cases h; exact h1.2
  · cases h; exact h2
  · cases h; exact h3.2

theorem resolveDuration_ne_missingDevice (inp : Inputs) (env : Env) :
    resolveDuration inp env ≠ .error .missingDevice := by
  unfold resolveDuration
  split_ifs
  · intro c; cases c
  · split
    · intro c; cases c
    · split_ifs <;> intro c <;> cases c
  · intro c; cases c

/-- The device of `Resolve` in terms of what `Store.Get` answers for the key
`aws_mfa_device` of the long-term section. -/
theorem Resolve_device (inp : Inputs) (env : Env) (store : Store) (names : SectionNames)
    (hn : ComputeSectionNames (resolveProfile inp env) inp.LongTermSuffix inp.ShortTermSuffix
      = .ok names) :
    ((Resolve inp env store).1 = .error .missingDevice ↔
      firstDeviceSource inp env store names.LongTerm = none) ∧
    (∀ r, (Resolve inp env store).1 = .ok r →
      firstDeviceSource inp env store names.LongTerm = some r.Device ∧ r.Device ≠ "") := by
  constructor
  · rw [Resolve_fst, hn]
    simp only []
    cases hd : firstDeviceSource inp env store names.LongTerm with
    | none => simp
    | some device =>
      simp only []
      cases hu : resolveDuration inp env with
      | error err =>
        have := resolveDuration_ne_missingDevice inp env
        rw [hu] at this
        simp only [reduceCtorEq, iff_false]
        intro c
        apply this
        cases c
        rfl
      | ok duration => simp
  · intro r h
    obtain ⟨_, h2, h3, _⟩ := Resolve_ok inp env store r h
    rw [hn] at h2
    cases h2
    exact ⟨h3, firstDeviceSource_ne_empty inp env store _ _ h3⟩

/-! ## `strconv.ParseInt` against the spec's decimal integers -/

theorem parseDigitsFrom_eq (cs : List Char) (acc : Nat) :
    parseDigitsFrom acc cs =
      if cs.all isDigit = true then some (cs.foldl (fun a c => a * 10 + digitVal c) acc)
      else none := by
  induction cs generalizing acc with
  | nil => simp [parseDigitsFrom]
  | cons c rest ih =>
    by_cases hc : isDigit c = true
    · simp [parseDigitsFrom, hc, ih]
    · simp [parseDigitsFrom, hc]

theorem parseDigits_eq (cs : List Char) :
    parseDigits cs =
      if (!cs.isEmpty && cs.all isDigit) = true then
        some (cs.foldl (fun a c => a * 10 + digitVal c) 0)
      else none := by
  cases cs with
  | nil => simp [parseDigits]
  | cons c rest => simp [parseDigits, parseDigitsFrom_eq]

/-- `strconv.ParseInt(v, 10, 32)` succeeds exactly on the decimal integers that
denote a value of `int32`, and returns that value. -/
theorem ParseInt32_eq (v : String) :
    ParseInt32 v =
      if isDecimalInteger v = true ∧ -2147483648 ≤ decimalValue v ∧ decimalValue v ≤ 2147483647
      then some (decimalValue v) else none := by
  unfold ParseInt32 isDecimalInteger decimalValue decimalDigits hasSign
  cases hv : v.data with
  | nil => simp
  | cons c rest =>
    simp only [List.head?_cons, List.tail_cons]
    by_cases hm : c = '-'
    · subst hm
      simp only [parseDigits_eq]
      by_cases hd : (!rest.isEmpty && rest.all isDigit) = true
      · simp [hd]
        generalize List.foldl (fun a c => a * 10 + digitVal c) 0 rest = m
        split_ifs <;> first | rfl | (exfalso; omega)
      · simp [hd]
    · by_cases hp : c = '+'
      · subst hp
        simp only [parseDigits_eq]
        by_cases hd : (!rest.isEmpty && rest.all isDigit) = true
        · simp [hd]
          generalize List.foldl (fun a c => a * 10 + digitVal c) 0 rest = m
          split_ifs <;> first | rfl | (exfalso; omega)
        · simp [hd]
      · simp only [parseDigits_eq]
        simp [hm, hp]
        generalize List.foldl (fun a c => a * 10 + digitVal c) (digitVal c) rest = m
        by_cases hd : isDigit c = true ∧ ∀ x ∈ rest, isDigit x = true
        · have h1 := hd.1
          have h2 := hd.2
          simp only [h1, true_and]
          have e1 : (if ∀ x ∈ rest, isDigit x = true then some m else none) = some m := if_pos h2
          rw [e1]
          simp only []
          by_cases hr : m ≤ 2147483647
          · rw [if_neg (by omega), if_pos ⟨h2, by omega, hr⟩]
          · rw [if_pos (by omega), if_neg (fun c => hr c.2.2)]
        · simp [hd]

theorem toInt32_of_int32 (x : Int) (h1 : -2147483648 ≤ x) (h2 : x ≤ 2147483647) :
    toInt32 x = x := by
  unfold toInt32
  norm_num
  omega

/-- The duration block when the duration is not taken from the explicit input
and `MFA_STS_DURATION` is not blank. -/
theorem resolveDuration_env (inp : Inputs) (env : Env) (hx : ¬ explicitDuration inp)
    (hv : TrimSpace (env "MFA_STS_DURATION") ≠ "") :
    resolveDuration inp env =
      if isDecimalInteger (TrimSpace (env "MFA_STS_DURATION")) = true
          ∧ 0 < decimalValue (TrimSpace (env "MFA_STS_DURATION"))
          ∧ decimalValue (TrimSpace (env "MFA_STS_DURATION")) ≤ 2147483647 then
        .ok (decimalValue (TrimSpace (env "MFA_STS_DURATION")))
      else .error (.invalidDuration (TrimSpace (env "MFA_STS_DURATION"))) := by
  have hx2 : (inp.DurationSecondsChanged && decide (inp.DurationSeconds > 0)) = false := by
    rw [Bool.eq_false_iff]; intro c; apply hx
    simpa [explicitDuration] using c
  have hv2 : (TrimSpace (env "MFA_STS_DURATION") != "") = true := by simpa using hv
  unfold resolveDuration
  rw [hx2, hv2, ParseInt32_eq]
  simp only [Bool.false_eq_true, if_false, if_true]
  generalize TrimSpace (env "MFA_STS_DURATION") = v
  by_cases hd : isDecimalInteger v = true
  · by_cases hr : -2147483648 ≤ decimalValue v ∧ decimalValue v ≤ 2147483647
    · rw [if_pos ⟨hd, hr⟩]
      simp only []
      by_cases hp : decimalValue v ≤ 0
      · rw [if_pos hp, if_neg (by omega)]
      · rw [if_neg hp, if_pos ⟨hd, by omega, hr.2⟩, toInt32_of_int32 _ hr.1 hr.2]
    · rw [if_neg (fun c => hr c.2)]
      simp only []
      rw [if_neg]
      intro c
      exact hr ⟨by omega, c.2.2⟩
  · rw [if_neg (fun c => hd c.1), if_neg (fun c => hd c.1)]

/-- The duration block when the duration is not taken from the explicit input
and `MFA_STS_DURATION` is unset or blank. -/
theorem resolveDuration_default (inp : Inputs) (env : Env) (hx : ¬ explicitDuration inp)
    (hv : TrimSpace (env "MFA_STS_DURATION") = "") :
    resolveDuration inp env = .ok 43200 := by
  have hx2 : (inp.DurationSecondsChanged && decide (inp.DurationSeconds > 0)) = false := by
    rw [Bool.eq_false_iff]; intro c; apply hx
    simpa [explicitDuration] using c
  unfold resolveDuration
  rw [hx2, hv]
  rfl

theorem resolveProfile_explicit (inp : Inputs) (env : Env) (h : explicitProfile inp) :
    resolveProfile inp env = TrimSpace inp.Profile := by
  unfold resolveProfile
  have : (inp.ProfileChanged && TrimSpace inp.Profile != "") = true := by
    simpa [explicitProfile] using h
  rw [this]; rfl

theorem resolveProfile_env (inp : Inputs) (env : Env) (h : ¬ explicitProfile inp) :
    resolveProfile inp env =
      if TrimSpace (env "AWS_PROFILE") ≠ "" then TrimSpace (env "AWS_PROFILE")
      else "default" := by
  unfold resolveProfile
  have : (inp.ProfileChanged && TrimSpace inp.Profile != "") = false := by
    rw [Bool.eq_false_iff]; intro c; apply h
    simpa [explicitProfile] using c
  rw [this]
  by_cases hv : TrimSpace (env "AWS_PROFILE") = ""
  · simp [hv]
  · simp [hv]

/-- C4, the failing input: with `--duration 4294967296`, marked as changed and
positive, `Resolve` succeeds and `int32(in.DurationSeconds)` is `0`; with
`2147483648` it is `-2147483648`. The resolved duration is not positive. -/
theorem C4_explicit_duration_wraps :
    (0 : Int) < 4294967296 ∧ (4294967296 : Int) < 2 ^ 63 ∧
    (Resolve { testInputs with DurationSeconds := 4294967296, DurationSecondsChanged := true }
        (envOf []) testStore).1
      = .ok { Profile := "default", LongTermSection := "default-long-term",
              ShortTermSection := "default", Device := "from-flag",
              DurationSeconds := 0, Token := "", Force := false,
              CredentialsFile := "credentials" } ∧
    (Resolve { testInputs with DurationSeconds := 2147483648, DurationSecondsChanged := true }
        (envOf []) testStore).1
      = .ok { Profile := "default", LongTermSection := "default-long-term",
              ShortTermSection := "default", Device := "from-flag",
              DurationSeconds := -2147483648, Token := "", Force := false,
              CredentialsFile := "credentials" } := by
  refine ⟨by decide, by decide, by decide, by decide⟩

/-- C5, as stated, fails: `MFA_STS_DURATION=2147483648` is a decimal integer
that denotes a positive value, the device resolves and the section names are
valid, yet `Resolve` fails with the invalid-duration error. -/
theorem C5_counterexample :
    ¬ explicitDuration testInputs ∧
    TrimSpace (envOf [("MFA_STS_DURATION", "2147483648")] "MFA_STS_DURATION") = "2147483648" ∧
    isDecimalInteger "2147483648" = true ∧ 0 < decimalValue "2147483648" ∧
    ComputeSectionNames
        (resolveProfile testInputs (envOf [("MFA_STS_DURATION", "2147483648")]))
        testInputs.LongTermSuffix testInputs.ShortTermSuffix
      = .ok ⟨"default-long-term", "default"⟩ ∧
    firstDeviceSource testInputs (envOf [("MFA_STS_DURATION", "2147483648")]) testStore
      "default-long-term" = some "from-flag" ∧
    (Resolve testInputs (envOf [("MFA_STS_DURATION", "2147483648")]) testStore).1
      = .error (.invalidDuration "2147483648") := by
  refine ⟨by decide, by decide, by decide, by decide, by decide, by decide, by decide⟩

/-- C5, amended: when the duration is not taken from the explicit input and
the trimmed `MFA_STS_DURATION` value `v` is not empty, `Resolve` fails if `v`
is not a decimal integer, denotes a value `<= 0` or denotes a value above
`2147483647`; and for every `v` that denotes an integer from `1` to
`2147483647`, given valid section names and a resolvable device, `Resolve`
succeeds with `DurationSeconds` equal to that integer. -/
theorem C5_env_duration (inp : Inputs) (env : Env) (store : Store)
    (hx : ¬ explicitDuration inp) (hv : TrimSpace (env "MFA_STS_DURATION") ≠ "") :
    ((isDecimalInteger (TrimSpace (env "MFA_STS_DURATION")) = false
        ∨ decimalValue (TrimSpace (env "MFA_STS_DURATION")) ≤ 0
        ∨ 2147483647 < decimalValue (TrimSpace (env "MFA_STS_DURATION"))) →
      ∃ err, (Resolve inp env store).1 = .error err) ∧
    (isDecimalInteger (TrimSpace (env "MFA_STS_DURATION")) = true →
      0 < decimalValue (TrimSpace (env "MFA_STS_DURATION")) →
      decimalValue (TrimSpace (env "MFA_STS_DURATION")) ≤ 2147483647 →
      ∀ names device,
        ComputeSectionNames (resolveProfile inp env) inp.LongTermSuffix inp.ShortTermSuffix
          = .ok names →
        firstDeviceSource inp env store names.LongTerm = some device →
        ∃ r, (Resolve inp env store).1 = .ok r
          ∧ r.DurationSeconds = decimalValue (TrimSpace (env "MFA_STS_DURATION"))) := by
  constructor
  · intro hbad
    rw [Resolve_fst]
    cases hn : ComputeSectionNames (resolveProfile inp env) inp.LongTermSuffix
        inp.ShortTermSuffix with
    | error err => exact ⟨err, rfl⟩
    | ok names =>
      simp only []
      cases hd : firstDeviceSource inp env store names.LongTerm with
      | none => exact ⟨_, rfl⟩
      | some device =>
        simp only []
        rw [resolveDuration_env inp env hx hv, if_neg]
        · exact ⟨_, rfl⟩
        · rintro ⟨c1, c2, c3⟩
          rcases hbad with b | b | b
          · rw [c1] at b; cases b
          · omega
          · omega
  · intro h1 h2 h3 names device hn hd
    rw [Resolve_fst, hn]
    simp only []
    rw [hd]
    simp only []
    rw [resolveDuration_env inp env hx hv, if_pos ⟨h1, h2, h3⟩]
    exact ⟨_, rfl, rfl⟩

/-- C5, on the data of `TestResolve_DurationDefaultAndEnv`:
`MFA_STS_DURATION=1800` gives 1800 seconds. -/
theorem C5_env_duration_witness :
    (Resolve { testInputs with DeviceChanged := false }
        (envOf [("MFA_STS_DURATION", "1800")]) testStore).1
      = .ok { Profile := "default", LongTermSection := "default-long-term",
              ShortTermSection := "default", Device := "from-store",
              DurationSeconds := 1800, Token := "", Force := false,
              CredentialsFile := "credentials" } ∧
    ∃ r, (Resolve { testInputs with DeviceChanged := false }
        (envOf [("MFA_STS_DURATION", "1800")]) testStore).1 = .ok r
      ∧ r.DurationSeconds
          = decimalValue (TrimSpace (envOf [("MFA_STS_DURATION", "1800")] "MFA_STS_DURATION")) :=
  ⟨by decide,
    (C5_env_duration { testInputs with DeviceChanged := false }
      (envOf [("MFA_STS_DURATION", "1800")]) testStore (by decide) (by decide)).2
      (by decide) (by decide) (by decide) ⟨"default-long-term", "default"⟩ "from-store"
      (by decide) (by decide)⟩

/-- C6: when the duration is not taken from the explicit input and
`MFA_STS_DURATION` is unset or blank, every successful `Resolve` returns
`DurationSeconds = 43200`. -/
theorem C6_default_duration (inp : Inputs) (env : Env) (store : Store) (r : Resolved)
    (hx : ¬ explicitDuration inp) (hv : TrimSpace (env "MFA_STS_DURATION") = "")
    (h : (Resolve inp env store).1 = .ok r) : r.DurationSeconds = 43200 := by
  obtain ⟨_, _, _, hd⟩ := Resolve_ok inp env store r h
  rw [resolveDuration_default inp env hx hv] at hd
  exact (Except.ok.inj hd).symm

/-- C6, on the data of `TestResolve_DurationDefaultAndEnv`, with a blank
`MFA_STS_DURATION`. -/
theorem C6_default_duration_witness :
    (Resolve { testInputs with DeviceChanged := false }
        (envOf [("MFA_STS_DURATION", "  ")]) testStore).1
      = .ok { Profile := "default", LongTermSection := "default-long-term",
              ShortTermSection := "default", Device := "from-store",
              DurationSeconds := 43200, Token := "", Force := false,
              CredentialsFile := "credentials" } ∧
    ({ Profile := "default", LongTermSection := "default-long-term",
       ShortTermSection := "default", Device := "from-store",
       DurationSeconds := 43200, Token := "", Force := false,
       CredentialsFile := "credentials" } : Resolved).DurationSeconds = 43200 :=
  ⟨by decide,
    C6_default_duration { testInputs with DeviceChanged := false }
      (envOf [("MFA_STS_DURATION", "  ")]) testStore
      { Profile := "default", LongTermSection := "default-long-term",
        ShortTermSection := "default", Device := "from-store",
        DurationSeconds := 43200, Token := "", Force := false,
        CredentialsFile := "credentials" }
      (by decide) (by decide) (by decide)⟩

/-- C7, as stated, fails: with no explicit profile and the variable `PROFILE`
set to `staging`, `Resolve` succeeds with the profile `default`. -/
theorem C7_counterexample :
    ¬ explicitProfile { testInputs with Profile := "", ProfileChanged := false } ∧
    TrimSpace (envOf [("PROFILE", "staging")] "PROFILE") = "staging" ∧
    (Resolve { testInputs with Profile := "", ProfileChanged := false }
        (envOf [("PROFILE", "staging")]) testStore).1
      = .ok { Profile := "default", LongTermSection := "default-long-term",
              ShortTermSection := "default", Device := "from-flag",
              DurationSeconds := 43200, Token := "", Force := false,
              CredentialsFile := "credentials" } := by
  refine ⟨by decide, by decide, by decide⟩

/-- C7, amended: when no explicit profile is supplied, every successful
`Resolve` takes the profile from the trimmed value of the variable
`AWS_PROFILE` when that value is not empty and uses `default` otherwise, and
computes the section names from that profile. -/
theorem C7_profile_from_env (inp : Inputs) (env : Env) (store : Store) (r : Resolved)
    (hx : ¬ explicitProfile inp) (h : (Resolve inp env store).1 = .ok r) :
    r.Profile = (if TrimSpace (env "AWS_PROFILE") ≠ "" then TrimSpace (env "AWS_PROFILE")
      else "default") ∧
    ComputeSectionNames r.Profile inp.LongTermSuffix inp.ShortTermSuffix
      = .ok ⟨r.LongTermSection, r.ShortTermSection⟩ := by
  obtain ⟨hp, hn, _, _⟩ := Resolve_ok inp env store r h
  rw [← hp] at hn
  exact ⟨by rw [hp, resolveProfile_env inp env hx], hn⟩

/-- C7, amended, on an environment with `AWS_PROFILE` set to ` staging `. -/
theorem C7_profile_from_env_witness :
    (Resolve { testInputs with Profile := "", ProfileChanged := false }
        (envOf [("AWS_PROFILE", " staging ")]) testStore).1
      = .ok { Profile := "staging", LongTermSection := "staging-long-term",
              ShortTermSection := "staging", Device := "from-flag",
              DurationSeconds := 43200, Token := "", Force := false,
              CredentialsFile := "credentials" } ∧
    "staging" = (if TrimSpace (envOf [("AWS_PROFILE", " staging ")] "AWS_PROFILE") ≠ ""
      then TrimSpace (envOf [("AWS_PROFILE", " staging ")] "AWS_PROFILE") else "default") :=
  ⟨by decide,
    (C7_profile_from_env { testInputs with Profile := "", ProfileChanged := false }
      (envOf [("AWS_PROFILE", " staging ")]) testStore
      { Profile := "staging", LongTermSection := "staging-long-term",
        ShortTermSection := "staging", Device := "from-flag",
        DurationSeconds := 43200, Token := "", Force := false,
        CredentialsFile := "credentials" }
      (by decide) (by decide)).1⟩

/-- C8: when `ProfileChanged` is set and `in.Profile` is not blank, every
successful `Resolve` returns the trimmed `in.Profile` as the profile, whatever
the environment and the store hold, and the section names are computed from
that profile. -/
theorem C8_explicit_profile (inp : Inputs) (env : Env) (store : Store) (r : Resolved)
    (hx : explicitProfile inp) (h : (Resolve inp env store).1 = .ok r) :
    r.Profile = TrimSpace inp.Profile ∧
    ComputeSectionNames (TrimSpace inp.Profile) inp.LongTermSuffix inp.ShortTermSuffix
      = .ok ⟨r.LongTermSection, r.ShortTermSection⟩ := by
  obtain ⟨hp, hn, _, _⟩ := Resolve_ok inp env store r h
  rw [resolveProfile_explicit inp env hx] at hp hn
  exact ⟨hp, hn⟩

/-- C8, on an explicit profile ` work ` while `AWS_PROFILE` is `staging`. -/
theorem C8_explicit_profile_witness :
    (Resolve { testInputs with Profile := " work " }
        (envOf [("AWS_PROFILE", "staging")]) testStore).1
      = .ok { Profile := "work", LongTermSection := "work-long-term",
              ShortTermSection := "work", Device := "from-flag",
              DurationSeconds := 43200, Token := "", Force := false,
              CredentialsFile := "credentials" } ∧
    "work" = TrimSpace " work " :=
  ⟨by decide,
    (C8_explicit_profile { testInputs with Profile := " work " }
      (envOf [("AWS_PROFILE", "staging")]) testStore
      { Profile := "work", LongTermSection := "work-long-term",
        ShortTermSection := "work", Device := "from-flag",
        DurationSeconds := 43200, Token := "", Force := false,
        CredentialsFile := "credentials" }
      (by decide) (by decide)).1⟩

/-! ## `DecideRefresh` -/

/-- C9: with `force = true`, for every instant, store and section name,
`DecideRefresh` returns `ShouldRefresh = true` with the reason
`forced refresh`, carries neither an expiry nor a remaining duration, and
leaves the store as it is; this holds on the complete, non-expired section of
`TestDecideRefresh_StillValid`, which is not refreshed without `force`. -/
theorem C9_force_refreshes (now : Time) (store : Store) (shortTermSection : String) :
    DecideRefresh now store shortTermSection true =
      ({ ShouldRefresh := true, ExpiresAt := none, Remaining := none,
         Reason := "forced refresh" }, store) ∧
    (DecideRefresh testNow validStore "default" false).1 =
      { ShouldRefresh := false, ExpiresAt := some (Date 2026 2 9 11 0 0 0),
        Remaining := some 3600000000000, Reason := "still valid" } ∧
    (DecideRefresh testNow validStore "default" true).1 =
      { ShouldRefresh := true, ExpiresAt := none, Remaining := none,
        Reason := "forced refresh" } := by
  refine ⟨rfl, ?_, ?_⟩
  · decide
  · decide

/-- C10, as stated, fails on its example: the store loaded from a path at
which no file exists already has the section `default` (the default section
of the INI library), so for `default` the reason is that of the missing
keys. -/
theorem C10_counterexample :
    Load "credentials" .notExist = .ok freshStore ∧
    freshStore.HasSection "default" = true ∧
    (DecideRefresh ⟨0, 0⟩ freshStore "default" false).1 =
      { ShouldRefresh := true, ExpiresAt := none, Remaining := none,
        Reason := "short-term section missing required keys" } := by
  refine ⟨by decide, by decide, by decide⟩

/-- C10, amended: with `force = false`, for every store that does not have
the named short-term section, `DecideRefresh` returns `ShouldRefresh = true`
with the reason `short-term section missing`, without expiry or remaining
duration, and leaves the store as it is. -/
theorem C10_missing_section (now : Time) (store : Store) (shortTermSection : String)
    (h : store.HasSection shortTermSection = false) :
    DecideRefresh now store shortTermSection false =
      ({ ShouldRefresh := true, ExpiresAt := none, Remaining := none,
         Reason := "short-term section missing" }, store) := by
  unfold DecideRefresh
  simp [h]

/-- C10, amended, on the store loaded from a path at which no file exists,
asked for the section `work`. -/
theorem C10_missing_section_witness :
    freshStore.HasSection "work" = false ∧
    DecideRefresh ⟨0, 0⟩ freshStore "work" false =
      ({ ShouldRefresh := true, ExpiresAt := none, Remaining := none,
         Reason := "short-term section missing" }, freshStore) :=
  ⟨by decide, C10_missing_section ⟨0, 0⟩ freshStore "work" (by decide)⟩

/-! ## The store under `Store.Get` -/

/-! ### Lower-casing -/

theorem lowerRanges1_checked : lowerRanges1.all LowerRange.checked = true := by decide

theorem lowerRanges2_checked : lowerRanges2.all LowerRange.checked = true := by decide

theorem lowerRanges3_checked : lowerRanges3.all LowerRange.checked = true := by decide

theorem lowerRanges4_checked : lowerRanges4.all LowerRange.checked = true := by decide

theorem lowerRanges5_checked : lowerRanges5.all LowerRange.checked = true := by decide

theorem lowerRanges6_checked : lowerRanges6.all LowerRange.checked = true := by decide

theorem lowerRanges7_checked : lowerRanges7.all LowerRange.checked = true := by decide

theorem lowerRanges8_checked : lowerRanges8.all LowerRange.checked = true := by decide

theorem lowerRanges9_checked : lowerRanges9.all LowerRange.checked = true := by decide

theorem lowerRanges10_checked : lowerRanges10.all LowerRange.checked = true := by decide

theorem lowerRanges11_checked : lowerRanges11.all LowerRange.checked = true := by decide

theorem lowerRanges12_checked : lowerRanges12.all LowerRange.checked = true := by decide

theorem lowerRanges13_checked : lowerRanges13.all LowerRange.checked = true := by decide

theorem lowerRanges_checked (r : LowerRange) (h : r ∈ lowerRanges) : r.checked = true := by
  have hall : lowerRanges.all LowerRange.checked = true := by
    unfold lowerRanges
    simp only [List.all_append, lowerRanges1_checked, lowerRanges2_checked, lowerRanges3_checked, lowerRanges4_checked, lowerRanges5_checked, lowerRanges6_checked, lowerRanges7_checked, lowerRanges8_checked, lowerRanges9_checked, lowerRanges10_checked, lowerRanges11_checked, lowerRanges12_checked, lowerRanges13_checked,
      Bool.and_self]
  exact List.all_eq_true.mp hall r h

theorem toLowerRune_ascii (n : Nat) (h : n < 128) :
    toLowerRune n = if 65 ≤ n ∧ n ≤ 90 then n + 32 else n := by
  unfold toLowerRune
  rw [if_pos h]

theorem toLowerRune_cases (n : Nat) (h : 128 ≤ n) :
    toLowerRune n = n ∨
    ∃ r ∈ lowerRanges, r.lo ≤ n ∧ n ≤ r.hi ∧ toLowerRune n = r.apply n := by
  unfold toLowerRune
  rw [if_neg (by omega)]
  cases hf : lowerRanges.find? (fun r => Nat.ble r.lo n && Nat.ble n r.hi) with
  | none => exact Or.inl rfl
  | some r =>
    right
    have h1 := List.find?_some hf
    simp only [Bool.and_eq_true, Nat.ble_eq] at h1
    exact ⟨r, List.mem_of_find?_eq_some hf, h1.1, h1.2, rfl⟩

theorem LowerRange.checked_facts (r : LowerRange) (hr : r ∈ lowerRanges) :
    128 ≤ r.lo ∧ r.lo ≤ r.hi ∧ r.down ≤ r.lo ∧ 97 ≤ r.imageLo ∧
    (r.imageHi < 0xD800 ∨ (0xE000 ≤ r.imageLo ∧ r.imageHi < 0x110000)) ∧
    (r.alternating = true → (r.hi - r.lo) % 2 = 1) ∧
    ∀ f ∈ lowerRanges,
      ((r.lo = f.lo ∧ r.alternating = f.alternating) ∨ r.hi < f.lo ∨ f.hi < r.lo) ∧
      (r.alternating = true ∨ r.imageHi < f.lo ∨ f.hi < r.imageLo) := by
  have h := lowerRanges_checked r hr
  unfold LowerRange.checked LowerRange.wellFormed at h
  simp only [Bool.and_eq_true, Bool.or_eq_true, Nat.ble_eq, Nat.blt_eq, Nat.beq_eq,
    Bool.not_eq_true', List.all_eq_true] at h
  obtain ⟨⟨⟨⟨⟨⟨h1, h2⟩, h3⟩, h4⟩, h5⟩, h6⟩, h7⟩ := h
  refine ⟨h1, h2, h3, h4, h5, ?_, ?_⟩
  · intro ha
    rcases h6 with c | c
    · rw [ha] at c; cases c
    · exact c
  · intro f hf
    have := h7 f hf
    unfold LowerRange.compatible at this
    simp only [Bool.and_eq_true, Bool.or_eq_true, Nat.blt_eq, Nat.beq_eq, beq_iff_eq,
      or_assoc] at this
    exact this

theorem LowerRange.apply_bounds (r : LowerRange) (hr : r ∈ lowerRanges) (n : Nat)
    (h1 : r.lo ≤ n) (h2 : n ≤ r.hi) :
    r.imageLo ≤ r.apply n ∧ r.apply n ≤ r.imageHi := by
  obtain ⟨_, _, f3, _, _, f6, _⟩ := r.checked_facts hr
  unfold LowerRange.apply LowerRange.imageLo LowerRange.imageHi
  cases ha : r.alternating with
  | true =>
    have := f6 ha
    simp only [if_true]
    split_ifs <;> omega
  | false =>
    simp only [Bool.false_eq_true, if_false]
    omega

theorem toLowerRune_ge (n : Nat) (h : 128 ≤ n) : 97 ≤ toLowerRune n := by
  rcases toLowerRune_cases n h with e | ⟨r, hr, h1, h2, e⟩
  · omega
  · have := (r.apply_bounds hr n h1 h2).1
    have := (r.checked_facts hr).2.2.2.1
    omega

theorem toLowerRune_idem (n : Nat) : toLowerRune (toLowerRune n) = toLowerRune n := by
  by_cases ha : n < 128
  · rw [toLowerRune_ascii n ha]
    split_ifs with hc
    · rw [toLowerRune_ascii _ (by omega), if_neg (by omega)]
    · rw [toLowerRune_ascii n ha, if_neg hc]
  · rcases toLowerRune_cases n (by omega) with e | ⟨r, hr, h1, h2, e⟩
    · rw [e, e]
    · rw [e]
      obtain ⟨f1, _, f3, f4, _, f6, f7⟩ := r.checked_facts hr
      have hb := r.apply_bounds hr n h1 h2
      by_cases hm : r.apply n < 128
      · rw [toLowerRune_ascii _ hm, if_neg (by omega)]
      · rcases toLowerRune_cases (r.apply n) (by omega) with e2 | ⟨g, hg, g1, g2, e2⟩
        · exact e2
        · rw [e2]
          obtain ⟨c1, c2⟩ := f7 g hg
          cases hal : r.alternating with
          | true =>
            have hpar := f6 hal
            have hrn : r.apply n = if (n - r.lo) % 2 = 0 then n + 1 else n := by
              unfold LowerRange.apply; rw [hal]; rfl
            unfold LowerRange.imageLo LowerRange.imageHi at hb
            rw [hal] at hb
            simp only [if_true] at hb
            rcases c1 with ⟨c3, c4⟩ | c | c
            · have hga : g.alternating = true := by rw [← c4]; exact hal
              have : g.apply (r.apply n) =
                  if (r.apply n - g.lo) % 2 = 0 then r.apply n + 1 else r.apply n := by
                unfold LowerRange.apply; rw [hga]; rfl
              rw [this, ← c3, hrn]
              split_ifs <;> omega
            · omega
            · omega
          | false =>
            rw [hal] at c2
            rcases c2 with c | c | c
            · cases c
            · omega
            · omega

theorem toLowerRune_valid (n : Nat) (h : n.isValidChar) : (toLowerRune n).isValidChar := by
  unfold Nat.isValidChar at h ⊢
  by_cases ha : n < 128
  · rw [toLowerRune_ascii n ha]
    split_ifs <;> omega
  · rcases toLowerRune_cases n (by omega) with e | ⟨r, hr, h1, h2, e⟩
    · rw [e]; exact h
    · rw [e]
      have hb := r.apply_bounds hr n h1 h2
      have := (r.checked_facts hr).2.2.2.2.1
      omega

theorem unicodeToLower_toNat (c : Char) : (unicodeToLower c).toNat = toLowerRune c.toNat := by
  unfold unicodeToLower
  have hv : (toLowerRune c.toNat).isValidChar := toLowerRune_valid _ c.valid
  unfold Char.ofNat
  rw [dif_pos hv]
  rfl

theorem Char_eq_of_toNat (a b : Char) (h : a.toNat = b.toNat) : a = b := by
  have h1 := Char.ofNat_toNat a
  rw [h, Char.ofNat_toNat] at h1
  exact h1.symm

theorem unicodeToLower_idem (c : Char) :
    unicodeToLower (unicodeToLower c) = unicodeToLower c := by
  apply Char_eq_of_toNat
  rw [unicodeToLower_toNat, unicodeToLower_toNat, toLowerRune_idem]

theorem toLowerRune_small (n k : Nat) (hk : k < 97) (h : toLowerRune n = k) : n = k := by
  by_cases ha : n < 128
  · rw [toLowerRune_ascii n ha] at h
    split_ifs at h <;> omega
  · have := toLowerRune_ge n (by omega)
    omega

theorem unicodeToLower_ne_D (c : Char) : unicodeToLower c ≠ 'D' := by
  intro h
  have h2 := congrArg Char.toNat h
  rw [unicodeToLower_toNat] at h2
  have h3 : ('D' : Char).toNat = 68 := rfl
  rw [h3] at h2
  have h4 := toLowerRune_small _ 68 (by omega) h2
  rw [h4] at h2
  revert h2
  decide

theorem unicodeToLower_ne_dot (c : Char) (h : c ≠ '.') : unicodeToLower c ≠ '.' := by
  intro e
  have h2 := congrArg Char.toNat e
  rw [unicodeToLower_toNat] at h2
  have h3 : ('.' : Char).toNat = 46 := rfl
  rw [h3] at h2
  have h4 := toLowerRune_small _ 46 (by omega) h2
  exact h (Char_eq_of_toNat c '.' (by rw [h4, h3]))

theorem unicodeToLower_dot (c : Char) : (unicodeToLower c != '.') = (c != '.') := by
  by_cases h : c = '.'
  · subst h; decide
  · have h1 : (c != '.') = true := by simpa using h
    have h2 : (unicodeToLower c != '.') = true := by simpa using unicodeToLower_ne_dot c h
    rw [h1, h2]

theorem Char_toNat_ofNat_small (n : Nat) (h : n < 0xd800) : (Char.ofNat n).toNat = n := by
  have hv : n.isValidChar := Or.inl h
  simp [Char.ofNat, hv, Char.ofNatAux, Char.toNat, UInt32.toNat, BitVec.toNat_ofNatLt]

theorem ToLower_ne_DEFAULT (x : String) : ToLower x ≠ "DEFAULT" := by
  intro h
  have h2 := congrArg String.data h
  unfold ToLower at h2
  simp only at h2
  cases hx : x.data with
  | nil => rw [hx] at h2; cases h2
  | cons c rest =>
    rw [hx] at h2
    simp only [List.map_cons] at h2
    injection h2 with h3 _
    exact unicodeToLower_ne_D c h3


theorem Section_default_cases (f : IniFile) :
    (∃ d, f.Section "" = (f, d)) ∨
    (f.GetSection "" = none ∧ f.sections.find? (fun s => s.name == DefaultSection) = none ∧
      f.Section "" = (⟨f.sections ++ [⟨DefaultSection, []⟩]⟩, ⟨DefaultSection, []⟩)) := by
  unfold IniFile.Section
  cases h : f.GetSection "" with
  | some d => exact Or.inl ⟨d, rfl⟩
  | none =>
    simp only [if_true]
    unfold IniFile.NewSection
    simp only [ne_eq, not_true_eq_false, if_false]
    cases h2 : f.sections.find? (fun s => s.name == DefaultSection) with
    | some d => exact Or.inl ⟨d, rfl⟩
    | none => refine Or.inr ⟨?_, ?_, ?_⟩ <;> first | rfl | trivial

theorem GetSection_append_default (f : IniFile) (n : String) :
    (⟨f.sections ++ [⟨DefaultSection, []⟩]⟩ : IniFile).GetSection n = f.GetSection n := by
  unfold IniFile.GetSection
  simp only [List.find?_append]
  have : (List.find? (fun s : IniSection => s.name == ToLower (if n = "" then DefaultSection else n))
      [⟨DefaultSection, []⟩]) = none := by
    rw [List.find?_cons_of_neg]
    · rfl
    · simp only [beq_iff_eq]
      exact fun c => ToLower_ne_DEFAULT _ c.symm
  rw [this]
  simp

theorem GetSection_withDefault (f : IniFile) (n : String) :
    f.withDefault.GetSection n = f.GetSection n := by
  unfold IniFile.withDefault
  rcases Section_default_cases f with ⟨d, h⟩ | ⟨_, _, h⟩
  · rw [h]
  · rw [h]; exact GetSection_append_default f n

theorem withDefault_of_default (f : IniFile) (h : (f.GetSection "").isSome = true) :
    f.withDefault = f := by
  unfold IniFile.withDefault IniFile.Section
  cases h2 : f.GetSection "" with
  | some d => rfl
  | none => rw [h2] at h; cases h

theorem Section_withDefault (f : IniFile) :
    f.withDefault.Section "" = (f.withDefault, (f.Section "").2) := by
  rcases Section_default_cases f with ⟨d, h⟩ | ⟨h1, h2, h⟩
  · have e : f.withDefault = f := by unfold IniFile.withDefault; rw [h]
    rw [e, h]
  · have e : f.withDefault = ⟨f.sections ++ [⟨DefaultSection, []⟩]⟩ := by
      unfold IniFile.withDefault; rw [h]
    rw [h, e]
    unfold IniFile.Section
    rw [GetSection_append_default, h1]
    simp only [if_true]
    unfold IniFile.NewSection
    simp only [ne_eq, not_true_eq_false, if_false, List.find?_append, h2, Option.none_or]
    rw [List.find?_cons_of_pos]
    simp

theorem withDefault_idem (f : IniFile) : f.withDefault.withDefault = f.withDefault := by
  show (f.withDefault.Section "").1 = _
  rw [Section_withDefault]

theorem GetKeyAux_withDefault (f : IniFile) (fuel : Nat) (sec : IniSection) (name : String) :
    f.withDefault.GetKeyAux fuel sec name = f.GetKeyAux fuel sec name := by
  induction fuel generalizing sec name with
  | zero => rfl
  | succ n ih =>
    unfold IniFile.GetKeyAux
    simp only [GetSection_withDefault, ih]

theorem GetKey_withDefault (f : IniFile) (sec : IniSection) (name : String) :
    f.withDefault.GetKey sec name = f.GetKey sec name := by
  unfold IniFile.GetKey
  exact GetKeyAux_withDefault f _ sec name


theorem Section_default_fst (f : IniFile) : (f.Section "").1 = f.withDefault := rfl

theorem transformLoop_withDefault (k : KeyRef) (d : Nat) : ∀ (f : IniFile) (val : String),
    ((IniFile.transformLoop k d f val).1 = f ∨
      (IniFile.transformLoop k d f val).1 = f.withDefault) ∧
    IniFile.transformLoop k d f.withDefault val
      = (f.withDefault, (IniFile.transformLoop k d f val).2) := by
  induction d with
  | zero => intro f val; exact ⟨Or.inl rfl, rfl⟩
  | succ n ih =>
    intro f val
    unfold IniFile.transformLoop
    cases hv : findVar val.data with
    | none => exact ⟨Or.inl rfl, rfl⟩
    | some noption =>
      simp only [GetKey_withDefault, Section_withDefault]
      have hsec : f.Section "" = (f.withDefault, (f.Section "").2) := rfl
      cases hk : f.GetKey k.owner ⟨noption⟩ with
      | none =>
        simp only []
        rw [hsec]
        simp only [GetKey_withDefault]
        cases hd : f.GetKey (f.Section "").2 ⟨noption⟩ with
        | none => exact ⟨Or.inr rfl, rfl⟩
        | some nk =>
          simp only []
          have := ih f.withDefault ⟨replaceAllRunes ('%' :: '(' :: noption ++ [')', 's'])
            nk.value.data val.length val.data⟩
          rw [withDefault_idem] at this
          exact ⟨Or.inr (this.1.elim id id), this.2⟩
      | some nk0 =>
        simp only []
        by_cases he : nk0 = k
        · simp only [he, if_true]
          rw [hsec]
          simp only [GetKey_withDefault]
          cases hd : f.GetKey (f.Section "").2 ⟨noption⟩ with
          | none => exact ⟨Or.inr rfl, rfl⟩
          | some nk =>
            simp only []
            have := ih f.withDefault ⟨replaceAllRunes ('%' :: '(' :: noption ++ [')', 's'])
              nk.value.data val.length val.data⟩
            rw [withDefault_idem] at this
            exact ⟨Or.inr (this.1.elim id id), this.2⟩
        · simp only [he, if_false]
          exact ih f _

theorem KeyString_withDefault (f : IniFile) (k : KeyRef) :
    ((f.KeyString k).1 = f ∨ (f.KeyString k).1 = f.withDefault) ∧
    f.withDefault.KeyString k = (f.withDefault, (f.KeyString k).2) := by
  unfold IniFile.KeyString
  split_ifs
  · exact ⟨Or.inl rfl, rfl⟩
  · exact transformLoop_withDefault k depthValues f k.value


theorem Section_of_GetSection (f : IniFile) (name : String) (x : IniSection)
    (h : f.GetSection name = some x) : f.Section name = (f, x) := by
  unfold IniFile.Section; rw [h]

theorem HasSection_withDefault (s : Store) (name : String) :
    s.withDefault.HasSection name = s.HasSection name := by
  unfold Store.HasSection Store.withDefault
  simp only [GetSection_withDefault]

theorem Store_withDefault_idem (s : Store) : s.withDefault.withDefault = s.withDefault := by
  unfold Store.withDefault
  simp only [withDefault_idem]

/-- On a section that exists, `Store.Get` leaves the store as it is or with
its default section created, and answers the same on both. -/
theorem Get_withDefault (s : Store) (sectionName key : String)
    (h : s.HasSection sectionName = true) :
    ((s.Get sectionName key).2 = s ∨ (s.Get sectionName key).2 = s.withDefault) ∧
    s.withDefault.Get sectionName key = ((s.Get sectionName key).1, s.withDefault) := by
  unfold Store.HasSection at h
  cases hx : s.ini.GetSection sectionName with
  | none => rw [hx] at h; cases h
  | some x =>
    have e1 := Section_of_GetSection s.ini sectionName x hx
    have e2 := Section_of_GetSection s.ini.withDefault sectionName x
      (by rw [GetSection_withDefault]; exact hx)
    unfold Store.Get
    simp only [Store.withDefault, e1, e2, GetKey_withDefault]
    cases hk : s.ini.GetKey x key with
    | none => exact ⟨Or.inl rfl, rfl⟩
    | some k =>
      simp only []
      obtain ⟨h1, h2⟩ := KeyString_withDefault s.ini k
      rw [h2]
      refine ⟨?_, rfl⟩
      rcases h1 with h1 | h1
      · left; rw [h1]
      · right; rw [h1]

theorem requiredKeysPresent_cons (sec k : String) (ks : List String) (s : Store) :
    requiredKeysPresent sec (k :: ks) s =
      if absentOrEmpty s sec k then (false, (s.Get sec k).2)
      else requiredKeysPresent sec ks (s.Get sec k).2 := by
  conv_lhs => unfold requiredKeysPresent
  by_cases hb : absentOrEmpty s sec k
  · rw [if_pos hb]
    unfold absentOrEmpty at hb
    rcases hg : s.Get sec k with ⟨⟨v, ok⟩, s1⟩
    rw [hg] at hb
    simp only [] at hb ⊢
    rcases hb with hb | hb <;> simp [hb]
  · rw [if_neg hb]
    unfold absentOrEmpty at hb
    rcases hg : s.Get sec k with ⟨⟨v, ok⟩, s1⟩
    rw [hg] at hb
    simp only [not_or] at hb ⊢
    have h1 : ok = true := by simpa using hb.1
    simp [h1, hb.2]

theorem absentOrEmpty_withDefault (s : Store) (sec k : String) (h : s.HasSection sec = true) :
    absentOrEmpty s.withDefault sec k ↔ absentOrEmpty s sec k := by
  unfold absentOrEmpty
  rw [(Get_withDefault s sec k h).2]

/-- The loop over the required keys, on a section that exists: it answers
whether every key is found with a non-empty value, and leaves the store as it
is or with its default section created. -/
theorem requiredKeysPresent_spec (sec : String) (ks : List String) : ∀ (s : Store),
    s.HasSection sec = true →
    ((requiredKeysPresent sec ks s).1 = true ↔ ∀ k ∈ ks, ¬ absentOrEmpty s sec k) ∧
    ((requiredKeysPresent sec ks s).2 = s ∨ (requiredKeysPresent sec ks s).2 = s.withDefault) ∧
    requiredKeysPresent sec ks s.withDefault = ((requiredKeysPresent sec ks s).1, s.withDefault) := by
  induction ks with
  | nil => intro s _; exact ⟨by simp [requiredKeysPresent], Or.inl rfl, rfl⟩
  | cons k ks ih =>
    intro s h
    obtain ⟨g1, g2⟩ := Get_withDefault s sec k h
    obtain ⟨i1, i2, i3⟩ := ih s h
    have hw := absentOrEmpty_withDefault s sec k h
    rw [requiredKeysPresent_cons, requiredKeysPresent_cons]
    by_cases hb : absentOrEmpty s sec k
    · rw [if_pos hb, if_pos (hw.2 hb), g2]
      refine ⟨?_, g1, rfl⟩
      constructor
      · intro c; cases c
      · intro c; exact absurd hb (c k (List.mem_cons_self _ _))
    · rw [if_neg hb, if_neg (fun c => hb (hw.1 c)), g2]
      simp only []
      have key : requiredKeysPresent sec ks (s.Get sec k).2 = ((requiredKeysPresent sec ks s).1,
          (requiredKeysPresent sec ks (s.Get sec k).2).2) ∧
          ((requiredKeysPresent sec ks (s.Get sec k).2).2 = s ∨
            (requiredKeysPresent sec ks (s.Get sec k).2).2 = s.withDefault) := by
        rcases g1 with g1 | g1
        · rw [g1]; exact ⟨rfl, i2⟩
        · rw [g1, i3]; exact ⟨rfl, Or.inr rfl⟩
      refine ⟨?_, key.2, ?_⟩
      · rw [key.1]
        simp only [List.mem_cons, forall_eq_or_imp]
        rw [i1]
        exact ⟨fun c => ⟨hb, c⟩, fun c => c.2⟩
      · rw [i3, key.1]


/-! ## The refresh decision on a section that exists -/

theorem Time_Sub_eq (t u : Time) :
    t.Sub u = if t.nanos - u.nanos < minDuration then minDuration
      else if maxDuration < t.nanos - u.nanos then maxDuration
      else t.nanos - u.nanos := by
  unfold Time.Sub Time.nanos
  have e : (t.sec - u.sec) * 1000000000 + ((t.nsec : Int) - (u.nsec : Int))
      = t.sec * 1000000000 + (t.nsec : Int) - (u.sec * 1000000000 + (u.nsec : Int)) := by ring
  simp only [e]

theorem Time_Sub_nonpos_iff (t u : Time) : t.Sub u ≤ 0 ↔ t.nanos ≤ u.nanos := by
  rw [Time_Sub_eq]
  unfold minDuration maxDuration
  split_ifs <;> omega

/-- `DecideRefresh` without `force` on a section that exists. -/
theorem DecideRefresh_present (now : Time) (s : Store) (sec : String)
    (h : s.HasSection sec = true) :
    (DecideRefresh now s sec false).1 =
      (if ∃ k ∈ shortTermRequiredKeys, absentOrEmpty s sec k then
        refreshBecause "short-term section missing required keys"
      else
        match ParseExpiration (s.Get sec "expiration").1.1 with
        | .error _ => refreshBecause "invalid expiration"
        | .ok exp =>
          if exp.Sub now ≤ 0 then
            { ShouldRefresh := true, ExpiresAt := some exp, Remaining := some (exp.Sub now),
              Reason := "expired" }
          else
            { ShouldRefresh := false, ExpiresAt := some exp, Remaining := some (exp.Sub now),
              Reason := "still valid" }) ∧
    ((DecideRefresh now s sec false).2 = s ∨ (DecideRefresh now s sec false).2 = s.withDefault) := by
  obtain ⟨r1, r2, _⟩ := requiredKeysPresent_spec sec shortTermRequiredKeys s h
  unfold DecideRefresh
  simp only [Bool.false_eq_true, if_false, h, Bool.not_true]
  rcases hr : requiredKeysPresent sec shortTermRequiredKeys s with ⟨b, s1⟩
  rw [hr] at r1 r2
  simp only [] at r1 r2
  cases b with
  | false =>
    have hex : ∃ k ∈ shortTermRequiredKeys, absentOrEmpty s sec k := by
      by_contra c
      have : (false = true) := r1.2 (fun k hk hk2 => c ⟨k, hk, hk2⟩)
      cases this
    rw [if_pos hex]
    exact ⟨rfl, r2⟩
  | true =>
    have hall := r1.1 rfl
    have hex : ¬ ∃ k ∈ shortTermRequiredKeys, absentOrEmpty s sec k := by
      rintro ⟨k, hk, hk2⟩; exact hall k hk hk2
    rw [if_neg hex]
    simp only []
    have hs1 : s1.HasSection sec = true := by
      rcases r2 with r2 | r2
      · rw [r2]; exact h
      · rw [r2, HasSection_withDefault]; exact h
    have hval : (s1.Get sec "expiration").1 = (s.Get sec "expiration").1 := by
      rcases r2 with r2 | r2
      · rw [r2]
      · rw [r2, (Get_withDefault s sec "expiration" h).2]
    have hst : (s1.Get sec "expiration").2 = s ∨ (s1.Get sec "expiration").2 = s.withDefault := by
      rcases r2 with r2 | r2
      · rw [r2]; exact (Get_withDefault s sec "expiration" h).1
      · rw [r2, (Get_withDefault s sec "expiration" h).2]; exact Or.inr rfl
    rcases hg : s1.Get sec "expiration" with ⟨⟨expStr, ok⟩, s2⟩
    rw [hg] at hval hst
    simp only [] at hval hst ⊢
    rw [← hval]
    simp only []
    cases ParseExpiration expStr with
    | error e => exact ⟨rfl, hst⟩
    | ok exp =>
      simp only [Time.UTC]
      by_cases hle : exp.Sub now ≤ 0
      · simp only [hle, if_true]; exact ⟨trivial, hst⟩
      · simp only [hle, if_false]; exact ⟨trivial, hst⟩


/-- C12, as stated, fails: the expiration `2026-02-09 11:00:00.5` is not of
the form `YYYY-MM-DD HH:MM:SS`, yet on a complete section it is parsed, with
its fractional second, and the decision is `still valid` with an expiry. -/
theorem C12_counterexample :
    hasTimestampShape "2026-02-09 11:00:00.5" = false ∧
    fractionStore.HasSection "default" = true ∧
    (∀ k ∈ shortTermRequiredKeys, ¬ absentOrEmpty fractionStore "default" k) ∧
    (fractionStore.Get "default" "expiration").1 = ("2026-02-09 11:00:00.5", true) ∧
    (DecideRefresh testNow fractionStore "default" false).1 =
      { ShouldRefresh := false
        ExpiresAt := some { sec := (Date 2026 2 9 11 0 0 0).sec, nsec := 500000000 }
        Remaining := some 3600500000000
        Reason := "still valid" } := by
  refine ⟨by decide, by decide, by decide, by decide, by decide⟩

/-- C12, amended: with `force = false`, a short-term section that exists and
five required keys that are all non-empty, when `time.ParseInLocation` rejects
the expiration for the layout `2006-01-02 15:04:05`, `DecideRefresh` does not
fail: it returns `ShouldRefresh = true` with the reason `invalid expiration`
and carries neither an expiry nor a remaining duration. -/
theorem C12_invalid_expiration (now : Time) (store : Store) (shortTermSection : String)
    (err : Err)
    (h : store.HasSection shortTermSection = true)
    (hall : ∀ k ∈ shortTermRequiredKeys, ¬ absentOrEmpty store shortTermSection k)
    (hp : ParseExpiration (store.Get shortTermSection "expiration").1.1 = .error err) :
    (DecideRefresh now store shortTermSection false).1 =
      { ShouldRefresh := true, ExpiresAt := none, Remaining := none,
        Reason := "invalid expiration" } := by
  have hex : ¬ ∃ k ∈ shortTermRequiredKeys, absentOrEmpty store shortTermSection k := by
    rintro ⟨k, hk, hk2⟩; exact hall k hk hk2
  rw [(DecideRefresh_present now store shortTermSection h).1, if_neg hex, hp]
  rfl

/-- C12, amended, on a complete section that expires on February 30. -/
theorem C12_invalid_expiration_witness :
    invalidStore.HasSection "default" = true ∧
    (∀ k ∈ shortTermRequiredKeys, ¬ absentOrEmpty invalidStore "default" k) ∧
    ParseExpiration (invalidStore.Get "default" "expiration").1.1
      = .error (.parseExpiration "2026-02-30 11:00:00") ∧
    (DecideRefresh testNow invalidStore "default" false).1 =
      { ShouldRefresh := true, ExpiresAt := none, Remaining := none,
        Reason := "invalid expiration" } :=
  ⟨by decide, by decide, by decide,
    C12_invalid_expiration testNow invalidStore "default"
      (.parseExpiration "2026-02-30 11:00:00") (by decide) (by decide) (by decide)⟩

/-- C13, as stated, fails on `Remaining = E - now`: for an expiry at the end
of the year 9999 and `now` in 2026 the decision carries the greatest
`time.Duration`, which is less than `E - now`. -/
theorem C13_counterexample :
    farStore.HasSection "default" = true ∧
    (∀ k ∈ shortTermRequiredKeys, ¬ absentOrEmpty farStore "default" k) ∧
    ParseExpiration (farStore.Get "default" "expiration").1.1
      = .ok (Date 9999 12 31 23 59 59 0) ∧
    (DecideRefresh testNow farStore "default" false).1 =
      { ShouldRefresh := false, ExpiresAt := some (Date 9999 12 31 23 59 59 0),
        Remaining := some 9223372036854775807, Reason := "still valid" } ∧
    (9223372036854775807 : Int) < (Date 9999 12 31 23 59 59 0).nanos - testNow.nanos := by
  refine ⟨by decide, by decide, by decide, by decide, by decide⟩

/-- C13, amended: with `force = false`, a short-term section that exists,
five required keys that are all non-empty and an expiration that parses to
`E`: `ShouldRefresh` is true exactly when `E` is at or before `now`, with the
reason `expired` in that case and `still valid` otherwise; the decision
carries `ExpiresAt = E` and `Remaining = E.Sub(now)`, which is `<= 0` when
expired and `> 0` when still valid, and which is `E - now` whenever that
difference fits in a `time.Duration`, the least or greatest duration
otherwise. -/
theorem C13_expiry_decision (now : Time) (store : Store) (shortTermSection : String)
    (E : Time)
    (h : store.HasSection shortTermSection = true)
    (hall : ∀ k ∈ shortTermRequiredKeys, ¬ absentOrEmpty store shortTermSection k)
    (hp : ParseExpiration (store.Get shortTermSection "expiration").1.1 = .ok E) :
    ((DecideRefresh now store shortTermSection false).1.ShouldRefresh = true
      ↔ E.nanos ≤ now.nanos) ∧
    (E.nanos ≤ now.nanos →
      (DecideRefresh now store shortTermSection false).1.Reason = "expired"
      ∧ E.Sub now ≤ 0) ∧
    (now.nanos < E.nanos →
      (DecideRefresh now store shortTermSection false).1.Reason = "still valid"
      ∧ 0 < E.Sub now) ∧
    (DecideRefresh now store shortTermSection false).1.ExpiresAt = some E ∧
    (DecideRefresh now store shortTermSection false).1.Remaining = some (E.Sub now) ∧
    (minDuration ≤ E.nanos - now.nanos → E.nanos - now.nanos ≤ maxDuration →
      E.Sub now = E.nanos - now.nanos) ∧
    (E.nanos - now.nanos < minDuration → E.Sub now = minDuration) ∧
    (maxDuration < E.nanos - now.nanos → E.Sub now = maxDuration) := by
  have hex : ¬ ∃ k ∈ shortTermRequiredKeys, absentOrEmpty store shortTermSection k := by
    rintro ⟨k, hk, hk2⟩; exact hall k hk hk2
  have hs := Time_Sub_nonpos_iff E now
  rw [(DecideRefresh_present now store shortTermSection h).1, if_neg hex, hp]
  simp only []
  have hclamp := Time_Sub_eq E now
  have hmm : minDuration ≤ maxDuration := by unfold minDuration maxDuration; omega
  by_cases hle : E.Sub now ≤ 0
  · have hn := hs.1 hle
    rw [if_pos hle]
    refine ⟨⟨fun _ => hn, fun _ => rfl⟩, fun _ => ⟨rfl, hle⟩, fun c => ?_, rfl,
      rfl, ?_, ?_, ?_⟩
    · omega
    · intro a b; rw [hclamp, if_neg (by omega), if_neg (by omega)]
    · intro a; rw [hclamp, if_pos a]
    · intro a; rw [hclamp, if_neg (by omega), if_pos a]
  · have hn : ¬ E.nanos ≤ now.nanos := fun c => hle (hs.2 c)
    rw [if_neg hle]
    refine ⟨⟨fun c => ?_, fun c => absurd c hn⟩, fun c => absurd c hn,
      fun _ => ⟨rfl, by omega⟩, rfl, rfl, ?_, ?_, ?_⟩
    · exact absurd c Bool.false_ne_true
    · intro a b; rw [hclamp, if_neg (by omega), if_neg (by omega)]
    · intro a; rw [hclamp, if_pos a]
    · intro a; rw [hclamp, if_neg (by omega), if_pos a]

/-- C13, amended, on the data of `TestDecideRefresh_StillValid`: one hour
remains, 3600000000000 nanoseconds. -/
theorem C13_expiry_decision_witness :
    (DecideRefresh testNow validStore "default" false).1 =
      { ShouldRefresh := false, ExpiresAt := some (Date 2026 2 9 11 0 0 0),
        Remaining := some 3600000000000, Reason := "still valid" } ∧
    (DecideRefresh testNow validStore "default" false).1.Remaining
      = some ((Date 2026 2 9 11 0 0 0).Sub testNow) :=
  ⟨by decide,
    (C13_expiry_decision testNow validStore "default" (Date 2026 2 9 11 0 0 0)
      (by decide) (by decide) (by decide)).2.2.2.2.1⟩

/-! ## Formatting and parsing the expiry -/

theorem isLeap_iff (y : Nat) : isLeap y = true ↔ (y % 4 = 0 ∧ (y % 100 ≠ 0 ∨ y % 400 = 0)) := by
  unfold isLeap
  simp

theorem daysBeforeYear_cycles (q b c e : Nat) (hb : b ≤ 3) (hc : c ≤ 24) (he : e ≤ 3) :
    daysBeforeYear (400 * q + 100 * b + 4 * c + e + 1)
      = ((146097 * q + 36524 * b + 1461 * c + 365 * e : Nat) : Int) := by
  unfold daysBeforeYear
  push_cast
  omega

/-- The decomposition of a day number into cycles of 400, 100, 4 and 1
years. -/
theorem yearOfDays_cycles (n : Nat) :
    ∃ q b c e yd : Nat, yearOfDays (n : Int) = (((400 * q + 100 * b + 4 * c + e + 1 : Nat) : Int), yd)
      ∧ n = 146097 * q + 36524 * b + 1461 * c + 365 * e + yd
      ∧ b ≤ 3 ∧ c ≤ 24 ∧ e ≤ 3 ∧ yd ≤ 365
      ∧ (yd = 365 → e = 3 ∧ (c < 24 ∨ b = 3)) := by
  have e1 : ((n : Int) % 146097).toNat = n % 146097 := by omega
  have e2 : (n : Int) / 146097 = ((n / 146097 : Nat) : Int) := by omega
  unfold yearOfDays
  simp only []
  rw [e1, e2]
  generalize hq : n / 146097 = q
  generalize hr : n % 146097 = r
  have hn : n = 146097 * q + r := by omega
  have hr1 : r < 146097 := by omega
  generalize hb : min (r / 36524) 3 = b
  have hb1 : b ≤ 3 := by omega
  have hb2 : 36524 * b ≤ r := by omega
  generalize hr2 : r - b * 36524 = r2
  have hr2a : r = 36524 * b + r2 := by omega
  have hr2b : r2 < 36525 := by omega
  have hr2c : b < 3 → r2 < 36524 := by omega
  generalize hc : r2 / 1461 = c
  generalize hr3 : r2 % 1461 = r3
  have hc1 : r2 = 1461 * c + r3 := by omega
  have hr3a : r3 < 1461 := by omega
  have hc2 : c ≤ 24 := by omega
  generalize he : min (r3 / 365) 3 = e
  have he1 : e ≤ 3 := by omega
  have he2 : 365 * e ≤ r3 := by omega
  refine ⟨q, b, c, e, r3 - e * 365, ?_, ?_, hb1, hc2, he1, ?_, ?_⟩
  · congr 1
  · omega
  · omega
  · omega


theorem daysIn_congr (m y y2 : Nat) (h : isLeap y = isLeap y2) : daysIn m y = daysIn m y2 := by
  unfold daysIn; rw [h]

theorem daysBefore_congr (m y y2 : Nat) (h : isLeap y = isLeap y2) :
    daysBefore m y = daysBefore m y2 := by
  unfold daysBefore
  have : (fun k => daysIn (k + 1) y) = (fun k => daysIn (k + 1) y2) := by
    funext k; exact daysIn_congr _ _ _ h
  rw [this]

theorem monthDayFrom_congr (y y2 : Nat) (h : isLeap y = isLeap y2) (fuel m yd : Nat) :
    monthDayFrom y fuel m yd = monthDayFrom y2 fuel m yd := by
  induction fuel generalizing m yd with
  | zero => rfl
  | succ n ih => unfold monthDayFrom; rw [daysIn_congr m y y2 h, ih]

set_option maxRecDepth 100000 in
theorem monthDay_common : ∀ yd < 365, monthDayOk 2023 yd := by decide

set_option maxRecDepth 100000 in
theorem monthDay_leap : ∀ yd < 366, monthDayOk 2024 yd := by decide


theorem monthDayOk_of (Y yd : Nat) (h : yd < 365 ∨ (yd = 365 ∧ isLeap Y = true)) :
    monthDayOk Y yd := by
  by_cases hl : isLeap Y = true
  · have e : isLeap Y = isLeap 2024 := by rw [hl]; decide
    have := monthDay_leap yd (by omega)
    unfold monthDayOk at this ⊢
    rw [monthDayFrom_congr Y 2024 e, daysIn_congr _ Y 2024 e, daysBefore_congr _ Y 2024 e]
    exact this
  · have hl2 : isLeap Y = false := by simpa using hl
    have e : isLeap Y = isLeap 2023 := by rw [hl2]; decide
    have := monthDay_common yd (by rcases h with h | h; exact h; exact absurd h.2 hl)
    unfold monthDayOk at this ⊢
    rw [monthDayFrom_congr Y 2023 e, daysIn_congr _ Y 2023 e, daysBefore_congr _ Y 2023 e]
    exact this

theorem digitChar_toNat (d : Nat) (h : d < 10) : (digitChar d).toNat = 48 + d := by
  unfold digitChar
  exact Char_toNat_ofNat_small _ (by omega)

theorem isDigit_digitChar (d : Nat) (h : d < 10) : isDigit (digitChar d) = true := by
  unfold isDigit; rw [digitChar_toNat d h]; simp; omega

theorem digitVal_digitChar (d : Nat) (h : d < 10) : digitVal (digitChar d) = d := by
  unfold digitVal; rw [digitChar_toNat d h]; omega

theorem digitChar_ne_space (d : Nat) (h : d < 10) : (digitChar d == ' ') = false := by
  rw [beq_eq_false_iff_ne]
  intro c
  have := congrArg Char.toNat c
  rw [digitChar_toNat d h] at this
  have e : (' ' : Char).toNat = 32 := rfl
  omega

theorem fixedDigits_two (n : Nat) :
    fixedDigits 2 n = [digitChar (n / 10 % 10), digitChar (n % 10)] := by
  simp [fixedDigits]

theorem fixedDigits_four (n : Nat) :
    fixedDigits 4 n = [digitChar (n / 10 / 10 / 10 % 10), digitChar (n / 10 / 10 % 10),
      digitChar (n / 10 % 10), digitChar (n % 10)] := by
  simp [fixedDigits]

theorem getnum_fixedDigits (n : Nat) (h : n < 100) (fixed : Bool) (rest : List Char) :
    getnum (fixedDigits 2 n ++ rest) fixed = some (n, rest) := by
  rw [fixedDigits_two]
  simp only [List.cons_append, List.nil_append, getnum,
    isDigit_digitChar (n / 10 % 10) (by omega), isDigit_digitChar (n % 10) (by omega),
    digitVal_digitChar (n / 10 % 10) (by omega), digitVal_digitChar (n % 10) (by omega)]
  simp
  omega

theorem getLongYear_fixedDigits (n : Nat) (h : n < 10000) (rest : List Char) :
    getLongYear (fixedDigits 4 n ++ rest) = some (n, rest) := by
  rw [fixedDigits_four]
  simp only [List.cons_append, List.nil_append, getLongYear,
    isDigit_digitChar (n / 10 / 10 / 10 % 10) (by omega),
    isDigit_digitChar (n / 10 / 10 % 10) (by omega),
    isDigit_digitChar (n / 10 % 10) (by omega), isDigit_digitChar (n % 10) (by omega),
    digitVal_digitChar (n / 10 / 10 / 10 % 10) (by omega),
    digitVal_digitChar (n / 10 / 10 % 10) (by omega),
    digitVal_digitChar (n / 10 % 10) (by omega), digitVal_digitChar (n % 10) (by omega)]
  simp
  omega

theorem appendInt_nat (n width : Nat) (h : n < 10 ^ width) :
    appendInt (n : Int) width = fixedDigits width n := by
  unfold appendInt
  have : ¬ ((n : Int) < 0) := by omega
  simp [this, h]

theorem skip_same (c : Char) (rest : List Char) (h : (c == ' ') = false) :
    skip (c :: rest) c = some rest := by
  unfold skip
  simp [h]

theorem skip_space_digits (n : Nat) (rest : List Char) :
    skip (' ' :: (fixedDigits 2 n ++ rest)) ' ' = some (fixedDigits 2 n ++ rest) := by
  unfold skip cutspace
  rw [fixedDigits_two]
  simp [List.dropWhile, digitChar_ne_space (n / 10 % 10) (by omega)]


theorem colon_ne_space : ((':' : Char) == ' ') = false := by decide
theorem dash_ne_space : (('-' : Char) == ' ') = false := by decide

/-- Parsing what was formatted: the six fields are read back. -/
theorem parse_formatted (Y m d h mi s : Nat) (hY : Y < 10000) (hm1 : 1 ≤ m) (hm2 : m ≤ 12)
    (hd1 : 1 ≤ d) (hd2 : d ≤ daysIn m Y) (hd3 : d < 100) (hh : h < 24) (hmi : mi < 60)
    (hs : s < 60) :
    parseExpirationLayout
      (fixedDigits 4 Y ++ ('-' :: (fixedDigits 2 m ++ ('-' :: (fixedDigits 2 d ++ (' ' ::
        (fixedDigits 2 h ++ (':' :: (fixedDigits 2 mi ++ (':' :: (fixedDigits 2 s ++ [])))))))))))
      = some (Date Y m d h mi s 0) := by
  unfold parseExpirationLayout
  have g1 : ¬ (m = 0 ∨ 12 < m) := by omega
  have g2 : ¬ (24 ≤ h) := by omega
  have g3 : ¬ (60 ≤ mi) := by omega
  have g4 : ¬ (60 ≤ s) := by omega
  have g5 : ¬ (d < 1 ∨ daysIn m Y < d) := by omega
  have g6 : ¬ ((getFraction []).2 ≠ []) := by simp [getFraction]
  have g7 : (getFraction []).1 = 0 := by simp [getFraction]
  simp only [getLongYear_fixedDigits Y hY, skip_same '-' _ dash_ne_space,
    skip_same ':' _ colon_ne_space, skip_space_digits,
    getnum_fixedDigits m (by omega), getnum_fixedDigits d hd3, getnum_fixedDigits h (by omega),
    getnum_fixedDigits mi (by omega), getnum_fixedDigits s (by omega),
    Option.bind_eq_bind, Option.some_bind, g1, g2, g3, g4, g5, g6, g7, if_false, Option.pure_def]


theorem isLeap_mod400 (Y : Nat) : isLeap (Y % 400) = isLeap Y := by
  rw [Bool.eq_iff_iff, isLeap_iff, isLeap_iff]
  omega

/-- Formatting then parsing gives the instant back, for whole seconds in the
years 1 to 9999. -/
theorem ParseExpiration_Format (t : Time) (hn : t.nsec = 0) (h0 : 0 ≤ t.sec)
    (h1 : t.sec < 315537897600) : ParseExpiration t.Format = .ok t := by
  obtain ⟨n, hdays⟩ := Int.eq_ofNat_of_zero_le (show 0 ≤ t.sec / 86400 by omega)
  obtain ⟨sod, hsod⟩ := Int.eq_ofNat_of_zero_le (show 0 ≤ t.sec % 86400 by omega)
  have hsod1 : sod < 86400 := by omega
  have hn1 : n < 3652059 := by omega
  have hsec : t.sec = (n : Int) * 86400 + (sod : Int) := by omega
  obtain ⟨q, b, c, e, yd, hy, hnn, hb, hc, he, hyd, hleap⟩ := yearOfDays_cycles n
  have hY1 : 400 * q + 100 * b + 4 * c + e + 1 < 10000 := by omega
  generalize hYdef : 400 * q + 100 * b + 4 * c + e + 1 = Y at hy hY1
  have hdb : daysBeforeYear Y = ((n : Int) - (yd : Int)) := by
    rw [← hYdef, daysBeforeYear_cycles q b c e hb hc he]
    omega
  have hlp : yd < 365 ∨ (yd = 365 ∧ isLeap Y = true) := by
    by_cases h365 : yd = 365
    · right
      refine ⟨h365, ?_⟩
      rw [isLeap_iff]
      have := hleap h365
      omega
    · left; omega
  have hmd := monthDayOk_of Y yd hlp
  have hcongr : isLeap (Y % 400) = isLeap Y := isLeap_mod400 Y
  have hmdf : monthDayFrom (Y % 400) 11 1 yd = monthDayFrom Y 11 1 yd :=
    monthDayFrom_congr _ _ hcongr _ _ _
  unfold monthDayOk at hmd
  generalize hmdv : monthDayFrom Y 11 1 yd = md at hmd hmdf
  obtain ⟨m, d⟩ := md
  simp only [] at hmd
  obtain ⟨m1, m2, d1, d2, d3⟩ := hmd
  have hd31 : d ≤ 31 := by
    have : daysIn m Y ≤ 31 := by unfold daysIn; split_ifs <;> omega
    omega
  have hfmt : t.Format.data = fixedDigits 4 Y ++ ('-' :: (fixedDigits 2 m ++ ('-' ::
      (fixedDigits 2 d ++ (' ' :: (fixedDigits 2 (sod / 3600) ++ (':' ::
      (fixedDigits 2 (sod % 3600 / 60) ++ (':' :: (fixedDigits 2 (sod % 60) ++ [])))))))))) := by
    unfold Time.Format
    have e1 : ((Y : Int) % 400).toNat = Y % 400 := by omega
    have e2 : (t.sec % 86400).toNat = sod := by omega
    simp only [hdays, hy, e1, e2, hmdf]
    rw [appendInt_nat Y 4 (by omega), appendInt_nat m 2 (by omega), appendInt_nat d 2 (by omega),
      appendInt_nat (sod / 3600) 2 (by omega), appendInt_nat (sod % 3600 / 60) 2 (by omega),
      appendInt_nat (sod % 60) 2 (by omega)]
    simp only [List.append_assoc, List.cons_append, List.append_nil]
  unfold ParseExpiration
  rw [hfmt, parse_formatted Y m d (sod / 3600) (sod % 3600 / 60) (sod % 60) hY1 m1 m2 d1 d2
    (by omega) (by omega) (by omega) (by omega)]
  simp only [Time.UTC]
  congr 1
  cases t with
  | mk ts tn =>
    simp only [] at hn hsec
    subst hn
    unfold Date
    congr 1
    rw [hdb, hsec]
    push_cast
    omega


/-- C14: for every instant `t` in UTC with whole seconds from year 1 to year
9999, `ParseExpiration` of `t` formatted as `YYYY-MM-DD HH:MM:SS` succeeds and
returns `t`; hence `DecideRefresh` on a complete section whose expiration is
that string reports `ExpiresAt = t`. -/
theorem C14_format_parse_roundtrip (t : Time) (hn : t.nsec = 0)
    (h0 : (Date 1 1 1 0 0 0 0).sec ≤ t.sec) (h1 : t.sec < (Date 10000 1 1 0 0 0 0).sec) :
    ParseExpiration t.Format = .ok t ∧
    ∀ (now : Time) (store : Store) (shortTermSection : String),
      store.HasSection shortTermSection = true →
      (∀ k ∈ shortTermRequiredKeys, ¬ absentOrEmpty store shortTermSection k) →
      (store.Get shortTermSection "expiration").1.1 = t.Format →
      (DecideRefresh now store shortTermSection false).1.ExpiresAt = some t := by
  have e0 : (Date 1 1 1 0 0 0 0).sec = 0 := by decide
  have e1 : (Date 10000 1 1 0 0 0 0).sec = 315537897600 := by decide
  rw [e0] at h0
  rw [e1] at h1
  have hp := ParseExpiration_Format t hn h0 h1
  refine ⟨hp, ?_⟩
  intro now store sec hs hall hexp
  rw [← hexp] at hp
  have hex : ¬ ∃ k ∈ shortTermRequiredKeys, absentOrEmpty store sec k := by
    rintro ⟨k, hk, hk2⟩; exact hall k hk hk2
  rw [(DecideRefresh_present now store sec hs).1, if_neg hex, hp]
  simp only []
  split_ifs <;> rfl

/-- C14, on the expiry of `TestRun_RefreshWritesCredentials`: noon of
2026-02-09 is written as `2026-02-09 12:00:00` and read back. -/
theorem C14_format_parse_roundtrip_witness :
    (Date 2026 2 9 12 0 0 0).Format = "2026-02-09 12:00:00" ∧
    ParseExpiration (Date 2026 2 9 12 0 0 0).Format = .ok (Date 2026 2 9 12 0 0 0) :=
  ⟨by decide,
    (C14_format_parse_roundtrip (Date 2026 2 9 12 0 0 0) (by decide) (by decide)
      (by decide)).1⟩

/-! ## Run -/

theorem Store_withDefault_of_default (s : Store) (hd : s.HasSection "" = true) :
    s.withDefault = s := by
  unfold Store.withDefault
  rw [withDefault_of_default s.ini hd]

/-- On a store whose default section exists, `Store.Get` on a section that
exists leaves the store as it is. -/
theorem Get_unchanged (s : Store) (sec key : String) (h : s.HasSection sec = true)
    (hd : s.HasSection "" = true) : (s.Get sec key).2 = s := by
  rcases (Get_withDefault s sec key h).1 with e | e
  · exact e
  · rw [e, Store_withDefault_of_default s hd]

theorem MustGet_present (s : Store) (sec key : String) (h : s.HasSection sec = true)
    (hd : s.HasSection "" = true) (hk : ¬ absentOrEmpty s sec key) :
    s.MustGet sec key = (.ok (s.Get sec key).1.1, s) := by
  have hu := Get_unchanged s sec key h hd
  unfold absentOrEmpty at hk
  unfold Store.MustGet
  rcases hg : s.Get sec key with ⟨⟨v, ok⟩, s1⟩
  rw [hg] at hu hk
  simp only [] at hu hk ⊢
  simp only [not_or] at hk
  have h1 : ok = true := by simpa using hk.1
  subst hu
  simp [h1, hk.2]

theorem Resolve_ok_more (inp : Inputs) (env : Env) (store : Store) (r : Resolved)
    (h : (Resolve inp env store).1 = .ok r) :
    r.Force = inp.Force ∧ r.Token = resolveToken inp ∧
    ((Resolve inp env store).2 = store ∨
      (Resolve inp env store).2 = (store.Get r.LongTermSection "aws_mfa_device").2) := by
  unfold Resolve at h ⊢
  simp only [] at h ⊢
  cases hn : ComputeSectionNames (resolveProfile inp env) inp.LongTermSuffix
      inp.ShortTermSuffix with
  | error err => rw [hn] at h; cases h
  | ok names =>
    rw [hn] at h
    simp only [] at h ⊢
    have hdev : (resolveDevice inp env store names).2 = store ∨
        (resolveDevice inp env store names).2
          = (store.Get names.LongTerm "aws_mfa_device").2 := by
      unfold resolveDevice
      split_ifs
      · exact Or.inl rfl
      · exact Or.inl rfl
      · rcases store.Get names.LongTerm "aws_mfa_device" with ⟨⟨v, ok⟩, s1⟩
        simp only []
        split_ifs <;> exact Or.inr rfl
    rcases hd : resolveDevice inp env store names with ⟨d, store1⟩
    rw [hd] at h hdev
    simp only [] at hdev
    cases d with
    | none => cases h
    | some device =>
      simp only [] at h ⊢
      cases hu : resolveDuration inp env with
      | error err => rw [hu] at h; cases h
      | ok duration =>
        rw [hu] at h
        simp only [Except.ok.injEq] at h ⊢
        subst h
        exact ⟨rfl, rfl, hdev⟩

theorem DecideRefresh_unchanged (now : Time) (s : Store) (sec : String) (force : Bool)
    (hd : s.HasSection "" = true) : (DecideRefresh now s sec force).2 = s := by
  cases force with
  | true => rfl
  | false =>
    by_cases h : s.HasSection sec = true
    · rcases (DecideRefresh_present now s sec h).2 with e | e
      · exact e
      · rw [e, Store_withDefault_of_default s hd]
    · have h2 : s.HasSection sec = false := by simpa using h
      unfold DecideRefresh
      simp [h2]

/-- C16, amended: with its dependencies set, `force = false`, a configuration
that resolves, a long-term section that holds the key pair and a short-term
section that holds the five required keys with an expiry strictly after
`now`, `Run` returns no error, calls neither the STS factory nor the STS
client, and leaves the store and the credentials file as they were. The store
loaded has its default section, as every file that the library parses. -/
theorem C16_skips_when_valid (inp : RunInputs) (deps : Deps) (sys : Sys) (now : Time)
    (env : Env) (factory : STSFactory) (store : Store) (r : Resolved) (E : Time)
    (hNow : deps.Now = some now) (hEnv : deps.Env = some env)
    (hFactory : deps.STSFactory = some factory)
    (hLoad : Load (ExpandHome sys.os inp.Inputs.CredentialsFile)
      (sys.probe (ExpandHome sys.os inp.Inputs.CredentialsFile)) = .ok store)
    (hDefault : store.HasSection "" = true)
    (hResolve : (Resolve inp.Inputs env store).1 = .ok r)
    (hForce : inp.Inputs.Force = false)
    (hLong : store.HasSection r.LongTermSection = true)
    (hKeyID : ¬ absentOrEmpty store r.LongTermSection "aws_access_key_id")
    (hSecret : ¬ absentOrEmpty store r.LongTermSection "aws_secret_access_key")
    (hShort : store.HasSection r.ShortTermSection = true)
    (hAll : ∀ k ∈ shortTermRequiredKeys, ¬ absentOrEmpty store r.ShortTermSection k)
    (hExp : ParseExpiration (store.Get r.ShortTermSection "expiration").1.1 = .ok E)
    (hAfter : now.nanos < E.nanos) :
    (Run inp deps sys).err = none ∧ (Run inp deps sys).factoryCalls = [] ∧
    (Run inp deps sys).exchangeCalls = [] ∧ (Run inp deps sys).store = some store ∧
    (Run inp deps sys).saved = none := by
  obtain ⟨hf, _, hs⟩ := Resolve_ok_more inp.Inputs env store r hResolve
  have hs2 : (Resolve inp.Inputs env store).2 = store := by
    rcases hs with hs | hs
    · exact hs
    · rw [hs]; exact Get_unchanged store _ _ hLong hDefault
  have hpair : Resolve inp.Inputs env store = (.ok r, store) := Prod.ext hResolve hs2
  have hex : ¬ ∃ k ∈ shortTermRequiredKeys, absentOrEmpty store r.ShortTermSection k := by
    rintro ⟨k, hk, hk2⟩; exact hAll k hk hk2
  have hsub : ¬ E.Sub now ≤ 0 := by rw [Time_Sub_nonpos_iff]; omega
  have hdec1 : (DecideRefresh now.UTC store r.ShortTermSection r.Force).1 =
      { ShouldRefresh := false, ExpiresAt := some E, Remaining := some (E.Sub now),
        Reason := "still valid" } := by
    rw [hf, hForce, Time.UTC, (DecideRefresh_present now store _ hShort).1, if_neg hex, hExp]
    simp only []
    rw [if_neg hsub]
  have hdec : DecideRefresh now.UTC store r.ShortTermSection r.Force =
      ({ ShouldRefresh := false, ExpiresAt := some E, Remaining := some (E.Sub now),
         Reason := "still valid" }, store) :=
    Prod.ext hdec1 (DecideRefresh_unchanged _ _ _ _ hDefault)
  unfold Run runUntilDecision
  rw [hNow, hEnv, hFactory]
  simp only []
  rw [hLoad]
  simp only []
  rw [hpair]
  simp only []
  rw [MustGet_present store _ _ hLong hDefault hKeyID]
  simp only []
  rw [MustGet_present store _ _ hLong hDefault hSecret]
  simp only []
  rw [hdec]
  simp


theorem runUntilDecision_cases (inp : RunInputs) (deps : Deps) (sys : Sys) :
    (∃ t, runUntilDecision inp deps sys = .inl t ∧
      t.factoryCalls = [] ∧ t.exchangeCalls = [] ∧ t.saved = none) ∨
    (∃ st, runUntilDecision inp deps sys = .inr st ∧ deps.Env = some st.env) := by
  unfold runUntilDecision
  split
  · rename_i now0 env factory hNow hEnv hFactory
    simp only []
    cases Load (ExpandHome sys.os inp.Inputs.CredentialsFile)
        (sys.probe (ExpandHome sys.os inp.Inputs.CredentialsFile)) with
    | error err => exact Or.inl ⟨_, rfl, rfl, rfl, rfl⟩
    | ok store =>
      simp only []
      rcases Resolve inp.Inputs env store with ⟨r | resolved, store1⟩
      · exact Or.inl ⟨_, rfl, rfl, rfl, rfl⟩
      · simp only []
        rcases store1.MustGet resolved.LongTermSection "aws_access_key_id" with ⟨e | k, store2⟩
        · exact Or.inl ⟨_, rfl, rfl, rfl, rfl⟩
        · simp only []
          rcases store2.MustGet resolved.LongTermSection "aws_secret_access_key" with
            ⟨e | k2, store3⟩
          · exact Or.inl ⟨_, rfl, rfl, rfl, rfl⟩
          · simp only []
            split_ifs
            · exact Or.inl ⟨_, rfl, rfl, rfl, rfl⟩
            · exact Or.inr ⟨_, rfl, hEnv⟩
  · exact Or.inl ⟨_, rfl, rfl, rfl, rfl⟩

theorem runUntilDecision_inl (inp : RunInputs) (deps : Deps) (sys : Sys) (t : RunTrace)
    (h : runUntilDecision inp deps sys = .inl t) :
    t.factoryCalls = [] ∧ t.exchangeCalls = [] ∧ t.saved = none := by
  rcases runUntilDecision_cases inp deps sys with ⟨t1, h1, h2⟩ | ⟨st, h1, _⟩
  · rw [h1] at h; cases h; exact h2
  · rw [h1] at h; cases h

theorem runUntilDecision_inr (inp : RunInputs) (deps : Deps) (sys : Sys) (st : RefreshState)
    (h : runUntilDecision inp deps sys = .inr st) : deps.Env = some st.env := by
  rcases runUntilDecision_cases inp deps sys with ⟨t1, h1, h2⟩ | ⟨st1, h1, h2⟩
  · rw [h1] at h; cases h
  · rw [h1] at h; cases h; exact h2

theorem runRefresh_calls (inp : RunInputs) (sys : Sys) (st : RefreshState) :
    (∀ c ∈ (runRefresh inp sys st).exchangeCalls,
      (∃ token, obtainToken st = .ok token ∧ c.TokenCode = token ∧
        token6Digits token = true) ∧
      (runRefresh inp sys st).factoryCalls ≠ []) ∧
    (∀ c ∈ (runRefresh inp sys st).factoryCalls,
      c = (resolveRegion inp.Region st.env, st.ltKeyID, st.ltSecret)) ∧
    (∀ token, obtainToken st = .ok token → token6Digits token = false →
      (runRefresh inp sys st).err = some .tokenFormat ∧
      (runRefresh inp sys st).factoryCalls = [] ∧
      (runRefresh inp sys st).exchangeCalls = [] ∧
      (runRefresh inp sys st).saved = none ∧
      (runRefresh inp sys st).store = some st.store) := by
  unfold runRefresh
  simp only []
  cases hT : obtainToken st with
  | error err => simp
  | ok token =>
    simp only []
    cases h6 : token6Digits token with
    | false => simp
    | true =>
      simp only [Bool.not_true, Bool.false_eq_true, if_false]
      cases st.factory (resolveRegion inp.Region st.env) st.ltKeyID st.ltSecret with
      | error err => simp [h6]
      | ok client =>
        simp only []
        split
        · simp [h6]
        · split
          · simp [h6]
          · split <;> simp [h6]

theorem resolveRegion_eq (region : String) (env : Env) :
    resolveRegion region env =
      firstNonBlank [region, env "AWS_REGION", env "AWS_DEFAULT_REGION"] "us-east-1" := by
  unfold resolveRegion firstNonBlank firstNonBlank firstNonBlank firstNonBlank
  simp only []
  split_ifs <;> first | rfl | contradiction

theorem resolveRegion_ne_empty (region : String) (env : Env) :
    resolveRegion region env ≠ "" := by
  unfold resolveRegion
  simp only []
  split_ifs <;> first | assumption | decide


/-- C16, as stated, fails: with `MFA_STS_DURATION=abc` in the environment,
`force = false`, and the store of `TestRun_SkipsRefreshWhenStillValid` (the
long-term section holds the keys and the device, the short-term section holds
the five required keys and expires an hour after now), `Run` returns the
invalid-duration error. -/
theorem C16_counterexample :
    skipRunInputs.Inputs.Force = false ∧
    Load "credentials" (.parsed stillValidFile) = .ok ⟨"credentials", stillValidFile⟩ ∧
    (∀ k ∈ ["aws_access_key_id", "aws_secret_access_key", "aws_mfa_device"],
      ¬ absentOrEmpty ⟨"credentials", stillValidFile⟩ "default-long-term" k) ∧
    (∀ k ∈ shortTermRequiredKeys,
      ¬ absentOrEmpty ⟨"credentials", stillValidFile⟩ "default" k) ∧
    ParseExpiration ((Store.mk "credentials" stillValidFile).Get "default" "expiration").1.1
      = .ok (Date 2026 2 9 11 0 0 0) ∧
    testNow.nanos < (Date 2026 2 9 11 0 0 0).nanos ∧
    (Run skipRunInputs (testDeps testNow [("MFA_STS_DURATION", "abc")])
      (testSys stillValidFile)).err = some (.invalidDuration "abc") := by
  decide

/-- C16 at `TestRun_SkipsRefreshWhenStillValid`: no error, no call, and the
store is the one loaded. -/
theorem C16_skips_when_valid_witness :
    (Run skipRunInputs (testDeps testNow []) (testSys stillValidFile)).err = none ∧
    (Run skipRunInputs (testDeps testNow []) (testSys stillValidFile)).factoryCalls = [] ∧
    (Run skipRunInputs (testDeps testNow []) (testSys stillValidFile)).exchangeCalls = [] ∧
    (Run skipRunInputs (testDeps testNow []) (testSys stillValidFile)).store
      = some ⟨"credentials", stillValidFile⟩ ∧
    (Run skipRunInputs (testDeps testNow []) (testSys stillValidFile)).saved = none :=
  C16_skips_when_valid skipRunInputs (testDeps testNow []) (testSys stillValidFile) testNow
    (envOf []) fakeFactory ⟨"credentials", stillValidFile⟩ skipResolved (Date 2026 2 9 11 0 0 0)
    rfl rfl rfl (by decide) (by decide) (by decide) (by decide) (by decide) (by decide)
    (by decide) (by decide) (by decide) (by decide) (by decide)

/-- C17: every call of the Session Exchanger that `Run` makes carries a
`TokenCode` of exactly six decimal digits; and whenever `Run` goes on to
refresh and the trimmed token (the one supplied, or else the line read from the
standard input) is not six digits, `Run` returns the token-format error, calls
neither the STS factory nor the Session Exchanger, and replaces no file. -/
theorem C17_token_six_digits (inp : RunInputs) (deps : Deps) (sys : Sys) :
    (∀ c ∈ (Run inp deps sys).exchangeCalls, token6Digits c.TokenCode = true) ∧
    (∀ token, checkedToken inp deps sys = some token → token6Digits token = false →
      (Run inp deps sys).err = some .tokenFormat ∧ (Run inp deps sys).factoryCalls = [] ∧
      (Run inp deps sys).exchangeCalls = [] ∧ (Run inp deps sys).saved = none) := by
  unfold Run checkedToken
  cases h : runUntilDecision inp deps sys with
  | inl t =>
    simp only []
    constructor
    · intro c hc
      rw [(runUntilDecision_inl inp deps sys t h).2.1] at hc
      cases hc
    · intro token hst
      cases hst
  | inr st =>
    simp only []
    constructor
    · intro c hc
      obtain ⟨⟨token, _, h2, h3⟩, _⟩ := (runRefresh_calls inp sys st).1 c hc
      rw [h2]
      exact h3
    · intro token hT h6
      cases hO : obtainToken st with
      | error err => rw [hO] at hT; cases hT
      | ok token1 =>
        rw [hO] at hT
        cases hT
        obtain ⟨h1, h2, h3, h4, _⟩ := (runRefresh_calls inp sys st).2.2 token hO h6
        exact ⟨h1, h2, h3, h4⟩

/-- C17 at the test inputs: the token `123456` reaches the Session Exchanger,
and with the token ` 12345 ` the run fails with the token-format error and
makes no call. -/
theorem C17_token_six_digits_witness :
    token6Digits "123456" = true ∧
    ((Run shortTokenRunInputs (testDeps testNow []) (testSys longTermFile)).err
      = some .tokenFormat ∧
    (Run shortTokenRunInputs (testDeps testNow []) (testSys longTermFile)).factoryCalls = [] ∧
    (Run shortTokenRunInputs (testDeps testNow []) (testSys longTermFile)).exchangeCalls = [] ∧
    (Run shortTokenRunInputs (testDeps testNow []) (testSys longTermFile)).saved = none) :=
  ⟨(C17_token_six_digits testRunInputs (testDeps testNow []) (testSys longTermFile)).1
      { SerialNumber := "arn:aws:iam::123456789012:mfa/me", TokenCode := "123456",
        DurationSeconds := 43200 } (by decide),
   (C17_token_six_digits shortTokenRunInputs (testDeps testNow []) (testSys longTermFile)).2
      "12345" (by decide) (by decide)⟩

/-- C18: every call of the STS factory that `Run` makes passes as region the
first non-blank, trimmed, of `RunInputs.Region`, `AWS_REGION` and
`AWS_DEFAULT_REGION`, and `us-east-1` when all three are blank; that region is
not empty; and `Run` calls the Session Exchanger only after it has called the
factory. -/
theorem C18_region_precedence (inp : RunInputs) (deps : Deps) (sys : Sys) :
    (∀ c ∈ (Run inp deps sys).factoryCalls, ∃ env, deps.Env = some env ∧
      c.1 = firstNonBlank [inp.Region, env "AWS_REGION", env "AWS_DEFAULT_REGION"]
        "us-east-1" ∧ c.1 ≠ "") ∧
    ((Run inp deps sys).exchangeCalls ≠ [] → (Run inp deps sys).factoryCalls ≠ []) := by
  unfold Run
  cases h : runUntilDecision inp deps sys with
  | inl t =>
    simp only []
    constructor
    · intro c hc
      rw [(runUntilDecision_inl inp deps sys t h).1] at hc
      cases hc
    · intro hx
      exact absurd (runUntilDecision_inl inp deps sys t h).2.1 hx
  | inr st =>
    simp only []
    constructor
    · intro c hc
      refine ⟨st.env, runUntilDecision_inr inp deps sys st h, ?_, ?_⟩
      · rw [(runRefresh_calls inp sys st).2.1 c hc, resolveRegion_eq]
      · rw [(runRefresh_calls inp sys st).2.1 c hc]
        exact resolveRegion_ne_empty _ _
    · intro hx
      cases hl : (runRefresh inp sys st).exchangeCalls with
      | nil => exact absurd hl hx
      | cons c rest =>
        exact ((runRefresh_calls inp sys st).1 c (by rw [hl]; exact List.mem_cons_self _ _)).2

/-- C18 at the test inputs with `AWS_REGION` blank and `AWS_DEFAULT_REGION`
set: the factory is called with the latter, trimmed. -/
theorem C18_region_precedence_witness :
    (Run testRunInputs (testDeps testNow [("AWS_REGION", "  "),
        ("AWS_DEFAULT_REGION", " eu-west-1 ")]) (testSys longTermFile)).factoryCalls
      = [("eu-west-1", "AKIA_LT", "SECRET_LT")] ∧
    ∃ env, (testDeps testNow [("AWS_REGION", "  "),
        ("AWS_DEFAULT_REGION", " eu-west-1 ")]).Env = some env ∧
      "eu-west-1" = firstNonBlank [testRunInputs.Region, env "AWS_REGION",
        env "AWS_DEFAULT_REGION"] "us-east-1" ∧ "eu-west-1" ≠ "" :=
  ⟨by decide,
   (C18_region_precedence testRunInputs (testDeps testNow [("AWS_REGION", "  "),
      ("AWS_DEFAULT_REGION", " eu-west-1 ")]) (testSys longTermFile)).1
      ("eu-west-1", "AKIA_LT", "SECRET_LT") (by decide)⟩

/-- C19 fails on the code: for the profile `a` with the long-term suffix `X`
and the short-term suffix `x`, `Resolve` succeeds with the long-term section
`a-X` and the short-term section `a-x`, which the store takes for the same
section; a successful `Run` then replaces the long-term `aws_access_key_id`
and `aws_secret_access_key` by the session's, in the store and in the saved
file. -/
theorem C19_long_term_overwritten :
    (Resolve collisionRunInputs.Inputs (envOf []) ⟨"credentials", collisionFile⟩).1
      = .ok { Profile := "a", LongTermSection := "a-X", ShortTermSection := "a-x"
              Device := "device", DurationSeconds := 43200, Token := "123456"
              Force := false, CredentialsFile := "credentials" } ∧
    Store.rawValue ⟨"credentials", collisionFile⟩ "a-X" "aws_access_key_id"
      = some "AKIA_LT" ∧
    Store.rawValue ⟨"credentials", collisionFile⟩ "a-X" "aws_secret_access_key"
      = some "SECRET_LT" ∧
    (Run collisionRunInputs (testDeps testNow []) (testSys collisionFile)).err = none ∧
    ((Run collisionRunInputs (testDeps testNow []) (testSys collisionFile)).store.bind
      fun s => s.rawValue "a-X" "aws_access_key_id") = some "ASIA_ST" ∧
    ((Run collisionRunInputs (testDeps testNow []) (testSys collisionFile)).store.bind
      fun s => s.rawValue "a-X" "aws_secret_access_key") = some "SECRET_ST" ∧
    ((Run collisionRunInputs (testDeps testNow []) (testSys collisionFile)).saved.bind
      fun f => Store.rawValue ⟨"credentials", f⟩ "a-X" "aws_access_key_id")
      = some "ASIA_ST" := by
  decide

/-! ## Writes into the store -/

theorem ToLower_idem (s : String) : ToLower (ToLower s) = ToLower s := by
  unfold ToLower
  simp only [List.map_map]
  congr 1
  apply List.map_congr_left
  intro c _
  exact unicodeToLower_idem c

theorem updSection_name (nm : String) (g : IniSection → IniSection)
    (hg : ∀ x, (g x).name = x.name) (x : IniSection) : (updSection nm g x).name = x.name := by
  unfold updSection
  split_ifs
  · exact hg x
  · rfl

theorem find_updateFirst (nm : String) (g : IniSection → IniSection)
    (hg : ∀ x, (g x).name = x.name) (p : String) : ∀ l : List IniSection,
    (updateFirst nm g l).find? (fun s => s.name == p)
      = (l.find? (fun s => s.name == p)).map (updSection nm g) := by
  intro l
  induction l with
  | nil => rfl
  | cons x xs ih =>
    unfold updateFirst
    cases hb : x.name == nm with
    | true =>
      have h1 : x.name = nm := by simpa using hb
      simp only [if_true]
      cases hb2 : x.name == p with
      | true =>
        simp only [List.find?_cons, hg, hb2, Option.map_some', updSection, hb, if_true]
      | false =>
        simp only [List.find?_cons, hg, hb2]
        cases hf : xs.find? (fun s => s.name == p) with
        | none => rfl
        | some y =>
          have hy := List.find?_some hf
          simp only [beq_iff_eq] at hy
          have h2 : ¬ x.name = p := by simpa using hb2
          have : (y.name == nm) = false := by
            simp only [beq_eq_false_iff_ne]; intro c; apply h2; rw [h1, ← c, hy]
          simp only [Option.map_some', updSection, this, Bool.false_eq_true, if_false]
    | false =>
      simp only [Bool.false_eq_true, if_false]
      cases hb2 : x.name == p with
      | true =>
        simp only [List.find?_cons, hb2, Option.map_some', updSection, hb,
          Bool.false_eq_true, if_false]
      | false =>
        simp only [List.find?_cons, hb2]
        exact ih

theorem GetSection_updateFirst (nm : String) (g : IniSection → IniSection)
    (hg : ∀ x, (g x).name = x.name) (f : IniFile) (n : String) :
    (⟨updateFirst nm g f.sections⟩ : IniFile).GetSection n
      = (f.GetSection n).map (updSection nm g) := by
  unfold IniFile.GetSection
  exact find_updateFirst nm g hg _ _

theorem findSome_map {α β : Type} (u : β → β) (a b : α → Option β)
    (h : ∀ p, a p = (b p).map u) : ∀ ps : List α,
    ps.findSome? a = (ps.findSome? b).map u := by
  intro ps
  induction ps with
  | nil => rfl
  | cons p rest ih =>
    simp only [List.findSome?_cons, h p]
    cases b p with
    | none => simpa using ih
    | some y => rfl

theorem GetKeyAux_updateFirst (nm : String) (g : IniSection → IniSection)
    (hg : ∀ x, (g x).name = x.name) (kn : String) (phi : String → String)
    (hown : ∀ x, (g x).ownKey kn = (x.ownKey kn).map phi) (hkn : ToLower kn = kn)
    (f : IniFile) : ∀ (fuel : Nat) (sec : IniSection) (name : String), ToLower name = kn →
    (⟨updateFirst nm g f.sections⟩ : IniFile).GetKeyAux fuel (updSection nm g sec) name
      = (f.GetKeyAux fuel sec name).map
          (fun k => ⟨updSection nm g k.owner, k.name,
            if k.owner.name == nm then phi k.value else k.value⟩) := by
  intro fuel
  induction fuel with
  | zero => intro sec name _; rfl
  | succ n ih =>
    intro sec name hname
    unfold IniFile.GetKeyAux
    simp only [hname, updSection_name nm g hg]
    have hown2 : (updSection nm g sec).ownKey kn
        = (sec.ownKey kn).map (fun v => if sec.name == nm then phi v else v) := by
      unfold updSection
      split_ifs
      · rw [hown]
      · simp
    rw [hown2]
    cases ho : sec.ownKey kn with
    | some v => rfl
    | none =>
      simp only [Option.map_none']
      rw [findSome_map (updSection nm g) _ (fun p => f.GetSection p)
        (fun p => GetSection_updateFirst nm g hg f p)]
      cases (parentNames sec.name.length sec.name.data).findSome? (fun p => f.GetSection p) with
      | none => rfl
      | some parent =>
        simp only [Option.map_some']
        exact ih parent kn hkn

theorem GetKeyAux_name (f : IniFile) : ∀ (fuel : Nat) (sec : IniSection) (name : String)
    (k : KeyRef), f.GetKeyAux fuel sec name = some k → k.name = ToLower name := by
  intro fuel
  induction fuel with
  | zero => intro sec name k h; cases h
  | succ n ih =>
    intro sec name k h
    unfold IniFile.GetKeyAux at h
    simp only [] at h
    cases ho : sec.ownKey (ToLower name) with
    | some v => rw [ho] at h; cases h; rfl
    | none =>
      rw [ho] at h
      simp only [] at h
      cases hp : (parentNames sec.name.length sec.name.data).findSome?
          (fun p => f.GetSection p) with
      | none => rw [hp] at h; cases h
      | some parent =>
        rw [hp] at h
        rw [ih parent _ k h, ToLower_idem]

theorem ownKey_setFirstKey (kn v : String) (x : IniSection) :
    ({ x with keys := setFirstKey kn v x.keys } : IniSection).ownKey kn
      = (x.ownKey kn).map (fun _ => v) := by
  unfold IniSection.ownKey
  simp only []
  induction x.keys with
  | nil => rfl
  | cons kv rest ih =>
    unfold setFirstKey
    cases h : kv.1 == kn with
    | true => simp only [if_true, List.find?_cons, h, Option.map_some']
    | false =>
      simp only [Bool.false_eq_true, if_false, List.find?_cons, h]
      exact ih

theorem ownKey_setFirstKey_other (kn v kn2 : String) (hne : kn2 ≠ kn) (x : IniSection) :
    ({ x with keys := setFirstKey kn v x.keys } : IniSection).ownKey kn2
      = (x.ownKey kn2).map id := by
  unfold IniSection.ownKey
  simp only [Option.map_id, id]
  induction x.keys with
  | nil => rfl
  | cons kv rest ih =>
    unfold setFirstKey
    cases h : kv.1 == kn with
    | true =>
      have h2 : (kv.1 == kn2) = false := by
        simp only [beq_iff_eq, beq_eq_false_iff_ne] at h ⊢; intro c; apply hne; rw [← c, h]
      simp only [if_true, List.find?_cons, h2]
    | false =>
      simp only [Bool.false_eq_true, if_false]
      cases h2 : kv.1 == kn2 with
      | true => simp only [List.find?_cons, h2, Option.map_some']
      | false =>
        simp only [List.find?_cons, h2]
        exact ih

theorem ownKey_append_other (kn v kn2 : String) (hne : kn2 ≠ kn) (x : IniSection) :
    ({ x with keys := x.keys ++ [(kn, v)] } : IniSection).ownKey kn2
      = (x.ownKey kn2).map id := by
  unfold IniSection.ownKey
  have h2 : (kn == kn2) = false := by
    simp only [beq_eq_false_iff_ne]; intro c; exact hne c.symm
  simp only [Option.map_id, id, List.find?_append, List.find?_cons, h2, List.find?_nil,
    Option.or_none]

theorem ownKey_append_same (kn v : String) (x : IniSection) (h : x.ownKey kn = none) :
    ({ x with keys := x.keys ++ [(kn, v)] } : IniSection).ownKey kn = some v := by
  unfold IniSection.ownKey at h ⊢
  simp only [Option.map_eq_none'] at h
  simp only [List.find?_append, h, Option.none_or, List.find?_cons, beq_self_eq_true,
    Option.map_some']

theorem ownKey_eraseFirstKey_other (key kn2 : String) (hne : kn2 ≠ key) (x : IniSection) :
    ({ x with keys := eraseFirstKey key x.keys } : IniSection).ownKey kn2
      = (x.ownKey kn2).map id := by
  unfold IniSection.ownKey
  simp only [Option.map_id, id]
  induction x.keys with
  | nil => rfl
  | cons kv rest ih =>
    unfold eraseFirstKey
    cases h : kv.1 == key with
    | true =>
      have h2 : (kv.1 == kn2) = false := by
        simp only [beq_iff_eq, beq_eq_false_iff_ne] at h ⊢; intro c; apply hne; rw [← c, h]
      simp only [if_true, List.find?_cons, h2]
    | false =>
      simp only [Bool.false_eq_true, if_false]
      cases h2 : kv.1 == kn2 with
      | true => simp only [List.find?_cons, h2, Option.map_some']
      | false =>
        simp only [List.find?_cons, h2]
        exact ih

theorem rawValue_update (nm : String) (g : IniSection → IniSection)
    (hg : ∀ x, (g x).name = x.name) (phi : String → String) (s : Store) (sec key : String)
    (x : IniSection) (hx : s.ini.GetSection sec = some x)
    (hown : ∀ y, (g y).ownKey (ToLower key) = (y.ownKey (ToLower key)).map phi) :
    Store.rawValue { s with ini := ⟨updateFirst nm g s.ini.sections⟩ } sec key
      = (s.ini.GetKey x key).map
          (fun k => if k.owner.name == nm then phi k.value else k.value) := by
  unfold Store.rawValue
  simp only []
  rw [GetSection_updateFirst nm g hg, hx]
  simp only [Option.map_some']
  unfold IniFile.GetKey
  rw [updSection_name nm g hg,
    GetKeyAux_updateFirst nm g hg (ToLower key) phi hown (ToLower_idem key) s.ini _ x key rfl,
    Option.map_map]
  rfl

theorem rawValue_of_GetSection (s : Store) (sec key : String) (x : IniSection)
    (hx : s.ini.GetSection sec = some x) :
    s.rawValue sec key = (s.ini.GetKey x key).map (fun k => k.value) := by
  unfold Store.rawValue
  rw [hx]

theorem GetKey_none_ownKey (f : IniFile) (x : IniSection) (key : String)
    (h : f.GetKey x key = none) : x.ownKey (ToLower key) = none := by
  unfold IniFile.GetKey IniFile.GetKeyAux at h
  simp only [] at h
  cases ho : x.ownKey (ToLower key) with
  | none => rfl
  | some v => rw [ho] at h; cases h

theorem Set_rawValue (s t : Store) (sec key v : String) (x : IniSection)
    (hx : s.ini.GetSection sec = some x) (h : s.Set sec key v = some t) :
    t.rawValue sec key = some v ∧
    (∀ key2, ToLower key2 ≠ ToLower key → t.rawValue sec key2 = s.rawValue sec key2) ∧
    ∃ y, t.ini.GetSection sec = some y := by
  unfold Store.Set at h
  rw [Section_of_GetSection _ _ _ hx] at h
  simp only [] at h
  cases hk : s.ini.GetKey x key with
  | some k =>
    rw [hk] at h
    simp only [Option.some.injEq] at h
    subst h
    have hname : k.name = ToLower key := GetKeyAux_name _ _ _ _ _ hk
    have hg : ∀ y : IniSection,
        ({ y with keys := setFirstKey k.name v y.keys } : IniSection).name = y.name :=
      fun _ => rfl
    refine ⟨?_, ?_, ?_⟩
    · rw [rawValue_update k.owner.name _ hg (fun _ => v) s sec key x hx
        (fun y => by rw [← hname]; exact ownKey_setFirstKey k.name v y), hk]
      simp
    · intro key2 hne
      rw [rawValue_update k.owner.name _ hg id s sec key2 x hx
        (fun y => ownKey_setFirstKey_other k.name v _ (by rw [hname]; exact hne) y),
        rawValue_of_GetSection s sec key2 x hx]
      simp
    · rw [GetSection_updateFirst _ _ hg, hx]
      exact ⟨_, rfl⟩
  | none =>
    rw [hk] at h
    simp only [] at h
    split_ifs at h with hempty
    simp only [Option.some.injEq] at h
    subst h
    have hg : ∀ y : IniSection,
        ({ y with keys := y.keys ++ [(ToLower key, v)] } : IniSection).name = y.name :=
      fun _ => rfl
    refine ⟨?_, ?_, ?_⟩
    · unfold Store.rawValue
      simp only []
      rw [GetSection_updateFirst _ _ hg, hx]
      simp only [Option.map_some']
      unfold IniFile.GetKey IniFile.GetKeyAux
      simp only []
      have : (updSection x.name
          (fun y => ({ y with keys := y.keys ++ [(ToLower key, v)] } : IniSection)) x).ownKey
          (ToLower key) = some v := by
        unfold updSection
        simp only [beq_self_eq_true, if_true]
        exact ownKey_append_same _ _ _ (GetKey_none_ownKey _ _ _ hk)
      rw [this]
      rfl
    · intro key2 hne
      rw [rawValue_update x.name _ hg id s sec key2 x hx
        (fun y => ownKey_append_other _ v _ hne y),
        rawValue_of_GetSection s sec key2 x hx]
      simp
    · rw [GetSection_updateFirst _ _ hg, hx]
      exact ⟨_, rfl⟩

theorem DeleteKey_rawValue (s : Store) (sec key : String) (x : IniSection)
    (hx : s.ini.GetSection sec = some x) :
    (∀ key2, ToLower key2 ≠ key → (s.DeleteKey sec key).rawValue sec key2
      = s.rawValue sec key2) ∧
    ∃ y, (s.DeleteKey sec key).ini.GetSection sec = some y := by
  unfold Store.DeleteKey
  rw [Section_of_GetSection _ _ _ hx]
  simp only []
  have hg : ∀ y : IniSection,
      ({ y with keys := eraseFirstKey key y.keys } : IniSection).name = y.name :=
    fun _ => rfl
  constructor
  · intro key2 hne
    rw [rawValue_update x.name _ hg id s sec key2 x hx
      (fun y => ownKey_eraseFirstKey_other key _ hne y),
      rawValue_of_GetSection s sec key2 x hx]
    simp
  · rw [GetSection_updateFirst _ _ hg, hx]
    exact ⟨_, rfl⟩

theorem Section_mono (f : IniFile) (n m : String) (h : (f.GetSection m).isSome = true) :
    ((f.Section n).1.GetSection m).isSome = true := by
  unfold IniFile.Section
  cases hg : f.GetSection n with
  | some x => exact h
  | none =>
    simp only []
    unfold IniFile.NewSection
    simp only []
    split
    · exact h
    · simp only []
      unfold IniFile.GetSection at h ⊢
      simp only [List.find?_append] at h ⊢
      rw [Option.isSome_iff_exists] at h
      obtain ⟨a, ha⟩ := h
      rw [ha]
      rfl

theorem Section_present (f : IniFile) (n : String) (hd : (f.GetSection "").isSome = true) :
    ((f.Section n).1.GetSection n).isSome = true := by
  unfold IniFile.Section
  cases hg : f.GetSection n with
  | some x => simp only []; rw [hg]; rfl
  | none =>
    simp only []
    by_cases h0 : n = ""
    · rw [h0] at hg; rw [hg] at hd; cases hd
    · by_cases h1 : n = DefaultSection
      · have : f.GetSection n = f.GetSection "" := by
          rw [h1]; unfold IniFile.GetSection; simp [DefaultSection]
        rw [this] at hg; rw [hg] at hd; cases hd
      · simp only [h0, if_false]
        unfold IniFile.NewSection
        simp only [ne_eq, h1, not_false_eq_true, if_true]
        have hf : f.sections.find? (fun s => s.name == ToLower n) = none := by
          unfold IniFile.GetSection at hg
          simpa [h0] using hg
        rw [hf]
        simp only []
        unfold IniFile.GetSection
        simp only [h0, if_false, List.find?_append, hf, Option.none_or, List.find?_cons,
          beq_self_eq_true]
        rfl

theorem Store_Section_default (s : Store) (n : String) (hd : s.HasSection "" = true) :
    (s.Section n).HasSection "" = true := by
  unfold Store.Section Store.HasSection
  exact Section_mono s.ini n "" hd

theorem Get_store (s : Store) (sec key : String) (hd : s.HasSection "" = true) :
    (s.Get sec key).2 = s.Section sec := by
  have h1 := Section_mono s.ini sec "" hd
  unfold Store.Get Store.Section
  rcases hS : s.ini.Section sec with ⟨ini1, x⟩
  rw [hS] at h1
  simp only [] at h1 ⊢
  cases ini1.GetKey x key with
  | none => rfl
  | some k =>
    simp only []
    have h2 : (ini1.KeyString k).1 = ini1 := by
      rcases (KeyString_withDefault ini1 k).1 with e | e
      · exact e
      · rw [e, withDefault_of_default ini1 h1]
    rcases hK : ini1.KeyString k with ⟨ini2, v⟩
    rw [hK] at h2
    simp only [] at h2 ⊢
    rw [h2]

theorem Get_default (s : Store) (sec key : String) (hd : s.HasSection "" = true) :
    (s.Get sec key).2.HasSection "" = true := by
  rw [Get_store s sec key hd]
  exact Store_Section_default s sec hd

theorem MustGet_default (s : Store) (sec key : String) (hd : s.HasSection "" = true) :
    (s.MustGet sec key).2.HasSection "" = true := by
  have h := Get_default s sec key hd
  unfold Store.MustGet
  rcases hG : s.Get sec key with ⟨⟨v, ok⟩, s1⟩
  rw [hG] at h
  simp only [] at h ⊢
  split_ifs <;> exact h

theorem requiredKeysPresent_default (sec : String) : ∀ (ks : List String) (s : Store),
    s.HasSection "" = true → (requiredKeysPresent sec ks s).2.HasSection "" = true := by
  intro ks
  induction ks with
  | nil => intro s hd; exact hd
  | cons k rest ih =>
    intro s hd
    have h := Get_default s sec k hd
    unfold requiredKeysPresent
    rcases hG : s.Get sec k with ⟨⟨v, ok⟩, s1⟩
    rw [hG] at h
    simp only [] at h ⊢
    split_ifs
    · exact h
    · exact ih s1 h

theorem DecideRefresh_default (now : Time) (s : Store) (sec : String) (force : Bool)
    (hd : s.HasSection "" = true) :
    (DecideRefresh now s sec force).2.HasSection "" = true := by
  unfold DecideRefresh
  split_ifs
  · exact hd
  · exact hd
  · have h1 := requiredKeysPresent_default sec shortTermRequiredKeys s hd
    rcases hR : requiredKeysPresent sec shortTermRequiredKeys s with ⟨b, s1⟩
    rw [hR] at h1
    simp only [] at h1
    cases b with
    | false => exact h1
    | true =>
      simp only []
      have h2 := Get_default s1 sec "expiration" h1
      rcases hG : s1.Get sec "expiration" with ⟨⟨v, ok⟩, s2⟩
      rw [hG] at h2
      simp only [] at h2 ⊢
      cases ParseExpiration v with
      | error e => exact h2
      | ok exp =>
        simp only []
        split_ifs <;> exact h2

theorem Resolve_default (inp : Inputs) (env : Env) (s : Store)
    (hd : s.HasSection "" = true) : (Resolve inp env s).2.HasSection "" = true := by
  unfold Resolve
  simp only []
  cases hn : ComputeSectionNames (resolveProfile inp env) inp.LongTermSuffix
      inp.ShortTermSuffix with
  | error err => exact hd
  | ok names =>
    simp only []
    have hdev : (resolveDevice inp env s names).2.HasSection "" = true := by
      unfold resolveDevice
      split_ifs
      · exact hd
      · exact hd
      · have h := Get_default s names.LongTerm "aws_mfa_device" hd
        rcases hG : s.Get names.LongTerm "aws_mfa_device" with ⟨⟨v, ok⟩, s1⟩
        rw [hG] at h
        simp only [] at h ⊢
        split_ifs <;> exact h
    rcases hD : resolveDevice inp env s names with ⟨d, s1⟩
    rw [hD] at hdev
    simp only [] at hdev ⊢
    cases d with
    | none => exact hdev
    | some device =>
      simp only []
      cases resolveDuration inp env with
      | error err => exact hdev
      | ok duration => exact hdev

theorem runUntilDecision_inr_state (inp : RunInputs) (deps : Deps) (sys : Sys)
    (st : RefreshState) (h : runUntilDecision inp deps sys = .inr st) :
    ∃ env factory store0 r, deps.Env = some env ∧ deps.STSFactory = some factory ∧
      Load (ExpandHome sys.os inp.Inputs.CredentialsFile)
        (sys.probe (ExpandHome sys.os inp.Inputs.CredentialsFile)) = .ok store0 ∧
      (Resolve inp.Inputs env store0).1 = .ok r ∧ st.resolved = r ∧ st.factory = factory ∧
      (store0.HasSection "" = true → st.store.HasSection "" = true) := by
  unfold runUntilDecision at h
  split at h
  · rename_i now0 env factory hNow hEnv hFactory
    simp only [] at h
    cases hL : Load (ExpandHome sys.os inp.Inputs.CredentialsFile)
        (sys.probe (ExpandHome sys.os inp.Inputs.CredentialsFile)) with
    | error err => rw [hL] at h; cases h
    | ok store0 =>
      rw [hL] at h
      simp only [] at h
      have d1 := Resolve_default inp.Inputs env store0
      rcases hR : Resolve inp.Inputs env store0 with ⟨r | resolved, store1⟩
      · rw [hR] at h; cases h
      · rw [hR] at h d1
        simp only [] at h d1
        have d2 := MustGet_default store1 resolved.LongTermSection "aws_access_key_id"
        rcases hM : store1.MustGet resolved.LongTermSection "aws_access_key_id" with
          ⟨e | k, store2⟩
        · rw [hM] at h; cases h
        · rw [hM] at h d2
          simp only [] at h d2
          have d3 := MustGet_default store2 resolved.LongTermSection "aws_secret_access_key"
          rcases hM2 : store2.MustGet resolved.LongTermSection "aws_secret_access_key" with
            ⟨e | k2, store3⟩
          · rw [hM2] at h; cases h
          · rw [hM2] at h d3
            simp only [] at h d3
            have d4 := DecideRefresh_default now0.UTC store3 resolved.ShortTermSection
              resolved.Force
            split_ifs at h
            cases h
            exact ⟨env, factory, store0, resolved, hEnv, hFactory, rfl, by rw [hR], rfl, rfl,
              fun hd => d4 (d3 (d2 (d1 hd)))⟩
  · cases h

theorem writeCredentials_spec (s final : Store) (sec : String) (o : GetSessionTokenOutput)
    (hd : s.HasSection "" = true) (h : writeCredentials s sec o = some final) :
    final.rawValue sec "aws_access_key_id" = some o.AccessKeyID ∧
    final.rawValue sec "aws_secret_access_key" = some o.SecretAccessKey ∧
    final.rawValue sec "aws_session_token" = some o.SessionToken ∧
    final.rawValue sec "aws_security_token" = some o.SessionToken ∧
    final.rawValue sec "expiration" = some o.Expiration.UTC.Format := by
  have h0 : ((s.Section sec).ini.GetSection sec).isSome = true :=
    Section_present s.ini sec hd
  rw [Option.isSome_iff_exists] at h0
  obtain ⟨x0, hx0⟩ := h0
  unfold writeCredentials at h
  simp only [Option.bind_eq_bind, Option.bind_eq_some, Option.pure_def,
    Option.some.injEq] at h
  obtain ⟨s1, h1, s2, h2, s3, h3, s4, h4, s5, h5, s6, h6, hf⟩ := h
  obtain ⟨a1, _, ⟨x1, hx1⟩⟩ := Set_rawValue _ s1 sec _ _ x0 hx0 h1
  obtain ⟨a2, f2, ⟨x2, hx2⟩⟩ := Set_rawValue _ s2 sec _ _ x1 hx1 h2
  obtain ⟨a3, f3, ⟨x3, hx3⟩⟩ := Set_rawValue _ s3 sec _ _ x2 hx2 h3
  obtain ⟨a4, f4, ⟨x4, hx4⟩⟩ := Set_rawValue _ s4 sec _ _ x3 hx3 h4
  obtain ⟨a5, f5, ⟨x5, hx5⟩⟩ := Set_rawValue _ s5 sec _ _ x4 hx4 h5
  obtain ⟨_, f6, ⟨x6, hx6⟩⟩ := Set_rawValue _ s6 sec _ _ x5 hx5 h6
  obtain ⟨f7, _⟩ := DeleteKey_rawValue s6 sec "assumed_role_arn" x6 hx6
  subst hf
  refine ⟨?_, ?_, ?_, ?_, ?_⟩
  · rw [f7 _ (by decide), f6 _ (by decide), f5 _ (by decide), f4 _ (by decide),
      f3 _ (by decide), f2 _ (by decide), a1]
  · rw [f7 _ (by decide), f6 _ (by decide), f5 _ (by decide), f4 _ (by decide),
      f3 _ (by decide), a2]
  · rw [f7 _ (by decide), f6 _ (by decide), f5 _ (by decide), f4 _ (by decide), a3]
  · rw [f7 _ (by decide), f6 _ (by decide), f5 _ (by decide), a4]
  · rw [f7 _ (by decide), f6 _ (by decide), a5]

theorem runRefresh_ok (inp : RunInputs) (sys : Sys) (st : RefreshState)
    (herr : (runRefresh inp sys st).err = none) :
    ∃ token client o final, obtainToken st = .ok token ∧
      st.factory (resolveRegion inp.Region st.env) st.ltKeyID st.ltSecret = .ok client ∧
      client { SerialNumber := st.resolved.Device, TokenCode := token,
               DurationSeconds := st.resolved.DurationSeconds } = .ok o ∧
      writeCredentials st.store st.resolved.ShortTermSection o = some final ∧
      (runRefresh inp sys st).factoryCalls
        = [(resolveRegion inp.Region st.env, st.ltKeyID, st.ltSecret)] ∧
      (runRefresh inp sys st).exchangeCalls
        = [{ SerialNumber := st.resolved.Device, TokenCode := token,
             DurationSeconds := st.resolved.DurationSeconds }] ∧
      (runRefresh inp sys st).store = some final ∧
      (runRefresh inp sys st).saved = some final.ini := by
  unfold runRefresh at herr ⊢
  simp only [] at herr ⊢
  cases hT : obtainToken st with
  | error err => rw [hT] at herr; cases herr
  | ok token =>
    rw [hT] at herr
    simp only [] at herr ⊢
    cases h6 : token6Digits token with
    | false => rw [h6] at herr; cases herr
    | true =>
      rw [h6] at herr
      simp only [Bool.not_true, Bool.false_eq_true, if_false] at herr ⊢
      cases hF : st.factory (resolveRegion inp.Region st.env) st.ltKeyID st.ltSecret with
      | error err => rw [hF] at herr; cases herr
      | ok client =>
        rw [hF] at herr
        simp only [] at herr ⊢
        generalize hin : (⟨st.resolved.Device, token, st.resolved.DurationSeconds⟩ :
            GetSessionTokenInput) = input at herr ⊢
        cases hC : client input with
        | error err => rw [hC] at herr; cases herr
        | ok o =>
          rw [hC] at herr
          simp only [] at herr ⊢
          cases hW : writeCredentials st.store st.resolved.ShortTermSection o with
          | none => rw [hW] at herr; cases herr
          | some final =>
            rw [hW] at herr
            simp only [] at herr ⊢
            unfold Store.SaveAtomic at herr ⊢
            cases hsf : sys.saveFailure with
            | some sf => rw [hsf] at herr; cases sf <;> cases herr
            | none =>
              subst hin
              exact ⟨token, client, o, final, rfl, rfl, hC, hW, rfl, rfl, rfl, rfl⟩

/-! ## What a section holds itself -/

theorem sectionKey_dotfree (sec : String) (h : '.' ∉ sec.data) :
    '.' ∉ (sectionKey sec).data := by
  unfold sectionKey ToLower
  simp only [List.mem_map, not_exists, not_and]
  intro c hc
  apply unicodeToLower_ne_dot
  intro e
  subst e
  split_ifs at hc with h0
  · revert hc; decide
  · exact h hc

theorem cutLastDot_dotfree (l : List Char) (h : '.' ∉ l) : cutLastDot l = none := by
  unfold cutLastDot
  have : l.reverse.dropWhile (fun c => c != '.') = [] := by
    rw [List.dropWhile_eq_nil_iff]
    intro c hc
    simp only [List.mem_reverse] at hc
    simp only [bne_iff_ne, ne_eq]
    intro e
    subst e
    exact h hc
  rw [this]

theorem parentNames_dotfree (n : Nat) (l : List Char) (h : '.' ∉ l) : parentNames n l = [] := by
  cases n with
  | zero => rfl
  | succ m =>
    unfold parentNames
    rw [cutLastDot_dotfree l h]

theorem GetSection_name (f : IniFile) (sec : String) (x : IniSection)
    (h : f.GetSection sec = some x) : x.name = sectionKey sec := by
  unfold IniFile.GetSection at h
  have := List.find?_some h
  simpa [sectionKey] using this

theorem GetKey_dotfree (f : IniFile) (sec key : String) (x : IniSection)
    (hx : f.GetSection sec = some x) (hdot : '.' ∉ sec.data) :
    f.GetKey x key = (x.ownKey (ToLower key)).map (fun v => ⟨x, ToLower key, v⟩) := by
  unfold IniFile.GetKey IniFile.GetKeyAux
  simp only []
  cases x.ownKey (ToLower key) with
  | some v => rfl
  | none =>
    simp only []
    rw [parentNames_dotfree]
    · rfl
    · rw [GetSection_name f sec x hx]
      exact sectionKey_dotfree sec hdot

theorem GetSection_sectionKey (f : IniFile) (a b : String) (h : sectionKey a = sectionKey b) :
    f.GetSection a = f.GetSection b := by
  unfold IniFile.GetSection
  unfold sectionKey at h
  simp only [h]

theorem Section_ownValue (f : IniFile) (n sec key : String)
    (hd : (f.GetSection "").isSome = true) :
    (f.Section n).1.ownValue sec key = f.ownValue sec key := by
  unfold IniFile.Section
  cases hg : f.GetSection n with
  | some x => rfl
  | none =>
    simp only []
    by_cases h0 : n = ""
    · rw [h0] at hg; rw [hg] at hd; cases hd
    · by_cases h1 : n = DefaultSection
      · have : f.GetSection n = f.GetSection "" := by
          rw [h1]; unfold IniFile.GetSection; simp [DefaultSection]
        rw [this] at hg; rw [hg] at hd; cases hd
      · simp only [h0, if_false]
        unfold IniFile.NewSection
        simp only [ne_eq, h1, not_false_eq_true, if_true]
        have hf : f.sections.find? (fun s => s.name == ToLower n) = none := by
          unfold IniFile.GetSection at hg
          simpa [h0] using hg
        rw [hf]
        simp only []
        unfold IniFile.ownValue IniFile.GetSection
        simp only [List.find?_append]
        cases hq : f.sections.find?
            (fun s => s.name == ToLower (if sec = "" then DefaultSection else sec)) with
        | some y => rfl
        | none =>
          simp only [Option.none_or, List.find?_cons, List.find?_nil, Option.none_bind]
          split <;> rfl

theorem Section_get (f : IniFile) (n : String) (hd : (f.GetSection "").isSome = true) :
    (f.Section n).1.GetSection n = some (f.Section n).2 := by
  unfold IniFile.Section
  cases hg : f.GetSection n with
  | some x => simp only []; rw [hg]
  | none =>
    simp only []
    by_cases h0 : n = ""
    · rw [h0] at hg; rw [hg] at hd; cases hd
    · by_cases h1 : n = DefaultSection
      · have : f.GetSection n = f.GetSection "" := by
          rw [h1]; unfold IniFile.GetSection; simp [DefaultSection]
        rw [this] at hg; rw [hg] at hd; cases hd
      · simp only [h0, if_false]
        unfold IniFile.NewSection
        simp only [ne_eq, h1, not_false_eq_true, if_true]
        have hf : f.sections.find? (fun s => s.name == ToLower n) = none := by
          unfold IniFile.GetSection at hg
          simpa [h0] using hg
        rw [hf]
        simp only []
        unfold IniFile.GetSection
        simp only [h0, if_false, List.find?_append, hf, Option.none_or, List.find?_cons,
          beq_self_eq_true]

theorem Get_ownValue (s : Store) (sec key : String) (hd : s.HasSection "" = true)
    (hdot : '.' ∉ sec.data) :
    (s.ini.ownValue sec key = none → (s.Get sec key).1 = ("", false)) ∧
    (∀ v, s.ini.ownValue sec key = some v → v.data.contains '%' = false →
      (s.Get sec key).1 = (TrimSpace v, true)) := by
  have h1 := Section_get s.ini sec hd
  have h2 := Section_ownValue s.ini sec sec key hd
  unfold Store.Get
  rcases hS : s.ini.Section sec with ⟨ini1, x⟩
  rw [hS] at h1 h2
  simp only [] at h1 h2 ⊢
  rw [GetKey_dotfree ini1 sec key x h1 hdot, ← h2]
  unfold IniFile.ownValue
  rw [h1]
  simp only [Option.some_bind]
  cases x.ownKey (ToLower key) with
  | none =>
    constructor
    · intro _; rfl
    · intro v hv; cases hv
  | some w =>
    constructor
    · intro hv; cases hv
    · intro v hv hp
      cases hv
      simp only [Option.map_some']
      unfold IniFile.KeyString
      simp only [hp, Bool.not_false, if_true]

theorem Set_ownValue (s : Store) (sec0 key0 v : String) (hd : s.HasSection "" = true)
    (hdot : '.' ∉ sec0.data) (hkey : key0 ≠ "") :
    ∃ t, s.Set sec0 key0 v = some t ∧ t.HasSection "" = true ∧ t.path = s.path ∧
      ∀ sec key, t.ini.ownValue sec key
        = if sectionKey sec = sectionKey sec0 ∧ ToLower key = ToLower key0 then some v
          else s.ini.ownValue sec key := by
  have h1 := Section_get s.ini sec0 hd
  have h2 := fun sec key => Section_ownValue s.ini sec0 sec key hd
  have h3 := Section_mono s.ini sec0 "" hd
  unfold Store.Set
  rcases hS : s.ini.Section sec0 with ⟨ini1, x⟩
  rw [hS] at h1 h3
  simp only [hS] at h2
  simp only [] at h1 h3 ⊢
  have hxn : x.name = sectionKey sec0 := GetSection_name ini1 sec0 x h1
  rw [GetKey_dotfree ini1 sec0 key0 x h1 hdot]
  cases ho : x.ownKey (ToLower key0) with
  | some w =>
    simp only [Option.map_some']
    have hg : ∀ y : IniSection,
        ({ y with keys := setFirstKey (ToLower key0) v y.keys } : IniSection).name = y.name :=
      fun _ => rfl
    refine ⟨_, rfl, ?_, rfl, ?_⟩
    · unfold Store.HasSection
      simp only []
      rw [GetSection_updateFirst _ _ hg]
      rw [Option.isSome_iff_exists] at h3
      obtain ⟨d, hdd⟩ := h3
      rw [hdd]; rfl
    · intro sec key
      rw [← h2 sec key]
      unfold IniFile.ownValue
      rw [GetSection_updateFirst _ _ hg]
      cases hq : ini1.GetSection sec with
      | none =>
        simp only [Option.map_none', Option.none_bind]
        split_ifs with hc
        · rw [GetSection_sectionKey ini1 sec sec0 hc.1, h1] at hq; cases hq
        · rfl
      | some y =>
        simp only [Option.map_some', Option.some_bind]
        have hyn : y.name = sectionKey sec := GetSection_name ini1 sec y hq
        unfold updSection
        by_cases hs : sectionKey sec = sectionKey sec0
        · have hb : (y.name == x.name) = true := by
            simp only [beq_iff_eq]; rw [hyn, hxn, hs]
          have hyx : y = x := by
            rw [GetSection_sectionKey ini1 sec sec0 hs, h1] at hq
            exact (Option.some.inj hq).symm
          simp only [hb, if_true]
          by_cases hk : ToLower key = ToLower key0
          · rw [hk, ownKey_setFirstKey, hyx, ho]
            simp only [Option.map_some', hs, and_self, if_true]
          · rw [ownKey_setFirstKey_other _ _ _ hk]
            simp only [Option.map_id, id, hk, and_false, if_false]
        · have hb : (y.name == x.name) = false := by
            simp only [beq_eq_false_iff_ne]; rw [hyn, hxn]; exact hs
          simp only [hb, Bool.false_eq_true, if_false, hs, false_and]
  | none =>
    simp only [Option.map_none', hkey, if_false]
    have hg : ∀ y : IniSection,
        ({ y with keys := y.keys ++ [(ToLower key0, v)] } : IniSection).name = y.name :=
      fun _ => rfl
    refine ⟨_, rfl, ?_, rfl, ?_⟩
    · unfold Store.HasSection
      simp only []
      rw [GetSection_updateFirst _ _ hg]
      rw [Option.isSome_iff_exists] at h3
      obtain ⟨d, hdd⟩ := h3
      rw [hdd]; rfl
    · intro sec key
      rw [← h2 sec key]
      unfold IniFile.ownValue
      rw [GetSection_updateFirst _ _ hg]
      cases hq : ini1.GetSection sec with
      | none =>
        simp only [Option.map_none', Option.none_bind]
        split_ifs with hc
        · rw [GetSection_sectionKey ini1 sec sec0 hc.1, h1] at hq; cases hq
        · rfl
      | some y =>
        simp only [Option.map_some', Option.some_bind]
        have hyn : y.name = sectionKey sec := GetSection_name ini1 sec y hq
        unfold updSection
        by_cases hs : sectionKey sec = sectionKey sec0
        · have hb : (y.name == x.name) = true := by
            simp only [beq_iff_eq]; rw [hyn, hxn, hs]
          have hyx : y = x := by
            rw [GetSection_sectionKey ini1 sec sec0 hs, h1] at hq
            exact (Option.some.inj hq).symm
          simp only [hb, if_true]
          by_cases hk : ToLower key = ToLower key0
          · rw [hk, hyx, ownKey_append_same _ _ _ ho]
            simp only [hs, and_self, if_true]
          · rw [ownKey_append_other _ _ _ hk]
            simp only [Option.map_id, id, hk, and_false, if_false]
        · have hb : (y.name == x.name) = false := by
            simp only [beq_eq_false_iff_ne]; rw [hyn, hxn]; exact hs
          simp only [hb, Bool.false_eq_true, if_false, hs, false_and]

/-! ## Frame and relational properties of `Resolve` and `DecideRefresh` -/

theorem resolveDuration_explicit (inp : Inputs) (env : Env)
    (hChanged : inp.DurationSecondsChanged = true) (hPos : 0 < inp.DurationSeconds) :
    resolveDuration inp env = .ok (toInt32 inp.DurationSeconds) := by
  unfold resolveDuration
  simp [hChanged, hPos]

/-- C26: with `DurationSecondsChanged` set and a positive `DurationSeconds`,
two environments that differ at most in `MFA_STS_DURATION` give the same
outcome of `Resolve`: the same error or the same configuration, and the same
store. -/
theorem C26_explicit_duration_beats_env (inp : Inputs) (env1 env2 : Env) (store : Store)
    (hChanged : inp.DurationSecondsChanged = true) (hPos : 0 < inp.DurationSeconds)
    (hSame : ∀ v, v ≠ "MFA_STS_DURATION" → env1 v = env2 v) :
    Resolve inp env1 store = Resolve inp env2 store := by
  have h1 : env1 "AWS_PROFILE" = env2 "AWS_PROFILE" := hSame _ (by decide)
  have h2 : env1 "MFA_DEVICE" = env2 "MFA_DEVICE" := hSame _ (by decide)
  unfold Resolve resolveProfile resolveDevice
  simp only [h1, h2, resolveDuration_explicit inp env1 hChanged hPos,
    resolveDuration_explicit inp env2 hChanged hPos]

/-- C26 at an explicit duration of 900 seconds, with `MFA_STS_DURATION=abc`
and without it. -/
theorem C26_explicit_duration_beats_env_witness :
    Resolve { testInputs with DurationSeconds := 900, DurationSecondsChanged := true }
        (envOf [("MFA_STS_DURATION", "abc")]) testStore
      = Resolve { testInputs with DurationSeconds := 900, DurationSecondsChanged := true }
        (envOf []) testStore :=
  C26_explicit_duration_beats_env
    { testInputs with DurationSeconds := 900, DurationSecondsChanged := true }
    (envOf [("MFA_STS_DURATION", "abc")]) (envOf []) testStore rfl (by decide)
    (fun v hv => by
      have : ("MFA_STS_DURATION" == v) = false := by
        simp only [beq_eq_false_iff_ne]; exact fun c => hv c.symm
      simp [envOf, this])

/-- C27: when `DecideRefresh` without `force` asks for a refresh at an instant,
it asks for one at every later instant, on the same store and section. -/
theorem C27_refresh_monotone_in_time (now later : Time) (store : Store) (sec : String)
    (hle : now.nanos ≤ later.nanos)
    (h : (DecideRefresh now store sec false).1.ShouldRefresh = true) :
    (DecideRefresh later store sec false).1.ShouldRefresh = true := by
  by_cases hs : store.HasSection sec = true
  · rw [(DecideRefresh_present now store sec hs).1] at h
    rw [(DecideRefresh_present later store sec hs).1]
    split_ifs at h ⊢ with hk
    · rfl
    · cases hp : ParseExpiration (store.Get sec "expiration").1.1 with
      | error e => rfl
      | ok exp =>
        rw [hp] at h
        simp only [] at h ⊢
        by_cases he : exp.Sub now ≤ 0
        · have he2 : exp.Sub later ≤ 0 := by
            rw [Time_Sub_nonpos_iff] at he ⊢
            omega
          rw [if_pos he2]
        · rw [if_neg he] at h
          cases h
  · have hs2 : store.HasSection sec = false := by simpa using hs
    unfold DecideRefresh
    simp [hs2]

/-- C27 at the store of `TestDecideRefresh_StillValid`, which expires at
11:00:00: a refresh is needed at 11:00:00 and at 12:00:00. -/
theorem C27_refresh_monotone_in_time_witness :
    (DecideRefresh (Date 2026 2 9 12 0 0 0) validStore "default" false).1.ShouldRefresh
      = true :=
  C27_refresh_monotone_in_time (Date 2026 2 9 11 0 0 0) (Date 2026 2 9 12 0 0 0) validStore
    "default" (by decide) (by decide)

/-- C28 fails on the code: for the profile `a` with the long-term suffix `X`
and the short-term suffix `x`, `ComputeSectionNames` succeeds with the names
`a-X` and `a-x`, which are equal once lower-cased; the store finds the same
section under both, and a `Set` under the short-term name replaces the value
read under the long-term name. -/
theorem C28_names_collide :
    ComputeSectionNames "a" "X" "x" = .ok { LongTerm := "a-X", ShortTerm := "a-x" } ∧
    ToLower "a-X" = ToLower "a-x" ∧
    collisionFile.GetSection "a-X" = collisionFile.GetSection "a-x" ∧
    Store.rawValue ⟨"credentials", collisionFile⟩ "a-X" "aws_access_key_id"
      = some "AKIA_LT" ∧
    ((Store.Set ⟨"credentials", collisionFile⟩ "a-x" "aws_access_key_id" "ASIA_ST").bind
      fun s => s.rawValue "a-X" "aws_access_key_id") = some "ASIA_ST" := by
  decide

theorem absentOrEmpty_congr (s1 s2 : Store) (sec k : String)
    (h : (s1.Get sec k).1 = (s2.Get sec k).1) :
    absentOrEmpty s1 sec k ↔ absentOrEmpty s2 sec k := by
  unfold absentOrEmpty
  rw [h]

/-- The decision of `DecideRefresh` is the same on two stores in which the
section exists or not alike and, when it exists, `Get` answers alike for the
five required keys. -/
theorem DecideRefresh_congr (now : Time) (force : Bool) (sec : String)
    (s1 s2 : Store) (hSec : s1.HasSection sec = s2.HasSection sec)
    (hKeys : s1.HasSection sec = true →
      ∀ k ∈ shortTermRequiredKeys, (s1.Get sec k).1 = (s2.Get sec k).1)
    (hDefault : s1.HasSection "" = true) :
    (DecideRefresh now s1 sec force).1 = (DecideRefresh now s2 sec force).1 ∧
    (DecideRefresh now s1 sec force).2 = s1 := by
  refine ⟨?_, DecideRefresh_unchanged now s1 sec force hDefault⟩
  cases force with
  | true => rfl
  | false =>
    by_cases hs : s1.HasSection sec = true
    · have hs2 : s2.HasSection sec = true := by rw [← hSec]; exact hs
      rw [(DecideRefresh_present now s1 sec hs).1, (DecideRefresh_present now s2 sec hs2).1]
      have hiff : (∃ k ∈ shortTermRequiredKeys, absentOrEmpty s1 sec k) ↔
          (∃ k ∈ shortTermRequiredKeys, absentOrEmpty s2 sec k) := by
        constructor
        · rintro ⟨k, hk, ha⟩
          exact ⟨k, hk, (absentOrEmpty_congr s1 s2 sec k (hKeys hs k hk)).mp ha⟩
        · rintro ⟨k, hk, ha⟩
          exact ⟨k, hk, (absentOrEmpty_congr s1 s2 sec k (hKeys hs k hk)).mpr ha⟩
      have hexp : (s1.Get sec "expiration").1 = (s2.Get sec "expiration").1 :=
        hKeys hs "expiration" (by decide)
      rw [hexp]
      by_cases hc : ∃ k ∈ shortTermRequiredKeys, absentOrEmpty s1 sec k
      · rw [if_pos hc, if_pos (hiff.mp hc)]
      · rw [if_neg hc, if_neg (fun c => hc (hiff.mpr c))]
    · have h1 : s1.HasSection sec = false := by simpa using hs
      have h2 : s2.HasSection sec = false := by rw [← hSec]; exact h1
      unfold DecideRefresh
      simp [h1, h2]

/-! ## `MustGet` and the long-term keys in `Run` -/

theorem Get_Section_same (s : Store) (n k : String) (hd : s.HasSection "" = true) :
    (s.Section n).Get n k = s.Get n k := by
  have h := Section_of_GetSection _ _ _ (Section_get s.ini n hd)
  unfold Store.Get Store.Section
  simp only [h]

theorem MustGet_spec (s : Store) (sec key : String) :
    (s.MustGet sec key).1 =
      (if absentOrEmpty s sec key then .error (.missingKey key sec)
       else .ok (s.Get sec key).1.1) ∧
    (s.MustGet sec key).2 = (s.Get sec key).2 := by
  constructor
  · by_cases h : absentOrEmpty s sec key
    · rw [if_pos h]
      unfold absentOrEmpty at h
      unfold Store.MustGet
      rcases hg : s.Get sec key with ⟨⟨v, ok⟩, s1⟩
      rw [hg] at h
      simp only [] at h ⊢
      rcases h with h | h <;> simp [h]
    · rw [if_neg h]
      unfold absentOrEmpty at h
      unfold Store.MustGet
      rcases hg : s.Get sec key with ⟨⟨v, ok⟩, s1⟩
      rw [hg] at h
      simp only [not_or] at h ⊢
      have h1 : ok = true := by simpa using h.1
      simp [h1, h.2]
  · unfold Store.MustGet
    rcases s.Get sec key with ⟨⟨v, ok⟩, s1⟩
    simp only []
    split_ifs <;> rfl

theorem MustGet_Section (s : Store) (n k : String) (hd : s.HasSection "" = true) :
    (s.Section n).MustGet n k = s.MustGet n k := by
  unfold Store.MustGet
  rw [Get_Section_same s n k hd]

theorem MustGet_store (s : Store) (n k : String) (hd : s.HasSection "" = true) :
    (s.MustGet n k).2 = s.Section n := by
  rw [(MustGet_spec s n k).2, Get_store s n k hd]

theorem Resolve_store (inp : Inputs) (env : Env) (store : Store) (r : Resolved)
    (hd : store.HasSection "" = true) (h : (Resolve inp env store).1 = .ok r) :
    (Resolve inp env store).2 = store ∨
      (Resolve inp env store).2 = store.Section r.LongTermSection := by
  rcases (Resolve_ok_more inp env store r h).2.2 with e | e
  · exact Or.inl e
  · rw [Get_store store _ _ hd] at e
    exact Or.inr e

/-- When `Get` finds no non-empty `aws_access_key_id` or `aws_secret_access_key`
for the long-term section, `Run` returns an error, calls neither the STS
factory nor the Session Exchanger, replaces no file, and has printed nothing
but the profile line. -/
theorem Run_longTerm_missing (inp : RunInputs) (deps : Deps) (sys : Sys) (env : Env)
    (store : Store) (r : Resolved)
    (hEnv : deps.Env = some env)
    (hLoad : Load (ExpandHome sys.os inp.Inputs.CredentialsFile)
      (sys.probe (ExpandHome sys.os inp.Inputs.CredentialsFile)) = .ok store)
    (hDefault : store.HasSection "" = true)
    (hResolve : (Resolve inp.Inputs env store).1 = .ok r)
    (hLack : absentOrEmpty store r.LongTermSection "aws_access_key_id" ∨
      absentOrEmpty store r.LongTermSection "aws_secret_access_key") :
    (Run inp deps sys).err ≠ none ∧ (Run inp deps sys).factoryCalls = [] ∧
    (Run inp deps sys).exchangeCalls = [] ∧ (Run inp deps sys).saved = none ∧
    (∀ m ∈ (Run inp deps sys).printed, m = .usingProfile r.ShortTermSection) := by
  -- the two `MustGet` of `Run` answer as on the store loaded
  have hM : ∀ (s1 : Store) (k : String),
      (s1 = store ∨ s1 = store.Section r.LongTermSection) →
      s1.MustGet r.LongTermSection k =
        ((store.MustGet r.LongTermSection k).1, store.Section r.LongTermSection) := by
    intro s1 k hs1
    rcases hs1 with e | e
    · rw [e]
      exact Prod.ext rfl (MustGet_store store _ k hDefault)
    · rw [e, MustGet_Section store _ k hDefault]
      exact Prod.ext rfl (MustGet_store store _ k hDefault)
  have hpair : Resolve inp.Inputs env store = (.ok r, (Resolve inp.Inputs env store).2) :=
    Prod.ext hResolve rfl
  have hs1 := Resolve_store inp.Inputs env store r hDefault hResolve
  unfold Run runUntilDecision
  cases hN : deps.Now with
  | none => simp [hEnv]
  | some now0 =>
    cases hF : deps.STSFactory with
    | none => simp [hEnv]
    | some factory =>
      simp only [hEnv]
      rw [hLoad]
      simp only []
      rw [hpair]
      simp only []
      rw [hM _ "aws_access_key_id" hs1]
      by_cases h1 : absentOrEmpty store r.LongTermSection "aws_access_key_id"
      · rw [(MustGet_spec store r.LongTermSection "aws_access_key_id").1, if_pos h1]
        simp
      · rw [(MustGet_spec store r.LongTermSection "aws_access_key_id").1, if_neg h1]
        simp only []
        rw [hM _ "aws_secret_access_key" (Or.inr rfl)]
        have h2 : absentOrEmpty store r.LongTermSection "aws_secret_access_key" := by
          rcases hLack with c | c
          · exact absurd c h1
          · exact c
        rw [(MustGet_spec store r.LongTermSection "aws_secret_access_key").1, if_pos h2]
        simp

/-! ## `SaveAtomic` on a file system -/

theorem Files_put_same (fs : Files) (p : String) (d : Option FileData) :
    fs.put p d p = d := by
  unfold Files.put
  simp

theorem Files_put_other (fs : Files) (p q : String) (d : Option FileData) (h : q ≠ p) :
    fs.put p d q = fs q := by
  unfold Files.put
  simp [h]

/-- C21: when `SaveAtomic` returns an error, the file at the path of the store
is what it was before, or still absent; when it returns none, the file at the
path holds the serialization of the store, the temporary name being another
name than the path; and it returns an error whenever a step fails, and none
when no step fails and the temporary name is free. -/
theorem C21_save_atomic (s : Store) (serialize : IniFile → String) (os : SaveEnv)
    (fs : Files) :
    ((s.SaveAtomicOn serialize os fs).1 ≠ none →
      (s.SaveAtomicOn serialize os fs).2 s.path = fs s.path) ∧
    ((s.SaveAtomicOn serialize os fs).1 = none → os.tempName ≠ s.path →
      ((s.SaveAtomicOn serialize os fs).2 s.path).map (fun d => d.content)
        = some (serialize s.ini)) ∧
    (os.failure ≠ none → (s.SaveAtomicOn serialize os fs).1 ≠ none) ∧
    (os.failure = none → fs os.tempName = none → (s.SaveAtomicOn serialize os fs).1 = none) := by
  have hput : ∀ (g : Files), fs os.tempName = none →
      (∀ q, q ≠ os.tempName → g q = fs q) → (g.put os.tempName none) s.path = fs s.path := by
    intro g ht hg
    by_cases hp : s.path = os.tempName
    · rw [hp, Files_put_same, ht]
    · rw [Files_put_other _ _ _ _ hp, hg _ hp]
  unfold Store.SaveAtomicOn
  simp only []
  refine ⟨?_, ?_, ?_, ?_⟩
  · intro herr
    split_ifs at herr ⊢ with h1 h2 h3 h4 h5 h6
    · rfl
    · rfl
    all_goals
      have ht : fs os.tempName = none := by
        cases hx : fs os.tempName with
        | none => rfl
        | some d => exact absurd (Or.inr (by rw [hx]; rfl)) h2
    · exact hput _ ht (fun q hq => Files_put_other _ _ _ _ hq)
    · exact hput _ ht (fun q hq => by
        rw [Files_put_other _ _ _ _ hq, Files_put_other _ _ _ _ hq, Files_put_other _ _ _ _ hq])
    · exact hput _ ht (fun q hq => by
        rw [Files_put_other _ _ _ _ hq, Files_put_other _ _ _ _ hq, Files_put_other _ _ _ _ hq])
    · exact hput _ ht (fun q hq => by
        rw [Files_put_other _ _ _ _ hq, Files_put_other _ _ _ _ hq, Files_put_other _ _ _ _ hq])
    · exact absurd rfl herr
  · intro hok hne
    split_ifs at hok ⊢ with h1 h2 h3 h4 h5 h6
    simp [Files.put, Ne.symm hne]
  · intro hf
    cases hx : os.failure with
    | none => exact absurd hx hf
    | some step =>
      cases step <;> simp <;> split_ifs <;> simp
  · intro hf ht
    simp [hf, ht]

/-- C21 on a file system whose credentials file holds `old`: a write that
fails after three bytes leaves `old`, and a save without failure leaves the
serialization of the store. -/
theorem C21_save_atomic_witness :
    (testStore.SaveAtomicOn testSerialize ⟨some .write, "credentials-1.tmp", 3⟩ testFiles).2
        "credentials" = testFiles "credentials" ∧
    ((testStore.SaveAtomicOn testSerialize ⟨none, "credentials-1.tmp", 0⟩ testFiles).2
        "credentials").map (fun d => d.content) = some (testSerialize testStore.ini) :=
  ⟨(C21_save_atomic testStore testSerialize ⟨some .write, "credentials-1.tmp", 3⟩ testFiles).1
      (by decide),
   (C21_save_atomic testStore testSerialize ⟨none, "credentials-1.tmp", 0⟩ testFiles).2.1
      (by decide) (by decide)⟩

/-! ## `Set` followed by `Get` -/

theorem SaveAtomicOn_error (s : Store) (serialize : IniFile → String) (os : SaveEnv)
    (fs : Files) (ht : fs os.tempName = none) :
    (s.SaveAtomicOn serialize os fs).1 = (s.SaveAtomic os.failure).1 := by
  unfold Store.SaveAtomicOn Store.SaveAtomic
  cases hx : os.failure with
  | none => simp [ht]
  | some step => cases step <;> simp [ht]

theorem ownValue_isSome (f : IniFile) (sec key v : String) (h : f.ownValue sec key = some v) :
    (f.GetSection sec).isSome = true := by
  unfold IniFile.ownValue at h
  cases hg : f.GetSection sec with
  | none => rw [hg] at h; cases h
  | some x => rfl

theorem contains_percent (v : String) (h : '%' ∉ v.data) : v.data.contains '%' = false := by
  simpa using h

/-- C22, amended: on a store that has its default section, for a section name
without a dot, a non-empty key and a value, `Set` returns, the section exists
afterwards, `Get` of the section and key returns the trimmed value and `true`
when the value has no percent sign, and `Get` of every other place (a section
without a dot and a key, compared as the store compares names: lower-cased as
`strings.ToLower` does, the empty section name standing for the default
section) whose own value has no percent sign returns what it returned before;
and `Get` of a section without a dot returns the empty string and `false` when
the section is absent or does not hold the key. -/
theorem C22_set_then_get (s : Store) (sec key v : String)
    (hDefault : s.HasSection "" = true) (hDot : '.' ∉ sec.data) (hKey : key ≠ "") :
    (∃ t, s.Set sec key v = some t ∧ t.HasSection sec = true ∧
      ('%' ∉ v.data → (t.Get sec key).1 = (TrimSpace v, true)) ∧
      (∀ sec2 key2, '.' ∉ sec2.data →
        ¬ (sectionKey sec2 = sectionKey sec ∧ ToLower key2 = ToLower key) →
        (∀ w, s.ini.ownValue sec2 key2 = some w → '%' ∉ w.data) →
        (t.Get sec2 key2).1 = (s.Get sec2 key2).1)) ∧
    (∀ sec2 key2, '.' ∉ sec2.data → s.ini.ownValue sec2 key2 = none →
      (s.Get sec2 key2).1 = ("", false)) := by
  obtain ⟨t, ht, hdt, _, hv⟩ := Set_ownValue s sec key v hDefault hDot hKey
  have hself : t.ini.ownValue sec key = some v := by
    rw [hv sec key]
    simp
  refine ⟨⟨t, ht, ownValue_isSome _ _ _ _ hself, ?_, ?_⟩, ?_⟩
  · intro hp
    exact (Get_ownValue t sec key hdt hDot).2 v hself (contains_percent v hp)
  · intro sec2 key2 hdot2 hother hw
    have ho : t.ini.ownValue sec2 key2 = s.ini.ownValue sec2 key2 := by
      rw [hv sec2 key2, if_neg hother]
    cases hs : s.ini.ownValue sec2 key2 with
    | none =>
      rw [(Get_ownValue t sec2 key2 hdt hdot2).1 (by rw [ho, hs]),
        (Get_ownValue s sec2 key2 hDefault hdot2).1 hs]
    | some w =>
      have hp := contains_percent w (hw w hs)
      rw [(Get_ownValue t sec2 key2 hdt hdot2).2 w (by rw [ho, hs]) hp,
        (Get_ownValue s sec2 key2 hDefault hdot2).2 w hs hp]
  · intro sec2 key2 hdot2 hnone
    exact (Get_ownValue s sec2 key2 hDefault hdot2).1 hnone

/-- C22 at the store of `TestResolve_DevicePrecedence`: a value set with
surrounding whitespace comes back trimmed, the device of the long-term section
is what it was, and a key that the section does not hold is not found. -/
theorem C22_set_then_get_witness :
    (∃ t, testStore.Set "default" "aws_access_key_id" " ASIA_TEST " = some t ∧
      t.HasSection "default" = true ∧
      ('%' ∉ " ASIA_TEST ".data →
        (t.Get "default" "aws_access_key_id").1 = (TrimSpace " ASIA_TEST ", true)) ∧
      (∀ sec2 key2, '.' ∉ sec2.data →
        ¬ (sectionKey sec2 = sectionKey "default" ∧
            ToLower key2 = ToLower "aws_access_key_id") →
        (∀ w, testStore.ini.ownValue sec2 key2 = some w → '%' ∉ w.data) →
        (t.Get sec2 key2).1 = (testStore.Get sec2 key2).1)) ∧
    (testStore.Get "default" "expiration").1 = ("", false) :=
  ⟨(C22_set_then_get testStore "default" "aws_access_key_id" " ASIA_TEST " (by decide)
      (by decide) (by decide)).1,
   (C22_set_then_get testStore "default" "aws_access_key_id" " ASIA_TEST " (by decide)
      (by decide) (by decide)).2 "default" "expiration" (by decide) (by decide)⟩

/-- C22, as stated, fails: a `Set` with an empty key panics; a value
`%(k)s` comes back as the value of the key `k`; a `Set` in the section `a.b`
of a key that its parent `a` holds replaces the value in `a`; a `Set` in `a`
makes the key found in `a.b`; a `Set` of `k` changes what `Get` returns for a
key whose value is `%(k)s`; a `Set` of `K` changes what `Get` returns for `k`,
and a `Set` in the section `É` what `Get` returns in the section `é`; and `Get`
finds in the absent section `a.b` a key of the section `a`. -/
theorem C22_counterexample :
    freshStore.Set "s" "" "v" = none ∧
    setThenGet parentStore "a" "j" "%(k)s" "a" "j" = some ("v1", true) ∧
    ((parentStore.Get "a" "k").1 = ("v1", true) ∧
      setThenGet parentStore "a.b" "k" "v2" "a" "k" = some ("v2", true)) ∧
    ((freshStore.Get "a.b" "k").1 = ("", false) ∧
      setThenGet freshStore "a" "k" "v" "a.b" "k" = some ("v", true)) ∧
    ((referringStore.Get "s" "j").1 = ("v1", true) ∧
      setThenGet referringStore "s" "k" "v2" "s" "j" = some ("v2", true)) ∧
    ((freshStore.Get "s" "k").1 = ("", false) ∧
      setThenGet freshStore "s" "K" "v" "s" "k" = some ("v", true)) ∧
    ((freshStore.Get "é" "k").1 = ("", false) ∧
      setThenGet freshStore "É" "k" "v" "é" "k" = some ("v", true)) ∧
    (parentStore.HasSection "a.b" = false ∧ (parentStore.Get "a.b" "k").1 = ("v1", true)) := by
  decide

/-! ## The lookup of a key along the parents of a section -/

theorem cutLastDot_length (l p : List Char) (h : cutLastDot l = some p) :
    p.length < l.length := by
  unfold cutLastDot at h
  cases hd : l.reverse.dropWhile (fun c => c != '.') with
  | nil => rw [hd] at h; cases h
  | cons a before =>
    rw [hd] at h
    simp only [Option.some.injEq] at h
    subst h
    have h1 := (List.dropWhile_sublist (fun c => c != '.') (l := l.reverse)).length_le
    rw [hd] at h1
    simp only [List.length_cons, List.length_reverse] at h1 ⊢
    omega

theorem parentNames_succ (n : Nat) (l : List Char) :
    parentNames (n + 1) l =
      match cutLastDot l with
      | none => []
      | some p => ⟨p⟩ :: parentNames n p := rfl

theorem parentNames_fuel : ∀ (n m : Nat) (l : List Char), l.length ≤ n → l.length ≤ m →
    parentNames n l = parentNames m l := by
  intro n
  induction n with
  | zero =>
    intro m l hn _
    have hl : l = [] := List.eq_nil_of_length_eq_zero (by omega)
    subst hl
    cases m with
    | zero => rfl
    | succ k => rfl
  | succ k ih =>
    intro m l hn hm
    cases m with
    | zero =>
      have hl : l = [] := List.eq_nil_of_length_eq_zero (by omega)
      subst hl
      rfl
    | succ j =>
      rw [parentNames_succ, parentNames_succ]
      cases hc : cutLastDot l with
      | none => rfl
      | some p =>
        have := cutLastDot_length l p hc
        simp only []
        rw [ih j p (by omega) (by omega)]

theorem parentChain_none (l : List Char) (h : cutLastDot l = none) : parentChain l = [] := by
  unfold parentChain
  cases hl : l.length with
  | zero => rfl
  | succ k => rw [parentNames_succ, h]

theorem parentChain_some (l p : List Char) (h : cutLastDot l = some p) :
    parentChain l = ⟨p⟩ :: parentChain p := by
  have hlt := cutLastDot_length l p h
  unfold parentChain
  cases hl : l.length with
  | zero => omega
  | succ k =>
    rw [parentNames_succ, h]
    simp only []
    rw [parentNames_fuel k p.length p (by omega) (le_refl _)]

theorem parentChain_length : ∀ (n : Nat) (l : List Char), l.length ≤ n →
    (parentChain l).length ≤ l.length := by
  intro n
  induction n with
  | zero =>
    intro l hl
    have : l = [] := List.eq_nil_of_length_eq_zero (by omega)
    subst this
    decide
  | succ k ih =>
    intro l hl
    cases hc : cutLastDot l with
    | none => rw [parentChain_none l hc]; simp
    | some p =>
      have := cutLastDot_length l p hc
      rw [parentChain_some l p hc]
      have := ih p (by omega)
      simp only [List.length_cons]
      omega

theorem cutLastDot_map (l : List Char) :
    cutLastDot (l.map unicodeToLower) = (cutLastDot l).map (List.map unicodeToLower) := by
  unfold cutLastDot
  rw [← List.map_reverse, List.dropWhile_map]
  have : ((fun c => c != '.') ∘ unicodeToLower) = (fun c => c != '.') := by
    funext c
    exact unicodeToLower_dot c
  rw [this]
  cases l.reverse.dropWhile (fun c => c != '.') with
  | nil => rfl
  | cons a before => simp

theorem parentChain_map : ∀ (n : Nat) (l : List Char), l.length ≤ n →
    parentChain (l.map unicodeToLower) = (parentChain l).map ToLower := by
  intro n
  induction n with
  | zero =>
    intro l hl
    have : l = [] := List.eq_nil_of_length_eq_zero (by omega)
    subst this
    rfl
  | succ k ih =>
    intro l hl
    cases hc : cutLastDot l with
    | none =>
      rw [parentChain_none l hc, parentChain_none _ (by rw [cutLastDot_map, hc]; rfl)]
      rfl
    | some p =>
      have := cutLastDot_length l p hc
      rw [parentChain_some l p hc,
        parentChain_some _ (p.map unicodeToLower) (by rw [cutLastDot_map, hc]; rfl),
        ih p (by omega)]
      rfl

theorem GetSection_ToLower (f : IniFile) (p : String) :
    f.GetSection (ToLower p) = f.GetSection p := by
  unfold IniFile.GetSection
  by_cases h : p = ""
  · subst h; rfl
  · have h2 : ToLower p ≠ "" := by
      intro c
      apply h
      have := congrArg String.data c
      unfold ToLower at this
      simp only [List.map_eq_nil_iff] at this
      exact String.ext this
    simp only [h, h2, if_false, ToLower_idem]

theorem walk_map_ToLower (f : IniFile) (lname : String) : ∀ ps : List String,
    f.walk lname (ps.map ToLower) = f.walk lname ps := by
  intro ps
  induction ps with
  | nil => rfl
  | cons p rest ih =>
    simp only [List.map_cons]
    unfold IniFile.walk
    rw [GetSection_ToLower, ih]

theorem walk_cons (f : IniFile) (lname p : String) (ps : List String) :
    f.walk lname (p :: ps) =
      match f.GetSection p with
      | none => f.walk lname ps
      | some x =>
        match x.ownKey lname with
        | some v => some ⟨x, lname, v⟩
        | none => f.walk lname ps := rfl

theorem chain_of_section (f : IniFile) (p : List Char) (x : IniSection) (lname : String)
    (hx : f.GetSection ⟨p⟩ = some x) :
    f.walk lname (parentChain x.name.data) = f.walk lname (parentChain p) ∧
    (parentChain x.name.data).length = (parentChain p).length := by
  have hn := GetSection_name f ⟨p⟩ x hx
  cases p with
  | nil =>
    have e : x.name = ToLower DefaultSection := hn
    rw [e]
    have e1 : parentChain (ToLower DefaultSection).data = [] := by decide
    have e2 : parentChain [] = [] := by decide
    rw [e1, e2]
    exact ⟨rfl, rfl⟩
  | cons c rest =>
    have hne : (⟨c :: rest⟩ : String) ≠ "" := by
      intro h
      have := congrArg String.data h
      cases this
    have e : x.name = ToLower ⟨c :: rest⟩ := by
      rw [hn]; unfold sectionKey; rw [if_neg hne]
    have e1 : x.name.data = (c :: rest).map unicodeToLower := by rw [e]; rfl
    rw [e1, parentChain_map _ (c :: rest) (le_refl _), walk_map_ToLower, List.length_map]
    exact ⟨rfl, rfl⟩

/-- The bound of `Section.GetKey` is never reached: with more fuel than the
section has parents, the lookup is the own key of the section, or else the
walk along its parents. -/
theorem GetKeyAux_walk (f : IniFile) : ∀ (fuel : Nat) (sec : IniSection) (name : String),
    (parentChain sec.name.data).length < fuel →
    f.GetKeyAux fuel sec name =
      match sec.ownKey (ToLower name) with
      | some v => some ⟨sec, ToLower name, v⟩
      | none => f.walk (ToLower name) (parentChain sec.name.data) := by
  intro fuel
  induction fuel with
  | zero => intro sec name h; omega
  | succ n ih =>
    intro sec name hlen
    have inner : ∀ (m : Nat) (l : List Char), l.length ≤ m → (parentChain l).length ≤ n →
        (match (parentChain l).findSome? (fun p => f.GetSection p) with
          | none => none
          | some parent => f.GetKeyAux n parent (ToLower name))
          = f.walk (ToLower name) (parentChain l) := by
      intro m
      induction m with
      | zero =>
        intro l hl _
        have : l = [] := List.eq_nil_of_length_eq_zero (by omega)
        subst this
        rfl
      | succ k ihm =>
        intro l hl hch
        cases hc : cutLastDot l with
        | none => rw [parentChain_none l hc]; rfl
        | some p =>
          have hlt := cutLastDot_length l p hc
          rw [parentChain_some l p hc] at hch ⊢
          simp only [List.length_cons] at hch
          rw [List.findSome?_cons, walk_cons]
          cases hx : f.GetSection ⟨p⟩ with
          | none =>
            simp only []
            exact ihm p (by omega) (by omega)
          | some x =>
            simp only []
            obtain ⟨w1, w2⟩ := chain_of_section f p x (ToLower name) hx
            rw [ih x (ToLower name) (by omega), ToLower_idem, w1]
    unfold IniFile.GetKeyAux
    simp only []
    cases sec.ownKey (ToLower name) with
    | some v => rfl
    | none =>
      simp only []
      exact inner sec.name.length sec.name.data (le_refl _) (by omega)

theorem GetKey_walk (f : IniFile) (sec : IniSection) (name : String) :
    f.GetKey sec name =
      match sec.ownKey (ToLower name) with
      | some v => some ⟨sec, ToLower name, v⟩
      | none => f.walk (ToLower name) (parentChain sec.name.data) := by
  unfold IniFile.GetKey
  apply GetKeyAux_walk
  have := parentChain_length sec.name.data.length sec.name.data (le_refl _)
  have e : sec.name.length = sec.name.data.length := rfl
  omega

theorem walk_sameUpToEmpty (f g : IniFile) (h : f.sameUpToEmpty g) (lname : String) :
    ∀ ps : List String, g.walk lname ps = f.walk lname ps := by
  intro ps
  induction ps with
  | nil => rfl
  | cons p rest ih =>
    rw [walk_cons, walk_cons, ih]
    rcases h p with e | ⟨e1, e2⟩
    · rw [e]
    · rw [e1, e2]
      rfl

theorem GetKey_sameUpToEmpty (f g : IniFile) (h : f.sameUpToEmpty g) (sec : IniSection)
    (name : String) : g.GetKey sec name = f.GetKey sec name := by
  rw [GetKey_walk, GetKey_walk, walk_sameUpToEmpty f g h]

/-! ## Files that differ by empty sections -/

theorem sameUpToEmpty_refl (f : IniFile) : f.sameUpToEmpty f := fun _ => Or.inl rfl

theorem Section_cases (f : IniFile) (n : String) (hd : (f.GetSection "").isSome = true) :
    (∃ x, f.GetSection n = some x ∧ f.Section n = (f, x)) ∨
    (f.GetSection n = none ∧
      f.Section n = (⟨f.sections ++ [⟨sectionKey n, []⟩]⟩, ⟨sectionKey n, []⟩)) := by
  cases hg : f.GetSection n with
  | some x => exact Or.inl ⟨x, rfl, Section_of_GetSection f n x hg⟩
  | none =>
    refine Or.inr ⟨rfl, ?_⟩
    unfold IniFile.Section
    rw [hg]
    simp only []
    by_cases h0 : n = ""
    · rw [h0] at hg; rw [hg] at hd; cases hd
    · by_cases h1 : n = DefaultSection
      · have : f.GetSection n = f.GetSection "" := by
          rw [h1]; unfold IniFile.GetSection; simp [DefaultSection]
        rw [this] at hg; rw [hg] at hd; cases hd
      · simp only [h0, if_false]
        unfold IniFile.NewSection
        simp only [ne_eq, h1, not_false_eq_true, if_true]
        have hf : f.sections.find? (fun s => s.name == ToLower n) = none := by
          unfold IniFile.GetSection at hg
          simpa [h0] using hg
        rw [hf]
        simp only [sectionKey, h0, if_false]

theorem GetSection_append (f : IniFile) (e m : String) :
    (⟨f.sections ++ [⟨e, []⟩]⟩ : IniFile).GetSection m =
      match f.GetSection m with
      | some y => some y
      | none => if e = sectionKey m then some ⟨e, []⟩ else none := by
  unfold IniFile.GetSection
  simp only [List.find?_append]
  cases f.sections.find?
      (fun s => s.name == ToLower (if m = "" then DefaultSection else m)) with
  | some y => rfl
  | none =>
    simp only [Option.none_or, List.find?_cons, List.find?_nil, sectionKey]
    by_cases h : e = ToLower (if m = "" then DefaultSection else m)
    · simp [h]
    · have hb : (e == ToLower (if m = "" then DefaultSection else m)) = false := by
        simpa using h
      simp [h, hb]

theorem sameUpToEmpty_default (f g : IniFile) (h : f.sameUpToEmpty g)
    (hd : (f.GetSection "").isSome = true) : g.GetSection "" = f.GetSection "" := by
  rcases h "" with e | ⟨e1, _⟩
  · exact e
  · rw [e1] at hd; cases hd

theorem appended_cases (f g : IniFile) (n m : String) (X : Option IniSection)
    (hX : X = match f.GetSection m with
      | some y => some y
      | none => if sectionKey n = sectionKey m then some ⟨sectionKey n, []⟩ else none)
    (hsame : f.GetSection m ≠ none → g.GetSection m = f.GetSection m)
    (hnew : f.GetSection m = none → sectionKey n = sectionKey m →
      g.GetSection m = some ⟨sectionKey n, []⟩)
    (hold : f.GetSection m = none → sectionKey n ≠ sectionKey m →
      g.GetSection m = none ∨ g.GetSection m = some ⟨sectionKey m, []⟩) :
    g.GetSection m = X ∨ (X = none ∧ g.GetSection m = some ⟨sectionKey m, []⟩) := by
  cases hm : f.GetSection m with
  | some z =>
    rw [hm] at hX
    left
    rw [hX, hsame (by rw [hm]; exact fun c => Option.noConfusion c), hm]
  | none =>
    rw [hm] at hX
    simp only [] at hX
    by_cases hk : sectionKey n = sectionKey m
    · rw [if_pos hk] at hX
      left
      rw [hX, hnew hm hk]
    · rw [if_neg hk] at hX
      rcases hold hm hk with e | e
      · exact Or.inl (by rw [hX, e])
      · exact Or.inr ⟨hX, e⟩

theorem Section_sameUpToEmpty (f g : IniFile) (n : String) (h : f.sameUpToEmpty g)
    (hd : (f.GetSection "").isSome = true) :
    (g.Section n).2 = (f.Section n).2 ∧ (f.Section n).1.sameUpToEmpty (g.Section n).1 := by
  have hdg : (g.GetSection "").isSome = true := by
    rw [sameUpToEmpty_default f g h hd]; exact hd
  have hsome : ∀ m, f.GetSection m ≠ none → g.GetSection m = f.GetSection m := by
    intro m hm
    rcases h m with e | ⟨e1, _⟩
    · exact e
    · exact absurd e1 hm
  rcases Section_cases f n hd with ⟨x, hx, hS⟩ | ⟨hx, hS⟩
  · have hgx : g.GetSection n = some x := by
      rw [hsome n (by rw [hx]; exact fun c => Option.noConfusion c), hx]
    rw [hS, Section_of_GetSection g n x hgx]
    exact ⟨rfl, h⟩
  · rw [hS]
    rcases Section_cases g n hdg with ⟨y, hy, hT⟩ | ⟨hy, hT⟩
    · have hye : y = ⟨sectionKey n, []⟩ := by
        rcases h n with e | ⟨_, e2⟩
        · rw [hx, hy] at e; cases e
        · rw [hy] at e2; exact Option.some.inj e2
      rw [hT]
      refine ⟨hye, ?_⟩
      intro m
      refine appended_cases f g n m _ (GetSection_append f (sectionKey n) m) (hsome m) ?_ ?_
      · intro _ hk
        rw [GetSection_sectionKey g m n hk.symm, hy, hye]
      · intro hm _
        rcases h m with e | ⟨_, e2⟩
        · exact Or.inl (by rw [e, hm])
        · exact Or.inr e2
    · rw [hT]
      refine ⟨rfl, ?_⟩
      intro m
      have hgm := GetSection_append g (sectionKey n) m
      refine appended_cases f _ n m _ (GetSection_append f (sectionKey n) m) ?_ ?_ ?_
      · intro hm
        rw [hgm, hsome m hm]
        cases hfm : f.GetSection m with
        | none => exact absurd hfm hm
        | some z => rfl
      · intro hm hk
        rw [hgm, GetSection_sectionKey g m n hk.symm, hy, if_pos hk]
      · intro hm hk
        rw [hgm, if_neg hk]
        rcases h m with e | ⟨_, e2⟩
        · exact Or.inl (by rw [e, hm])
        · exact Or.inr (by rw [e2])

theorem Section_self_sameUpToEmpty (f : IniFile) (n : String)
    (hd : (f.GetSection "").isSome = true) : f.sameUpToEmpty (f.Section n).1 := by
  rcases Section_cases f n hd with ⟨x, _, hS⟩ | ⟨_, hS⟩
  · rw [hS]; exact sameUpToEmpty_refl f
  · rw [hS]
    intro m
    change (⟨f.sections ++ [⟨sectionKey n, []⟩]⟩ : IniFile).GetSection m = f.GetSection m ∨
      (f.GetSection m = none ∧
        (⟨f.sections ++ [⟨sectionKey n, []⟩]⟩ : IniFile).GetSection m
          = some ⟨sectionKey m, []⟩)
    rw [GetSection_append]
    cases hm : f.GetSection m with
    | some z => exact Or.inl rfl
    | none =>
      by_cases hk : sectionKey n = sectionKey m
      · right
        refine ⟨rfl, ?_⟩
        show (if sectionKey n = sectionKey m then some _ else none) = _
        rw [if_pos hk, hk]
      · left
        show (if sectionKey n = sectionKey m then some _ else none) = _
        rw [if_neg hk]

theorem transformLoop_sameUpToEmpty (k : KeyRef) (f g : IniFile) (h : f.sameUpToEmpty g)
    (hd : (f.GetSection "").isSome = true) : ∀ (depth : Nat) (val : String),
    (IniFile.transformLoop k depth g val).2 = (IniFile.transformLoop k depth f val).2 := by
  have hdg : g.GetSection "" = f.GetSection "" := sameUpToEmpty_default f g h hd
  obtain ⟨d, hfd⟩ := Option.isSome_iff_exists.mp hd
  have hSf : f.Section "" = (f, d) := Section_of_GetSection f "" d hfd
  have hSg : g.Section "" = (g, d) := Section_of_GetSection g "" d (by rw [hdg, hfd])
  intro depth
  induction depth with
  | zero => intro val; rfl
  | succ n ih =>
    intro val
    unfold IniFile.transformLoop
    cases findVar val.data with
    | none => rfl
    | some noption =>
      simp only [hSf, hSg, GetKey_sameUpToEmpty f g h]
      cases f.GetKey k.owner ⟨noption⟩ with
      | none =>
        simp only []
        cases f.GetKey d ⟨noption⟩ with
        | none => rfl
        | some nk => exact ih _
      | some nk =>
        simp only []
        split_ifs
        · cases f.GetKey d ⟨noption⟩ with
          | none => rfl
          | some nk2 => exact ih _
        · exact ih _

theorem KeyString_sameUpToEmpty (k : KeyRef) (f g : IniFile) (h : f.sameUpToEmpty g)
    (hd : (f.GetSection "").isSome = true) : (g.KeyString k).2 = (f.KeyString k).2 := by
  unfold IniFile.KeyString
  split_ifs
  · rfl
  · exact transformLoop_sameUpToEmpty k f g h hd depthValues k.value

theorem Get_sameUpToEmpty (s t : Store) (h : s.ini.sameUpToEmpty t.ini)
    (hd : s.HasSection "" = true) (n k : String) : (t.Get n k).1 = (s.Get n k).1 := by
  obtain ⟨h1, h2⟩ := Section_sameUpToEmpty s.ini t.ini n h hd
  have h3 := Section_mono s.ini n "" hd
  unfold Store.Get
  rcases hS : s.ini.Section n with ⟨f1, x⟩
  rcases hT : t.ini.Section n with ⟨g1, y⟩
  rw [hS, hT] at h1 h2
  rw [hS] at h3
  simp only [] at h1 h2 h3 ⊢
  subst h1
  rw [GetKey_sameUpToEmpty f1 g1 h2]
  cases f1.GetKey y k with
  | none => rfl
  | some key =>
    simp only []
    have := KeyString_sameUpToEmpty key f1 g1 h2 h3
    rcases hK : f1.KeyString key with ⟨f2, v⟩
    rcases hL : g1.KeyString key with ⟨g2, w⟩
    rw [hK, hL] at this
    simp only [] at this ⊢
    rw [this]

theorem Section_GetSection_other (f : IniFile) (n m : String)
    (hd : (f.GetSection "").isSome = true) (hk : sectionKey m ≠ sectionKey n) :
    (f.Section n).1.GetSection m = f.GetSection m := by
  rcases Section_cases f n hd with ⟨x, _, hS⟩ | ⟨_, hS⟩
  · rw [hS]
  · rw [hS]
    show (⟨f.sections ++ [⟨sectionKey n, []⟩]⟩ : IniFile).GetSection m = _
    rw [GetSection_append]
    cases f.GetSection m with
    | some z => rfl
    | none =>
      show (if sectionKey n = sectionKey m then some _ else none) = _
      rw [if_neg (fun c => hk c.symm)]

theorem resolveDevice_store (inp : Inputs) (env : Env) (store : Store) (names : SectionNames)
    (hd : store.HasSection "" = true) :
    (resolveDevice inp env store names).2 = store ∨
    (deviceFromStore inp env ∧
      (resolveDevice inp env store names).2 = store.Section names.LongTerm) := by
  unfold resolveDevice
  split_ifs with h1 h2
  · exact Or.inl rfl
  · exact Or.inl rfl
  · right
    refine ⟨⟨h1, h2⟩, ?_⟩
    have := Get_store store names.LongTerm "aws_mfa_device" hd
    rcases hG : store.Get names.LongTerm "aws_mfa_device" with ⟨⟨v, ok⟩, s1⟩
    rw [hG] at this
    simp only [] at this ⊢
    split_ifs <;> exact this

theorem Resolve_store_cases (inp : Inputs) (env : Env) (store : Store)
    (hd : store.HasSection "" = true) :
    (Resolve inp env store).2 = store ∨
    ∃ names, ComputeSectionNames (resolveProfile inp env) inp.LongTermSuffix
        inp.ShortTermSuffix = .ok names ∧ deviceFromStore inp env ∧
      (Resolve inp env store).2 = store.Section names.LongTerm := by
  unfold Resolve
  simp only []
  cases hn : ComputeSectionNames (resolveProfile inp env) inp.LongTermSuffix
      inp.ShortTermSuffix with
  | error err => exact Or.inl rfl
  | ok names =>
    simp only []
    have hdev := resolveDevice_store inp env store names hd
    rcases hD : resolveDevice inp env store names with ⟨dv, s1⟩
    rw [hD] at hdev
    simp only [] at hdev ⊢
    have hres : s1 = store ∨ ∃ names2, Except.ok names = Except.ok (ε := Err) names2 ∧
        deviceFromStore inp env ∧ s1 = store.Section names2.LongTerm := by
      rcases hdev with e | ⟨e1, e2⟩
      · exact Or.inl e
      · exact Or.inr ⟨names, rfl, e1, e2⟩
    cases dv with
    | none => exact hres
    | some device =>
      simp only []
      cases resolveDuration inp env with
      | error err => exact hres
      | ok duration => exact hres

/-- C24, amended: on a store that has its default section, `Get` gives after
`Resolve` the answer it gave before, for every section and key, and
`HasSection` too, but for the names under which the store finds the long-term
section (the names equal to its name once lower-cased as `strings.ToLower`
does) when `Resolve` looks the device up in a store without that section:
`Resolve` creates the section, empty. -/
theorem C24_resolve_frame (inp : Inputs) (env : Env) (store : Store)
    (hDefault : store.HasSection "" = true) :
    (∀ n k, ((Resolve inp env store).2.Get n k).1 = (store.Get n k).1) ∧
    (∀ n, (Resolve inp env store).2.HasSection n = store.HasSection n ∨
      ∃ names, ComputeSectionNames (resolveProfile inp env) inp.LongTermSuffix
          inp.ShortTermSuffix = .ok names ∧ deviceFromStore inp env ∧
        sectionKey n = sectionKey names.LongTerm ∧ store.HasSection n = false ∧
        (Resolve inp env store).2.HasSection n = true) := by
  rcases Resolve_store_cases inp env store hDefault with e | ⟨names, hn, hdev, e⟩
  · rw [e]
    exact ⟨fun _ _ => rfl, fun _ => Or.inl rfl⟩
  · rw [e]
    constructor
    · intro n k
      exact Get_sameUpToEmpty store (store.Section names.LongTerm)
        (Section_self_sameUpToEmpty store.ini names.LongTerm hDefault) hDefault n k
    · intro n
      by_cases hk : sectionKey n = sectionKey names.LongTerm
      · cases hs : store.HasSection n with
        | true =>
          left
          have h1 : store.HasSection names.LongTerm = true := by
            unfold Store.HasSection at hs ⊢
            rw [← GetSection_sectionKey store.ini n names.LongTerm hk]
            exact hs
          unfold Store.HasSection at h1
          obtain ⟨x, hx⟩ := Option.isSome_iff_exists.mp h1
          unfold Store.Section
          rw [Section_of_GetSection store.ini _ x hx]
          exact hs
        | false =>
          right
          refine ⟨names, hn, hdev, hk, rfl, ?_⟩
          unfold Store.HasSection Store.Section
          simp only []
          rw [GetSection_sectionKey _ n names.LongTerm hk]
          exact Section_present store.ini names.LongTerm hDefault
      · left
        unfold Store.HasSection Store.Section
        simp only []
        rw [Section_GetSection_other store.ini names.LongTerm n hDefault hk]

/-- C24 at a store without long-term section, the device being looked up in
the store: the device key is as absent after `Resolve` as before. -/
theorem C24_resolve_frame_witness :
    ((Resolve { testInputs with Device := "", DeviceChanged := false } (envOf [])
        freshStore).2.Get "default-long-term" "aws_mfa_device").1
      = (freshStore.Get "default-long-term" "aws_mfa_device").1 :=
  (C24_resolve_frame { testInputs with Device := "", DeviceChanged := false } (envOf [])
    freshStore (by decide)).1 "default-long-term" "aws_mfa_device"

/-- C24, as stated, fails: on a store loaded from a path without a file, with
no explicit device and no `MFA_DEVICE`, `Resolve` returns the missing-device
error and leaves a store in which the long-term section exists, which did not
exist before. For the profile `É` the section that `Resolve` creates is found
under the lower-cased name `é-long-term`. -/
theorem C24_counterexample :
    freshStore.HasSection "default-long-term" = false ∧
    (Resolve { testInputs with Device := "", DeviceChanged := false } (envOf [])
      freshStore).1 = .error .missingDevice ∧
    (Resolve { testInputs with Device := "", DeviceChanged := false } (envOf [])
      freshStore).2.HasSection "default-long-term" = true ∧
    freshStore.HasSection "é-long-term" = false ∧
    (Resolve { testInputs with Profile := "É", Device := "", DeviceChanged := false }
      (envOf []) freshStore).2.HasSection "é-long-term" = true := by
  decide

/-! ## What a section holds itself, and the claims about sections -/

theorem TrimSpace_empty_spaces (w : String) (h : TrimSpace w = "") :
    ∀ c ∈ w.data, isSpace c = true := by
  unfold TrimSpace trimRightRunes trimLeftRunes at h
  have h1 : ((w.data.dropWhile isSpace).reverse.dropWhile isSpace).reverse = [] :=
    congrArg String.data h
  rw [List.reverse_eq_nil_iff, List.dropWhile_eq_nil_iff] at h1
  have h2 : w.data.dropWhile isSpace = [] := by
    cases hl : w.data.dropWhile isSpace with
    | nil => rfl
    | cons c rest =>
      have hc : isSpace c = true := h1 c (by rw [hl]; simp)
      have hn := List.head_dropWhile_not isSpace w.data (by rw [hl]; simp)
      simp only [hl, List.head_cons] at hn
      rw [hc] at hn
      cases hn
  rw [List.dropWhile_eq_nil_iff] at h2
  exact h2

theorem TrimSpace_empty_plain (w : String) (h : TrimSpace w = "") :
    w.data.contains '%' = false := by
  rw [Bool.eq_false_iff]
  intro c
  have hm : '%' ∈ w.data := by simpa using c
  have := TrimSpace_empty_spaces w h '%' hm
  revert this
  decide

/-- `Get` on a section that exists and whose name has no dot, in terms of what
the section holds itself. -/
theorem Get_own_present (s : Store) (sec key : String) (h : s.HasSection sec = true)
    (hdot : '.' ∉ sec.data) :
    (s.ini.ownValue sec key = none → s.Get sec key = (("", false), s)) ∧
    (∀ v, s.ini.ownValue sec key = some v → v.data.contains '%' = false →
      s.Get sec key = ((TrimSpace v, true), s)) := by
  unfold Store.HasSection at h
  rw [Option.isSome_iff_exists] at h
  obtain ⟨x, hx⟩ := h
  unfold Store.Get
  rw [Section_of_GetSection s.ini sec x hx]
  simp only []
  rw [GetKey_dotfree s.ini sec key x hx hdot]
  unfold IniFile.ownValue
  rw [hx]
  simp only [Option.some_bind]
  cases x.ownKey (ToLower key) with
  | none =>
    constructor
    · intro _; rfl
    · intro v hv; cases hv
  | some w =>
    constructor
    · intro hv; cases hv
    · intro v hv hp
      cases hv
      simp only [Option.map_some']
      unfold IniFile.KeyString
      simp only [hp, Bool.not_false, if_true]

theorem absentOrEmpty_of_own (s : Store) (sec key : String) (hdot : '.' ∉ sec.data)
    (hs : s.HasSection sec = true ∨ s.HasSection "" = true)
    (h : ownAbsentOrEmpty s sec key) : absentOrEmpty s sec key := by
  have hG : (s.ini.ownValue sec key = none → (s.Get sec key).1 = ("", false)) ∧
      (∀ v, s.ini.ownValue sec key = some v → v.data.contains '%' = false →
        (s.Get sec key).1 = (TrimSpace v, true)) := by
    rcases hs with hs | hs
    · obtain ⟨a, b⟩ := Get_own_present s sec key hs hdot
      exact ⟨fun e => by rw [a e], fun v e p => by rw [b v e p]⟩
    · exact Get_ownValue s sec key hs hdot
  unfold ownAbsentOrEmpty at h
  unfold absentOrEmpty
  cases ho : s.ini.ownValue sec key with
  | none => rw [hG.1 ho]; exact Or.inl rfl
  | some w =>
    rw [ho] at h
    simp only [] at h
    rw [hG.2 w ho (TrimSpace_empty_plain w h)]
    exact Or.inr h

theorem own_of_absentOrEmpty (s : Store) (sec key : String) (hdot : '.' ∉ sec.data)
    (hs : s.HasSection sec = true ∨ s.HasSection "" = true)
    (hp : ownPlain s sec key)
    (h : absentOrEmpty s sec key) : ownAbsentOrEmpty s sec key := by
  have hG : (s.ini.ownValue sec key = none → (s.Get sec key).1 = ("", false)) ∧
      (∀ v, s.ini.ownValue sec key = some v → v.data.contains '%' = false →
        (s.Get sec key).1 = (TrimSpace v, true)) := by
    rcases hs with hs | hs
    · obtain ⟨a, b⟩ := Get_own_present s sec key hs hdot
      exact ⟨fun e => by rw [a e], fun v e p => by rw [b v e p]⟩
    · exact Get_ownValue s sec key hs hdot
  unfold ownAbsentOrEmpty
  unfold absentOrEmpty at h
  unfold ownPlain at hp
  cases ho : s.ini.ownValue sec key with
  | none => trivial
  | some w =>
    rw [ho] at hp
    simp only [] at hp ⊢
    rw [hG.2 w ho hp] at h
    rcases h with h | h
    · cases h
    · exact h

theorem DeleteKey_ownValue (s : Store) (sec key sec2 key2 : String)
    (hd : s.HasSection "" = true) (hne : ToLower key2 ≠ key) :
    (s.DeleteKey sec key).ini.ownValue sec2 key2 = s.ini.ownValue sec2 key2 ∧
    (s.DeleteKey sec key).HasSection "" = true := by
  have h2 := Section_ownValue s.ini sec sec2 key2 hd
  have h3 := Section_mono s.ini sec "" hd
  unfold Store.DeleteKey
  rcases hS : s.ini.Section sec with ⟨ini1, x⟩
  rw [hS] at h2 h3
  simp only [] at h2 h3 ⊢
  have hg : ∀ y : IniSection,
      ({ y with keys := eraseFirstKey key y.keys } : IniSection).name = y.name :=
    fun _ => rfl
  constructor
  · rw [← h2]
    unfold IniFile.ownValue
    rw [GetSection_updateFirst _ _ hg]
    cases ini1.GetSection sec2 with
    | none => rfl
    | some y =>
      simp only [Option.map_some', Option.some_bind]
      unfold updSection
      split_ifs
      · rw [ownKey_eraseFirstKey_other key _ hne y]
        simp only [Option.map_id, id]
      · rfl
  · unfold Store.HasSection
    simp only []
    rw [GetSection_updateFirst _ _ hg]
    rw [Option.isSome_iff_exists] at h3
    obtain ⟨d, hdd⟩ := h3
    rw [hdd]; rfl

/-- The writes of `Run` into a short-term section whose name has no dot do not
panic, and leave the five values in the section itself. -/
theorem writeCredentials_own (s : Store) (sec : String) (o : GetSessionTokenOutput)
    (hd : s.HasSection "" = true) (hdot : '.' ∉ sec.data) :
    ∃ final, writeCredentials s sec o = some final ∧
      final.ini.ownValue sec "aws_access_key_id" = some o.AccessKeyID ∧
      final.ini.ownValue sec "aws_secret_access_key" = some o.SecretAccessKey ∧
      final.ini.ownValue sec "aws_session_token" = some o.SessionToken ∧
      final.ini.ownValue sec "aws_security_token" = some o.SessionToken ∧
      final.ini.ownValue sec "expiration" = some o.Expiration.UTC.Format := by
  have hd0 := Store_Section_default s sec hd
  obtain ⟨s1, h1, d1, _, v1⟩ := Set_ownValue (s.Section sec) sec "aws_access_key_id"
    o.AccessKeyID hd0 hdot (by decide)
  obtain ⟨s2, h2, d2, _, v2⟩ := Set_ownValue s1 sec "aws_secret_access_key"
    o.SecretAccessKey d1 hdot (by decide)
  obtain ⟨s3, h3, d3, _, v3⟩ := Set_ownValue s2 sec "aws_session_token"
    o.SessionToken d2 hdot (by decide)
  obtain ⟨s4, h4, d4, _, v4⟩ := Set_ownValue s3 sec "aws_security_token"
    o.SessionToken d3 hdot (by decide)
  obtain ⟨s5, h5, d5, _, v5⟩ := Set_ownValue s4 sec "expiration"
    o.Expiration.UTC.Format d4 hdot (by decide)
  obtain ⟨s6, h6, d6, _, v6⟩ := Set_ownValue s5 sec "assumed_role" "False" d5 hdot (by decide)
  have e1 : ToLower "aws_access_key_id" = "aws_access_key_id" := by decide
  have e2 : ToLower "aws_secret_access_key" = "aws_secret_access_key" := by decide
  have e3 : ToLower "aws_session_token" = "aws_session_token" := by decide
  have e4 : ToLower "aws_security_token" = "aws_security_token" := by decide
  have e5 : ToLower "expiration" = "expiration" := by decide
  have e6 : ToLower "assumed_role" = "assumed_role" := by decide
  refine ⟨s6.DeleteKey sec "assumed_role_arn", ?_, ?_, ?_, ?_, ?_, ?_⟩
  · unfold writeCredentials
    simp only [Option.bind_eq_bind, Option.pure_def, h1, h2, h3, h4, h5, h6, Option.some_bind]
  · rw [(DeleteKey_ownValue s6 sec _ sec _ d6 (by decide)).1, v6, v5, v4, v3, v2, v1]
    simp only [e1, e2, e3, e4, e5, e6, true_and, if_true]
    simp +decide only [if_false, if_true]
  · rw [(DeleteKey_ownValue s6 sec _ sec _ d6 (by decide)).1, v6, v5, v4, v3, v2]
    simp only [e1, e2, e3, e4, e5, e6, true_and, if_true]
    simp +decide only [if_false, if_true]
  · rw [(DeleteKey_ownValue s6 sec _ sec _ d6 (by decide)).1, v6, v5, v4, v3]
    simp only [e1, e2, e3, e4, e5, e6, true_and, if_true]
    simp +decide only [if_false, if_true]
  · rw [(DeleteKey_ownValue s6 sec _ sec _ d6 (by decide)).1, v6, v5, v4]
    simp only [e1, e2, e3, e4, e5, e6, true_and, if_true]
    simp +decide only [if_false, if_true]
  · rw [(DeleteKey_ownValue s6 sec _ sec _ d6 (by decide)).1, v6, v5]
    simp only [e1, e2, e3, e4, e5, e6, true_and, if_true]
    simp +decide only [if_false, if_true]

theorem Get_fst_ownValue (s : Store) (sec key : String) (hdot : '.' ∉ sec.data)
    (hs : s.HasSection sec = true ∨ s.HasSection "" = true) :
    (s.ini.ownValue sec key = none → (s.Get sec key).1 = ("", false)) ∧
    (∀ v, s.ini.ownValue sec key = some v → v.data.contains '%' = false →
      (s.Get sec key).1 = (TrimSpace v, true)) := by
  rcases hs with hs | hs
  · obtain ⟨a, b⟩ := Get_own_present s sec key hs hdot
    exact ⟨fun e => by rw [a e], fun v e p => by rw [b v e p]⟩
  · exact Get_ownValue s sec key hs hdot

/-- C11, as stated, fails: the section `prod.eu` exists and holds none of the
five required keys, the section `prod` is complete and has not expired, and
without `force` the decision for `prod.eu` is `still valid`. -/
theorem C11_counterexample :
    childStore.HasSection "prod.eu" = true ∧
    (∀ k ∈ shortTermRequiredKeys, childStore.ini.ownValue "prod.eu" k = none) ∧
    (DecideRefresh testNow childStore "prod.eu" false).1 =
      { ShouldRefresh := false, ExpiresAt := some (Date 2026 2 9 11 0 0 0),
        Remaining := some 3600000000000, Reason := "still valid" } := by
  decide

/-- C11, amended: with `force = false` and a short-term section that exists
and whose name has no dot, when at least one of the five required keys is
absent from the section or has there a value that is empty after trimming,
`DecideRefresh` returns `ShouldRefresh = true` with the reason
`short-term section missing required keys`, whatever `now` is and whether or
not the expiration parses. -/
theorem C11_keys_missing (now : Time) (store : Store) (shortTermSection : String)
    (h : store.HasSection shortTermSection = true)
    (hDot : '.' ∉ shortTermSection.data)
    (hk : ∃ k ∈ shortTermRequiredKeys, ownAbsentOrEmpty store shortTermSection k) :
    (DecideRefresh now store shortTermSection false).1 =
      { ShouldRefresh := true, ExpiresAt := none, Remaining := none,
        Reason := "short-term section missing required keys" } := by
  obtain ⟨k, hk1, hk2⟩ := hk
  rw [(DecideRefresh_present now store shortTermSection h).1,
    if_pos ⟨k, hk1, absentOrEmpty_of_own store shortTermSection k hDot (Or.inl h) hk2⟩]
  rfl

/-- C11, amended, on a section whose secret key is blank and whose expiration
does not parse. -/
theorem C11_keys_missing_witness :
    incompleteStore.ini.ownValue "default" "aws_secret_access_key" = some "  " ∧
    (∃ e, ParseExpiration (incompleteStore.Get "default" "expiration").1.1 = .error e) ∧
    (DecideRefresh testNow incompleteStore "default" false).1 =
      { ShouldRefresh := true, ExpiresAt := none, Remaining := none,
        Reason := "short-term section missing required keys" } :=
  ⟨by decide, ⟨_, rfl⟩,
    C11_keys_missing testNow incompleteStore "default" (by decide) (by decide)
      ⟨"aws_secret_access_key", by decide, by decide⟩⟩

/-- C25, as stated, fails. Two stores have the same empty section `prod.eu`
and differ in the section `prod`: the decisions for `prod.eu` differ. Two
stores have a section `default` with the same values for the five required
keys, the expiration being `%(e)s`, and differ in the key `e` of the section:
the decisions for `default` differ. -/
theorem C25_counterexample :
    childStore.HasSection "prod.eu" = emptyChildStore.HasSection "prod.eu" ∧
    childStore.ini.GetSection "prod.eu" = emptyChildStore.ini.GetSection "prod.eu" ∧
    (DecideRefresh testNow childStore "prod.eu" false).1.Reason = "still valid" ∧
    (DecideRefresh testNow emptyChildStore "prod.eu" false).1.Reason
      = "short-term section missing required keys" ∧
    (∀ k ∈ shortTermRequiredKeys,
      (referringExpiryStore "2026-02-09 11:00:00").ini.ownValue "default" k
        = (referringExpiryStore "2000-01-01 00:00:00").ini.ownValue "default" k) ∧
    (DecideRefresh testNow (referringExpiryStore "2026-02-09 11:00:00") "default" false).1.Reason
      = "still valid" ∧
    (DecideRefresh testNow (referringExpiryStore "2000-01-01 00:00:00") "default" false).1.Reason
      = "expired" := by
  decide

/-- C25, amended: the decision of `DecideRefresh` is the same on two stores in
which the section exists or not alike and, when it exists, its name has no dot
and the section holds itself the same value, without a percent sign, or no
value alike, for each of the five required keys; and the call leaves the store
as it was. The store has its default section, as every file that the library
parses. -/
theorem C25_decision_depends_on_section (now : Time) (force : Bool) (sec : String)
    (s1 s2 : Store) (hSec : s1.HasSection sec = s2.HasSection sec)
    (hKeys : s1.HasSection sec = true → '.' ∉ sec.data ∧
      ∀ k ∈ shortTermRequiredKeys,
        s1.ini.ownValue sec k = s2.ini.ownValue sec k ∧ ownPlain s1 sec k)
    (hDefault : s1.HasSection "" = true) :
    (DecideRefresh now s1 sec force).1 = (DecideRefresh now s2 sec force).1 ∧
    (DecideRefresh now s1 sec force).2 = s1 := by
  refine DecideRefresh_congr now force sec s1 s2 hSec ?_ hDefault
  intro hs k hk
  obtain ⟨hdot, hv⟩ := hKeys hs
  obtain ⟨he, hp⟩ := hv k hk
  have hs2 : s2.HasSection sec = true := by rw [← hSec]; exact hs
  obtain ⟨a1, b1⟩ := Get_fst_ownValue s1 sec k hdot (Or.inl hs)
  obtain ⟨a2, b2⟩ := Get_fst_ownValue s2 sec k hdot (Or.inl hs2)
  unfold ownPlain at hp
  cases ho : s1.ini.ownValue sec k with
  | none => rw [a1 ho, a2 (by rw [← he]; exact ho)]
  | some w =>
    rw [ho] at hp
    simp only [] at hp
    rw [b1 w ho hp, b2 w (by rw [← he]; exact ho) hp]

/-- C25, amended, at the store of `TestDecideRefresh_StillValid` and the same
store with one more key and one more section. -/
theorem C25_decision_depends_on_section_witness :
    (DecideRefresh testNow validStore "default" false).1
      = (DecideRefresh testNow
          ⟨"credentials", ⟨validStore.ini.sections.map
            (fun x => { x with keys := x.keys ++ [("region", "eu-west-1")] })
            ++ [⟨"other", [("expiration", "2000-01-01 00:00:00")]⟩]⟩⟩ "default" false).1 ∧
    (DecideRefresh testNow validStore "default" false).2 = validStore :=
  C25_decision_depends_on_section testNow false "default" validStore _ (by decide)
    (fun _ => by decide) (by decide)

theorem ownDeviceSource_eq (inp : Inputs) (env : Env) (store : Store) (longTerm : String)
    (hDefault : store.HasSection "" = true)
    (hDot : deviceFromStore inp env → '.' ∉ longTerm.data)
    (hPlain : deviceFromStore inp env → ownPlain store longTerm "aws_mfa_device") :
    firstDeviceSource inp env store longTerm = ownDeviceSource inp env store longTerm := by
  unfold firstDeviceSource ownDeviceSource
  by_cases h1 : inp.DeviceChanged = true ∧ TrimSpace inp.Device ≠ ""
  · rw [if_pos h1, if_pos h1]
  · rw [if_neg h1, if_neg h1]
    by_cases h2 : TrimSpace (env "MFA_DEVICE") ≠ ""
    · rw [if_pos h2, if_pos h2]
    · rw [if_neg h2, if_neg h2]
      have hdev : deviceFromStore inp env := by
        unfold deviceFromStore
        constructor
        · intro c; apply h1; simpa using c
        · intro c; apply h2; simpa using c
      obtain ⟨a, b⟩ := Get_ownValue store longTerm "aws_mfa_device" hDefault (hDot hdev)
      have hp := hPlain hdev
      unfold ownPlain at hp
      cases ho : store.ini.ownValue longTerm "aws_mfa_device" with
      | none =>
        rw [a ho]
        simp
      | some w =>
        rw [ho] at hp
        simp only [] at hp ⊢
        rw [b w ho hp]
        simp

/-- C3, as stated, fails. For the profile `my.org`, without an explicit device
and without `MFA_DEVICE`, the long-term section `my.org-long-term` holds no
`aws_mfa_device` and the section `my` holds one: `Resolve` succeeds with the
device of `my`. For the profile `default`, the long-term section holds the
device `%(x)s` and the key `x`: the device that `Resolve` returns is the value
of `x`. -/
theorem C3_counterexample :
    ComputeSectionNames (resolveProfile dottedInputs (envOf [])) dottedInputs.LongTermSuffix
      dottedInputs.ShortTermSuffix = .ok ⟨"my.org-long-term", "my.org"⟩ ∧
    deviceFromStore dottedInputs (envOf []) ∧
    parentDeviceStore.ini.GetSection "my.org-long-term" = some ⟨"my.org-long-term", []⟩ ∧
    (Resolve dottedInputs (envOf []) parentDeviceStore).1
      = .ok { Profile := "my.org", LongTermSection := "my.org-long-term",
              ShortTermSection := "my.org", Device := "parent-device",
              DurationSeconds := 43200, Token := "", Force := false,
              CredentialsFile := "credentials" } ∧
    referringDeviceStore.ini.ownValue "default-long-term" "aws_mfa_device" = some "%(x)s" ∧
    (Resolve { testInputs with DeviceChanged := false } (envOf []) referringDeviceStore).1
      = .ok { Profile := "default", LongTermSection := "default-long-term",
              ShortTermSection := "default", Device := "dev",
              DurationSeconds := 43200, Token := "", Force := false,
              CredentialsFile := "credentials" } := by
  decide

/-- C3, amended: when section naming succeeds, on a store that has its default
section (as every store that `Load` returns has) and, in case the device is
neither given explicitly nor by `MFA_DEVICE`, with a long-term section whose
name has no dot and whose `aws_mfa_device`, if it holds one, has no percent
sign: `Resolve` fails with the missing-device error exactly when none of the
three sources (the explicit device when marked as changed, `MFA_DEVICE`, the
trimmed value that the long-term section holds for `aws_mfa_device`) yields a
non-empty value; when it succeeds, the device is the value of the first source
that yields one, and is not empty. -/
theorem C3_device_precedence (inp : Inputs) (env : Env) (store : Store) (names : SectionNames)
    (hn : ComputeSectionNames (resolveProfile inp env) inp.LongTermSuffix inp.ShortTermSuffix
      = .ok names)
    (hDefault : store.HasSection "" = true)
    (hDot : deviceFromStore inp env → '.' ∉ names.LongTerm.data)
    (hPlain : deviceFromStore inp env → ownPlain store names.LongTerm "aws_mfa_device") :
    ((Resolve inp env store).1 = .error .missingDevice ↔
      ownDeviceSource inp env store names.LongTerm = none) ∧
    (∀ r, (Resolve inp env store).1 = .ok r →
      ownDeviceSource inp env store names.LongTerm = some r.Device ∧ r.Device ≠ "") := by
  rw [← ownDeviceSource_eq inp env store names.LongTerm hDefault hDot hPlain]
  exact Resolve_device inp env store names hn

/-- C3, amended, on the data of `TestResolve_DeviceEnvThenStore`: without an
explicit device and without `MFA_DEVICE`, the device is the one that the
long-term section holds. -/
theorem C3_device_precedence_witness :
    testStore.ini.ownValue "default-long-term" "aws_mfa_device" = some "from-store" ∧
    (Resolve { testInputs with DeviceChanged := false } (envOf []) testStore).1
      = .ok { Profile := "default", LongTermSection := "default-long-term",
              ShortTermSection := "default", Device := "from-store",
              DurationSeconds := 43200, Token := "", Force := false,
              CredentialsFile := "credentials" } ∧
    ownDeviceSource { testInputs with DeviceChanged := false } (envOf []) testStore
      "default-long-term" = some "from-store" :=
  ⟨by decide, by decide,
    ((C3_device_precedence { testInputs with DeviceChanged := false } (envOf []) testStore
      ⟨"default-long-term", "default"⟩ (by decide) (by decide) (fun _ => by decide)
      (fun _ => by decide)).2
      { Profile := "default", LongTermSection := "default-long-term",
        ShortTermSection := "default", Device := "from-store",
        DurationSeconds := 43200, Token := "", Force := false,
        CredentialsFile := "credentials" } (by decide)).1⟩

/-- C23, as stated, fails. For the profile `my.org` the long-term section
`my.org-long-term` holds neither `aws_access_key_id` nor
`aws_secret_access_key`, and the section `my` holds both: `Run` does not fail,
and calls the STS factory with the key pair of `my`. And on a section whose
key `k` has the value `%(x)s`, which is not empty, and whose key `x` is empty,
`MustGet` fails for `k`. -/
theorem C23_counterexample :
    (Store.mk "credentials" parentKeysFile).ini.ownValue "my.org-long-term" "aws_access_key_id"
      = none ∧
    (Store.mk "credentials" parentKeysFile).ini.ownValue "my.org-long-term"
      "aws_secret_access_key" = none ∧
    (Run dottedRunInputs (testDeps testNow []) (testSys parentKeysFile)).err = none ∧
    (Run dottedRunInputs (testDeps testNow []) (testSys parentKeysFile)).factoryCalls
      = [("us-east-1", "AKIA_OTHER", "SECRET_OTHER")] ∧
    emptyReferenceStore.ini.ownValue "s" "k" = some "%(x)s" ∧
    TrimSpace "%(x)s" ≠ "" ∧
    (emptyReferenceStore.MustGet "s" "k").1 = .error (.missingKey "k" "s") := by
  decide

/-- C23, amended. On a store that has its default section (as every store that
`Load` returns has) and for a section name without a dot: `MustGet` returns the
missing-key error when the key is absent from the section or its value there
is empty after trimming; and when the section holds for the key a value that
is not empty after trimming and has no percent sign, `MustGet` returns that
value trimmed, which is what `Get` returns with `true`. Consequently, when the
long-term section has a name without a dot and lacks a non-empty
`aws_access_key_id` or `aws_secret_access_key`, `Run` returns an error, calls
neither the STS factory nor the Session Exchanger, replaces no file, and has
printed nothing but the profile line. -/
theorem C23_long_term_keys_required (inp : RunInputs) (deps : Deps) (sys : Sys) (env : Env)
    (store : Store) (r : Resolved)
    (hEnv : deps.Env = some env)
    (hLoad : Load (ExpandHome sys.os inp.Inputs.CredentialsFile)
      (sys.probe (ExpandHome sys.os inp.Inputs.CredentialsFile)) = .ok store)
    (hDefault : store.HasSection "" = true)
    (hResolve : (Resolve inp.Inputs env store).1 = .ok r)
    (hDot : '.' ∉ r.LongTermSection.data)
    (hLack : ownAbsentOrEmpty store r.LongTermSection "aws_access_key_id" ∨
      ownAbsentOrEmpty store r.LongTermSection "aws_secret_access_key") :
    (∀ (s : Store) (sec key : String), s.HasSection "" = true → '.' ∉ sec.data →
      (ownAbsentOrEmpty s sec key → (s.MustGet sec key).1 = .error (.missingKey key sec)) ∧
      (∀ w, s.ini.ownValue sec key = some w → TrimSpace w ≠ "" →
        w.data.contains '%' = false →
        (s.MustGet sec key).1 = .ok (TrimSpace w) ∧
        (s.Get sec key).1 = (TrimSpace w, true))) ∧
    (Run inp deps sys).err ≠ none ∧ (Run inp deps sys).factoryCalls = [] ∧
    (Run inp deps sys).exchangeCalls = [] ∧ (Run inp deps sys).saved = none ∧
    (∀ m ∈ (Run inp deps sys).printed, m = .usingProfile r.ShortTermSection) := by
  constructor
  · intro s sec key hd hdot
    constructor
    · intro ha
      rw [(MustGet_spec s sec key).1,
        if_pos (absentOrEmpty_of_own s sec key hdot (Or.inr hd) ha)]
    · intro w hw hne hp
      have hg := (Get_ownValue s sec key hd hdot).2 w hw hp
      refine ⟨?_, hg⟩
      have hna : ¬ absentOrEmpty s sec key := by
        unfold absentOrEmpty
        rw [hg]
        rintro (c | c)
        · cases c
        · exact hne c
      rw [(MustGet_spec s sec key).1, if_neg hna, hg]
  · apply Run_longTerm_missing inp deps sys env store r hEnv hLoad hDefault hResolve
    rcases hLack with c | c
    · exact Or.inl (absentOrEmpty_of_own store _ _ hDot (Or.inr hDefault) c)
    · exact Or.inr (absentOrEmpty_of_own store _ _ hDot (Or.inr hDefault) c)

/-- C23, amended, at a credentials file whose long-term section has no
`aws_secret_access_key`. -/
theorem C23_long_term_keys_required_witness :
    (Run testRunInputs (testDeps testNow [])
      (testSys ⟨[⟨"default", []⟩, ⟨"default-long-term",
        [("aws_access_key_id", "AKIA_LT"), ("aws_mfa_device", "device")]⟩]⟩)).err
      = some (.longTermMissing "default-long-term" "aws_secret_access_key") ∧
    (Run testRunInputs (testDeps testNow [])
      (testSys ⟨[⟨"default", []⟩, ⟨"default-long-term",
        [("aws_access_key_id", "AKIA_LT"), ("aws_mfa_device", "device")]⟩]⟩)).exchangeCalls
      = [] :=
  ⟨by decide,
   (C23_long_term_keys_required testRunInputs (testDeps testNow [])
      (testSys ⟨[⟨"default", []⟩, ⟨"default-long-term",
        [("aws_access_key_id", "AKIA_LT"), ("aws_mfa_device", "device")]⟩]⟩)
      (envOf [])
      ⟨"credentials", ⟨[⟨"default", []⟩, ⟨"default-long-term",
        [("aws_access_key_id", "AKIA_LT"), ("aws_mfa_device", "device")]⟩]⟩⟩
      { Profile := "default", LongTermSection := "default-long-term"
        ShortTermSection := "default", Device := "device", DurationSeconds := 43200
        Token := "123456", Force := true, CredentialsFile := "credentials" }
      rfl (by decide) (by decide) (by decide) (by decide) (by decide)).2.2.2.1⟩

/-- C15, as stated, fails: for the profile `prod.eu`, on a credentials file
that holds a section `prod` with the five keys, `Run` refreshes and returns no
error, the Session Exchanger is called once, and the five values are written
into the section `prod`; the short-term section `prod.eu` of the saved store
holds `assumed_role` only. -/
theorem C15_counterexample :
    (Run childRunInputs (testDeps testNow []) (testSys childFile)).err = none ∧
    (Run childRunInputs (testDeps testNow []) (testSys childFile)).exchangeCalls.length = 1 ∧
    ((Run childRunInputs (testDeps testNow []) (testSys childFile)).saved.map
      fun f => (f.GetSection "prod.eu", f.ownValue "prod.eu" "aws_access_key_id",
        f.ownValue "prod" "aws_access_key_id"))
      = some (some ⟨"prod.eu", [("assumed_role", "False")]⟩, none, some "ASIA_ST") := by
  decide

/-- C15, amended: when the short-term section has a name without a dot, and
`Run` calls the Session Exchanger and returns no error, the exchanger was called
exactly once, on the client that the factory returned, and with `o` the bundle
it returned, the file saved is the one of the store that `Run` leaves, in which
the short-term section holds `aws_access_key_id` equal to `o.AccessKeyID`,
`aws_secret_access_key` equal to `o.SecretAccessKey`, `aws_session_token` and
`aws_security_token` both equal to `o.SessionToken`, and `expiration` equal to
`o.Expiration` in UTC, formatted as `YYYY-MM-DD HH:MM:SS`. The store loaded has
its default section, as every file that the library parses. -/
theorem C15_refresh_writes_credentials (inp : RunInputs) (deps : Deps) (sys : Sys)
    (env : Env) (factory : STSFactory) (store0 : Store) (r : Resolved)
    (hEnv : deps.Env = some env) (hFactory : deps.STSFactory = some factory)
    (hLoad : Load (ExpandHome sys.os inp.Inputs.CredentialsFile)
      (sys.probe (ExpandHome sys.os inp.Inputs.CredentialsFile)) = .ok store0)
    (hDefault : store0.HasSection "" = true)
    (hResolve : (Resolve inp.Inputs env store0).1 = .ok r)
    (hDot : '.' ∉ r.ShortTermSection.data)
    (hErr : (Run inp deps sys).err = none)
    (hRefresh : (Run inp deps sys).exchangeCalls ≠ []) :
    ∃ region keyID secret client input o final,
      (Run inp deps sys).factoryCalls = [(region, keyID, secret)] ∧
      factory region keyID secret = .ok client ∧
      (Run inp deps sys).exchangeCalls = [input] ∧ client input = .ok o ∧
      (Run inp deps sys).store = some final ∧ (Run inp deps sys).saved = some final.ini ∧
      final.ini.ownValue r.ShortTermSection "aws_access_key_id" = some o.AccessKeyID ∧
      final.ini.ownValue r.ShortTermSection "aws_secret_access_key" = some o.SecretAccessKey ∧
      final.ini.ownValue r.ShortTermSection "aws_session_token" = some o.SessionToken ∧
      final.ini.ownValue r.ShortTermSection "aws_security_token" = some o.SessionToken ∧
      final.ini.ownValue r.ShortTermSection "expiration" = some o.Expiration.UTC.Format := by
  unfold Run at hErr hRefresh ⊢
  cases h : runUntilDecision inp deps sys with
  | inl t =>
    rw [h] at hRefresh
    exact absurd (runUntilDecision_inl inp deps sys t h).2.1 hRefresh
  | inr st =>
    rw [h] at hErr
    simp only [] at hErr ⊢
    obtain ⟨env1, factory1, store1, r1, hE, hF, hL, hR, hres, hfac, hdef⟩ :=
      runUntilDecision_inr_state inp deps sys st h
    rw [hEnv] at hE
    rw [hFactory] at hF
    rw [hLoad] at hL
    cases hE
    cases hF
    cases hL
    rw [hResolve] at hR
    cases hR
    obtain ⟨token, client, o, final, _, hfc, hcl, hW, hfcalls, hxcalls, hstore, hsaved⟩ :=
      runRefresh_ok inp sys st hErr
    rw [hfac] at hfc
    rw [hres] at hW
    obtain ⟨final1, hW1, w1, w2, w3, w4, w5⟩ :=
      writeCredentials_own st.store r.ShortTermSection o (hdef hDefault) hDot
    rw [hW] at hW1
    cases hW1
    exact ⟨_, _, _, client, _, o, final, hfcalls, hfc, hxcalls, hcl, hstore, hsaved,
      w1, w2, w3, w4, w5⟩

/-- C15, amended, at `TestRun_RefreshWritesCredentials`; the expiry
2026-02-09T12:00:00Z of the bundle is stored as `2026-02-09 12:00:00`. -/
theorem C15_refresh_writes_credentials_witness :
    fakeOutput.Expiration.UTC.Format = "2026-02-09 12:00:00" ∧
    ∃ region keyID secret client input o final,
      (Run testRunInputs (testDeps testNow []) (testSys longTermFile)).factoryCalls
        = [(region, keyID, secret)] ∧
      fakeFactory region keyID secret = .ok client ∧
      (Run testRunInputs (testDeps testNow []) (testSys longTermFile)).exchangeCalls
        = [input] ∧ client input = .ok o ∧
      (Run testRunInputs (testDeps testNow []) (testSys longTermFile)).store = some final ∧
      (Run testRunInputs (testDeps testNow []) (testSys longTermFile)).saved
        = some final.ini ∧
      final.ini.ownValue "default" "aws_access_key_id" = some o.AccessKeyID ∧
      final.ini.ownValue "default" "aws_secret_access_key" = some o.SecretAccessKey ∧
      final.ini.ownValue "default" "aws_session_token" = some o.SessionToken ∧
      final.ini.ownValue "default" "aws_security_token" = some o.SessionToken ∧
      final.ini.ownValue "default" "expiration" = some o.Expiration.UTC.Format :=
  ⟨by decide,
   C15_refresh_writes_credentials testRunInputs (testDeps testNow []) (testSys longTermFile)
    (envOf []) fakeFactory ⟨"credentials", longTermFile⟩
    { Profile := "default", LongTermSection := "default-long-term", ShortTermSection := "default"
      Device := "arn:aws:iam::123456789012:mfa/me", DurationSeconds := 43200
      Token := "123456", Force := true, CredentialsFile := "credentials" }
    rfl rfl (by decide) (by decide) (by decide) (by decide) (by decide) (by decide)⟩

end AwsMfa
